import Mathlib

/-!
# Marian: the node contract and the operator nodes

A shallow embedding of `src/node.h` and `src/node_operators.h`.

* Scalars (`Float`) are elements of an arbitrary linearly ordered field `F`: arithmetic is
  exact, rounding is not modelled.
* The graph is a store from node addresses (`ChainPtr`) to node states; an operator node
  keeps the addresses of its parents, so a parent shared by several consumers is one
  store cell and every consumer accumulates into the same gradient tensor.
* `tensor.h`, `tensor_operators.h`, `keywords.h` and the definitions header are not part of
  the sources at hand. What the node code needs from them is modelled from the
  specification (each such definition says so) or taken as a parameter (`whatevs`,
  `Kernels`).
* A dimension of a shape is a 32-bit signed `int`; the batch size is a `size_t` and is
  narrowed when `allocate` stores it as a dimension (`dimOfBatchSize`).
-/

namespace marian

/-! ## Errors -/

/-- The ways a call can fail: an exception raised by `UTIL_THROW_IF2`, or a use the
sources leave undefined (indexing a shape outside its length, a kernel applied to
unallocated or misaligned tensors). -/
inductive Err where
  | thrown (msg : String)
  | undefined
  deriving DecidableEq, Repr

/-! ## Shapes -/

/-- The ordered sequence of dimension sizes. The element type is declared outside the
sources at hand and is taken to be the 32-bit signed `int`: a dimension is an integer
from -2^31 to 2^31 - 1, which leaves room for a sentinel that is no valid size. -/
abbrev Shape := List Int

/-- The conversion in `d = batchSize`, of the `size_t` batch size into a dimension: the
value is reduced modulo 2^32 into the range of the 32-bit signed `int`. A batch size
below 2^31 is kept; 4294967295 becomes -1 and 4294967300 becomes 4. -/
def dimOfBatchSize (batchSize : Nat) : Int :=
  if batchSize % 4294967296 < 2147483648 then ((batchSize % 4294967296 : Nat) : Int)
  else ((batchSize % 4294967296 : Nat) : Int) - 4294967296

/-- Read `shape[i]`. -/
def Shape.index (s : Shape) (i : Nat) : Except Err Int :=
  match s.get? i with
  | some d => .ok d
  | none => .error .undefined

/-- Write `shape[i] = d`. -/
def Shape.assign (s : Shape) (i : Nat) (d : Int) : Except Err Shape :=
  if i < s.length then .ok (s.set i d) else .error .undefined

/-- Number of rows of a two-dimensional shape, as a count. -/
def Shape.rows (s : Shape) : Nat := (s.getD 0 0).toNat

/-- Number of columns of a two-dimensional shape, as a count. -/
def Shape.cols (s : Shape) : Nat := (s.getD 1 0).toNat

/-! ## Tensors -/

/-- Modelled from the spec: the dense tensor of `tensor.h` (not among the sources). It has
an "allocated" state (what `operator bool` reports), a shape, and a value buffer. Every
tensor the node code touches is a matrix (`shape[0]` rows, `shape[1]` columns), so the
buffer is viewed as a function of (row, column); cells outside the shape carry no
meaning. A tensor is a handle: copies of it share the buffer. -/
structure Tensor (F : Type) where
  allocated : Bool
  shape : Shape
  data : Nat → Nat → F

/-- Modelled from the spec: a default-constructed tensor, not allocated. -/
def Tensor.null {F : Type} [Zero F] : Tensor F :=
  { allocated := false, shape := [], data := fun _ _ => 0 }

/-- Modelled from the spec: `Tensor::allocate(shape)` and `Tensor::allocate(shape, value)`
("allocate-with-shape, optionally filled with a constant"; "supports full reallocation").
The tensor becomes allocated with the given shape; with a fill value every cell holds it,
without one the cells are left as they were (value-uninitialised). -/
def Tensor.allocate {F : Type} (t : Tensor F) (shape : Shape) (value : Option F) : Tensor F :=
  { allocated := true
    shape := shape
    data := match value with
      | some v => fun _ _ => v
      | none => t.data }

/-- Modelled from the spec: `Tensor::set(value)`, the in-place refill of an allocated
tensor; the shape is kept. -/
def Tensor.set {F : Type} (t : Tensor F) (value : F) : Tensor F :=
  { t with data := fun _ _ => value }

/-! ## Keyword arguments -/

/-- One keyword argument of a node constructor (`keywords::shape = ...` and so on). -/
inductive Keyword (F : Type) where
  | shape (v : Shape)
  | name (v : String)
  | lazy_shape (v : Unit → Shape)
  | value (v : F)
  | lazy_value (v : Unit → F)
  | init (v : Tensor F → Tensor F)

/-- Modelled from the spec: the keyword store of `keywords.h` (not among the sources): for
each key at most one value. `Has(key)` is `isSome` of the field, `Get(key, d)` is `getD d`. -/
structure Keywords (F : Type) where
  shape : Option Shape
  name : Option String
  lazy_shape : Option (Unit → Shape)
  value : Option F
  lazy_value : Option (Unit → F)
  init : Option (Tensor F → Tensor F)

/-- The store of a constructor called without keyword arguments. -/
def Keywords.empty {F : Type} : Keywords F :=
  { shape := none, name := none, lazy_shape := none, value := none, lazy_value := none,
    init := none }

/-- Modelled from the spec: storing one keyword argument. A key given again replaces the
earlier value: this is how the shape an operator derives "unless noted" (Argmax) takes
the place of the parent-shape default passed before it. -/
def Keywords.add {F : Type} (kw : Keywords F) : Keyword F → Keywords F
  | .shape v => { kw with shape := some v }
  | .name v => { kw with name := some v }
  | .lazy_shape v => { kw with lazy_shape := some v }
  | .value v => { kw with value := some v }
  | .lazy_value v => { kw with lazy_value := some v }
  | .init v => { kw with init := some v }

/-- Modelled from the spec: `Keywords(args...)`, the store built from the arguments in
the order they are passed. -/
def Keywords.ofArgs {F : Type} (args : List (Keyword F)) : Keywords F :=
  args.foldl Keywords.add Keywords.empty

/-- Whether an argument is `keywords::shape = ...`. -/
def Keyword.isShape {F : Type} : Keyword F → Bool
  | .shape _ => true
  | _ => false

/-! ## Nodes -/

/-- The address of a node (`ChainPtr`). -/
abbrev ChainPtr := Nat

/-- The node classes of `node_operators.h`, each operator with the addresses of its
parents (`a_`, and `b_` for a binary operator). -/
inductive Op where
  | Input
  | Constant
  | Param
  | Logit (a : ChainPtr)
  | Tanh (a : ChainPtr)
  | ReLU (a : ChainPtr)
  | Dropout (a : ChainPtr)
  | Softmax (a : ChainPtr)
  | Argmax (a : ChainPtr)
  | Log (a : ChainPtr)
  | Exp (a : ChainPtr)
  | Neg (a : ChainPtr)
  | Dot (a b : ChainPtr)
  | Plus (a b : ChainPtr)
  | Minus (a b : ChainPtr)
  | Mult (a b : ChainPtr)
  | Div (a b : ChainPtr)
  | CrossEntropy (a b : ChainPtr)
  deriving DecidableEq, Repr

/-- The state of a node: the members of `Node` (`shape_`, `name_`, `val_`, `adj_`, and the
keyword store it inherits), and the members the subclasses add: `init_` and
`initialized_` (ParamNode), `p_` and `seed_` (DropoutNodeOp), `probs_`
(CrossEntropyNodeOp). -/
structure Node (F : Type) where
  op : Op
  keywords : Keywords F
  shape_ : Shape
  name_ : String
  val_ : Tensor F
  adj_ : Tensor F
  init_ : Tensor F → Tensor F
  initialized_ : Bool
  p_ : F
  seed_ : Int
  probs_ : Tensor F

set_option linter.unusedSectionVars false

variable {F : Type} [LinearOrderedField F]

/-- The constructor `Node(args...)`: `shape_` is the shape keyword or `{1, 1}`, `name_` the
name keyword or "none"; both tensors start unallocated. The subclass members get the
values the subclass constructors give them (`init_` the init keyword or a function that
does nothing, `initialized_` false, `p_` one half); `seed` stands for `time(0)`. -/
def Node.new (op : Op) (kw : Keywords F) (seed : Int) : Node F :=
  { op := op
    keywords := kw
    shape_ := kw.shape.getD [1, 1]
    name_ := kw.name.getD "none"
    val_ := Tensor.null
    adj_ := Tensor.null
    init_ := kw.init.getD id
    initialized_ := false
    p_ := 1 / 2
    seed_ := seed
    probs_ := Tensor.null }

/-- The first two statements of `Node::allocate(batchSize)`, which compute the shape the
call writes into `shape_` before it touches the value tensor: every dimension equal to
the sentinel `whatevs` becomes the batch size, converted to a dimension; a deferred-shape
producer, when the store has one, is called and its result replaces the shape. The
sentinel is declared outside the sources and is a parameter. -/
def Node.resolveShape (whatevs : Int) (batchSize : Nat) (n : Node F) : Shape :=
  let shape1 : Shape :=
    n.shape_.map (fun d => if d = whatevs then dimOfBatchSize batchSize else d)
  if n.keywords.lazy_shape.isSome then (n.keywords.lazy_shape.getD (fun _ => shape1)) ()
  else shape1

/-- The text `Node::allocate(batchSize)`: the shape is resolved as in `resolveShape`; the
value tensor is allocated with the resulting shape, filled from the deferred-value
producer, else from the value keyword, else not filled. -/
def Node.allocate (whatevs : Int) (batchSize : Nat) (n : Node F) : Node F :=
  let shape2 : Shape := Node.resolveShape whatevs batchSize n
  let val : Tensor F :=
    if n.keywords.lazy_value.isSome then
      n.val_.allocate shape2 (some ((n.keywords.lazy_value.getD (fun _ => 0)) ()))
    else if n.keywords.value.isSome then
      n.val_.allocate shape2 (some (n.keywords.value.getD 0))
    else
      n.val_.allocate shape2 none
  { n with shape_ := shape2, val_ := val }

/-- The override `ParamNode::allocate(batchSize)`: the value tensor is allocated with the
shape as it stands, and the initialiser runs if it has not run before. The batch size is
not used. -/
def ParamNode.allocate (_batchSize : Nat) (n : Node F) : Node F :=
  let val : Tensor F := n.val_.allocate n.shape_ none
  if !n.initialized_ then
    { n with val_ := n.init_ val, initialized_ := true }
  else
    { n with val_ := val }

/-- Virtual dispatch of `allocate`: ParamNode overrides it, every other class inherits
`Node::allocate`. -/
def Node.allocateV (whatevs : Int) (batchSize : Nat) (n : Node F) : Node F :=
  match n.op with
  | .Param => ParamNode.allocate batchSize n
  | _ => Node.allocate whatevs batchSize n

/-- The text `Node::init_dependent()`. -/
def Node.init_dependent (n : Node F) : Node F :=
  if n.adj_.allocated then { n with adj_ := n.adj_.set 1 }
  else { n with adj_ := n.adj_.allocate n.shape_ (some 1) }

/-- The text `Node::set_zero_adjoint()`. -/
def Node.set_zero_adjoint (n : Node F) : Node F :=
  if n.adj_.allocated then { n with adj_ := n.adj_.set 0 }
  else { n with adj_ := n.adj_.allocate n.shape_ (some 0) }

/-- The text `Node::val()`. -/
def Node.val (n : Node F) : Except Err (Tensor F) :=
  if !n.val_.allocated then .error (.thrown "Tensor has not been allocated") else .ok n.val_

/-- The text `Node::grad()`. -/
def Node.grad (n : Node F) : Except Err (Tensor F) :=
  if !n.adj_.allocated then .error (.thrown "Tensor has not been allocated") else .ok n.adj_

/-- The text `Node::shape()`. -/
def Node.shape (n : Node F) : Shape := n.shape_

/-! ## Construction of the nodes whose shape is derived -/

/-- The state of the graph: the node stored at each address. -/
abbrev Graph (F : Type) := ChainPtr → Node F

/-- The text `DotNodeOp::newShape(a, b)`, on the two parents' shapes. -/
def DotNodeOp.newShape (shape1 shape2 : Shape) : Except Err Shape := do
  let c1 ← shape1.index 1
  let r2 ← shape2.index 0
  if c1 ≠ r2 then
    throw (Err.thrown "matrix product requires dimensions to match")
  let c2 ← shape2.index 1
  shape1.assign 1 c2

/-- The constructor `DotNodeOp(a, b, args...)`: the base node is built from
`keywords::shape = newShape(a, b)` followed by the caller's arguments. -/
def DotNodeOp.new (g : Graph F) (a b : ChainPtr) (args : List (Keyword F)) (seed : Int) :
    Except Err (Node F) := do
  let s ← DotNodeOp.newShape (g a).shape (g b).shape
  pure (Node.new (.Dot a b) (Keywords.ofArgs (Keyword.shape s :: args)) seed)

/-- The text `CrossEntropyNodeOp::newShape(a, b)`, on the two parents' shapes. -/
def CrossEntropyNodeOp.newShape (shape1 shape2 : Shape) : Except Err Shape := do
  let r1 ← shape1.index 0
  let r2 ← shape2.index 0
  if r1 ≠ r2 then
    throw (Err.thrown "cross entropy requires dimensions to match")
  let c1 ← shape1.index 1
  let c2 ← shape2.index 1
  if c1 ≠ c2 then
    throw (Err.thrown "cross entropy requires dimensions to match")
  shape1.assign 1 1

/-- The constructor `CrossEntropyNodeOp(a, b, args...)`. -/
def CrossEntropyNodeOp.new (g : Graph F) (a b : ChainPtr) (args : List (Keyword F))
    (seed : Int) : Except Err (Node F) := do
  let s ← CrossEntropyNodeOp.newShape (g a).shape (g b).shape
  pure (Node.new (.CrossEntropy a b) (Keywords.ofArgs (Keyword.shape s :: args)) seed)

/-! ## Tensor kernels -/

/-- The scalar functions and the kernels of `tensor_operators.h` that are used as black
boxes: the functors `Sigma`, `Tanh`, `Log`, `Exp`, and the buffer transformations of the
in-place row-wise `Softmax`, of `Argmax` and of `Dropout` (mask from a probability and a
seed), each acting on the cells of a buffer of a given shape. -/
structure Kernels (F : Type) where
  Sigma : F → F
  Tanh : F → F
  Log : F → F
  Exp : F → F
  Softmax : Shape → (Nat → Nat → F) → (Nat → Nat → F)
  Argmax : Shape → (Nat → Nat → F) → (Nat → Nat → F)
  Dropout : Shape → (Nat → Nat → F) → F → Int → (Nat → Nat → F)

/-- Modelled from the spec: `Element(functor, out, in)`, "elementwise apply of an n-ary
expression over aligned tensors into a destination". The functor is given as the new
value of `_1` in terms of the old `_1` and of `_2`, so `_1 += e` is `fun x1 x2 => x1 + e`.
Tensors that are unallocated or not of the destination's shape are outside the
kernel's contract. -/
def Element2 (f : F → F → F) (out in2 : Tensor F) : Except Err (Tensor F) :=
  if out.allocated = true ∧ in2.allocated = true ∧ in2.shape = out.shape then
    .ok { out with data := fun i j => f (out.data i j) (in2.data i j) }
  else .error .undefined

/-- Modelled from the spec: `Element(functor, out, in, in)`, as `Element2` with the
placeholders `_1`, `_2`, `_3`. -/
def Element3 (f : F → F → F → F) (out in2 in3 : Tensor F) : Except Err (Tensor F) :=
  if out.allocated = true ∧ in2.allocated = true ∧ in3.allocated = true
      ∧ in2.shape = out.shape ∧ in3.shape = out.shape then
    .ok { out with data := fun i j => f (out.data i j) (in2.data i j) (in3.data i j) }
  else .error .undefined

/-- Modelled from the spec: `Element(functor, out, in, in, in)`, as `Element2` with the
placeholders `_1` to `_4`. -/
def Element4 (f : F → F → F → F → F) (out in2 in3 in4 : Tensor F) : Except Err (Tensor F) :=
  if out.allocated = true ∧ in2.allocated = true ∧ in3.allocated = true
      ∧ in4.allocated = true
      ∧ in2.shape = out.shape ∧ in3.shape = out.shape ∧ in4.shape = out.shape then
    .ok { out with
      data := fun i j => f (out.data i j) (in2.data i j) (in3.data i j) (in4.data i j) }
  else .error .undefined

/-- Modelled from the spec: `Prod(C, A, B, transA, transB, beta)`, the "accumulating
matrix product with transpose flags and a scalar accumulation weight":
`C = op(A) * op(B) + beta * C`. The operands must be allocated matrices whose inner
dimensions agree, and `C` must have the shape of the product. -/
def Prod (C A B : Tensor F) (transA transB : Bool) (beta : F) : Except Err (Tensor F) :=
  let m : Nat := if transA then A.shape.cols else A.shape.rows
  let k : Nat := if transA then A.shape.rows else A.shape.cols
  let l : Nat := if transB then B.shape.cols else B.shape.rows
  let n : Nat := if transB then B.shape.rows else B.shape.cols
  if C.allocated = true ∧ A.allocated = true ∧ B.allocated = true
      ∧ A.shape = [(A.shape.rows : Int), (A.shape.cols : Int)]
      ∧ B.shape = [(B.shape.rows : Int), (B.shape.cols : Int)]
      ∧ k = l ∧ C.shape = [(m : Int), (n : Int)] then
    .ok { C with
      data := fun i j =>
        (Finset.sum (Finset.range k) fun x =>
          (if transA then A.data x i else A.data i x)
            * (if transB then B.data j x else B.data x j))
        + beta * C.data i j }
  else .error .undefined

/-- Modelled from the spec: the constructor `Tensor(shape)`: an allocated tensor of the
given shape. -/
def Tensor.ofShape (shape : Shape) : Tensor F :=
  (Tensor.null : Tensor F).allocate shape none

/-- Modelled from the spec: `thrust::copy(src.begin(), src.end(), dst.begin())` between
two allocated tensors of one shape: the cells of `src` are copied into `dst`. -/
def Tensor.copyFrom (dst src : Tensor F) : Except Err (Tensor F) :=
  if dst.allocated = true ∧ src.allocated = true ∧ src.shape = dst.shape then
    .ok { dst with data := src.data }
  else .error .undefined

/-- Modelled from the spec: `ScaleRowwise(out, scale)`, "row-wise scale-by-vector": row
`i` of `out` is multiplied by entry `i` of the column vector `scale`. -/
def ScaleRowwise (out scale : Tensor F) : Except Err (Tensor F) :=
  if out.allocated = true ∧ scale.allocated = true
      ∧ out.shape = [(out.shape.rows : Int), (out.shape.cols : Int)]
      ∧ scale.shape = [(out.shape.rows : Int), 1] then
    .ok { out with data := fun i j => out.data i j * scale.data i 0 }
  else .error .undefined

/-- Modelled from the spec: `SumRowwise(in, out)`, "row-wise sum-reduction": entry `i` of
the column vector `out` becomes the sum of row `i` of `in`. -/
def SumRowwise (inp out : Tensor F) : Except Err (Tensor F) :=
  if inp.allocated = true ∧ out.allocated = true
      ∧ inp.shape = [(inp.shape.rows : Int), (inp.shape.cols : Int)]
      ∧ out.shape = [(inp.shape.rows : Int), 1] then
    .ok { out with
      data := fun i j =>
        if j = 0 then Finset.sum (Finset.range inp.shape.cols) fun x => inp.data i x
        else out.data i j }
  else .error .undefined

/-- Modelled from the spec: `SoftmaxGrad(grad, adj, val)`, the "row-wise
softmax-Jacobian-vector product" `p ⊙ (adj − (p·adj)·1)` per row, added into `grad`. -/
def SoftmaxGrad (grad adj val : Tensor F) : Except Err (Tensor F) :=
  if grad.allocated = true ∧ adj.allocated = true ∧ val.allocated = true
      ∧ adj.shape = grad.shape ∧ val.shape = grad.shape then
    .ok { grad with
      data := fun i j =>
        grad.data i j
          + val.data i j * (adj.data i j
              - Finset.sum (Finset.range val.shape.cols) fun x => val.data i x * adj.data i x) }
  else .error .undefined

/-- Modelled from the spec: the in-place `Softmax(&t)` on an allocated tensor. -/
def Softmax (K : Kernels F) (t : Tensor F) : Except Err (Tensor F) :=
  if t.allocated = true then .ok { t with data := K.Softmax t.shape t.data }
  else .error .undefined

/-- Modelled from the spec: `Argmax(&out, &in)` on allocated tensors. -/
def Argmax (K : Kernels F) (out inp : Tensor F) : Except Err (Tensor F) :=
  if out.allocated = true ∧ inp.allocated = true then
    .ok { out with data := K.Argmax inp.shape inp.data }
  else .error .undefined

/-- Modelled from the spec: `Dropout(out, in, p, seed)` on allocated tensors of one
shape. -/
def Dropout (K : Kernels F) (out inp : Tensor F) (p : F) (seed : Int) :
    Except Err (Tensor F) :=
  if out.allocated = true ∧ inp.allocated = true ∧ inp.shape = out.shape then
    .ok { out with data := K.Dropout inp.shape inp.data p seed }
  else .error .undefined

/-! ## The graph store -/

/-- Replace the node at address `p`. -/
def Graph.put (g : Graph F) (p : ChainPtr) (n : Node F) : Graph F :=
  Function.update g p n

/-- Write through the handle of the value tensor of the node at `p`. -/
def Graph.setVal (g : Graph F) (p : ChainPtr) (t : Tensor F) : Graph F :=
  g.put p { g p with val_ := t }

/-- Write through the handle of the gradient tensor of the node at `p`. -/
def Graph.setGrad (g : Graph F) (p : ChainPtr) (t : Tensor F) : Graph F :=
  g.put p { g p with adj_ := t }

/-- Call `set_zero_adjoint()` on the node at `p`. -/
def Graph.set_zero_adjoint (g : Graph F) (p : ChainPtr) : Graph F :=
  g.put p (g p).set_zero_adjoint

/-- Call `init_dependent()` on the node at `p`. -/
def Graph.init_dependent (g : Graph F) (p : ChainPtr) : Graph F :=
  g.put p (g p).init_dependent

/-! ## Unary operators

Each `forward`/`backward` takes the store, the address `n` of the operator node and the
addresses of its parents, and returns the store after the call. `a_->val()` and
`a_->grad()` are the checked accessors; the node's own `val_` and `adj_` are used
directly, as in the source. -/

/-- The text `LogitNodeOp::forward()`. -/
def LogitNodeOp.forward (K : Kernels F) (g : Graph F) (n a : ChainPtr) :
    Except Err (Graph F) := do
  let av ← (g a).val
  let t ← Element2 (fun _ x2 => K.Sigma x2) (g n).val_ av
  pure (g.setVal n t)

/-- The text `LogitNodeOp::backward()`. -/
def LogitNodeOp.backward (g : Graph F) (n a : ChainPtr) : Except Err (Graph F) := do
  let ga ← (g a).grad
  let t ← Element3 (fun x1 x2 x3 => x1 + x2 * x3 * (1 - x3)) ga (g n).adj_ (g n).val_
  pure (g.setGrad a t)

/-- The text `TanhNodeOp::forward()`. -/
def TanhNodeOp.forward (K : Kernels F) (g : Graph F) (n a : ChainPtr) :
    Except Err (Graph F) := do
  let av ← (g a).val
  let t ← Element2 (fun _ x2 => K.Tanh x2) (g n).val_ av
  pure (g.setVal n t)

/-- The text `TanhNodeOp::backward()`. -/
def TanhNodeOp.backward (g : Graph F) (n a : ChainPtr) : Except Err (Graph F) := do
  let ga ← (g a).grad
  let t ← Element3 (fun x1 x2 x3 => x1 + x2 * (1 - x3 * x3)) ga (g n).adj_ (g n).val_
  pure (g.setGrad a t)

/-- The text `ReLUNodeOp::forward()`. -/
def ReLUNodeOp.forward (g : Graph F) (n a : ChainPtr) : Except Err (Graph F) := do
  let av ← (g a).val
  let t ← Element2 (fun _ x2 => max (0 * x2) x2) (g n).val_ av
  pure (g.setVal n t)

/-- The text `ReLUNodeOp::backward()`; the comparison yields 1 or 0. -/
def ReLUNodeOp.backward (g : Graph F) (n a : ChainPtr) : Except Err (Graph F) := do
  let ga ← (g a).grad
  let t ← Element3 (fun x1 x2 x3 => x1 + x2 * (if x3 > 0 then 1 else 0)) ga
    (g n).adj_ (g n).val_
  pure (g.setGrad a t)

/-- The text `DropoutNodeOp::forward()`; the seed is read, then incremented. -/
def DropoutNodeOp.forward (K : Kernels F) (g : Graph F) (n a : ChainPtr) :
    Except Err (Graph F) := do
  let av ← (g a).val
  let t ← Dropout K (g n).val_ av (g n).p_ (g n).seed_
  pure (g.put n { g n with val_ := t, seed_ := (g n).seed_ + 1 })

/-- The text `DropoutNodeOp::backward()`; the comparison yields 1 or 0. -/
def DropoutNodeOp.backward (g : Graph F) (n a : ChainPtr) : Except Err (Graph F) := do
  let ga ← (g a).grad
  let t ← Element3 (fun x1 x2 x3 => x1 + x2 * (if x3 ≠ 0 then 1 else 0)) ga
    (g n).adj_ (g n).val_
  pure (g.setGrad a t)

/-- The text `SoftmaxNodeOp::forward()`. -/
def SoftmaxNodeOp.forward (K : Kernels F) (g : Graph F) (n a : ChainPtr) :
    Except Err (Graph F) := do
  let av ← (g a).val
  let t ← (g n).val_.copyFrom av
  let t ← Softmax K t
  pure (g.setVal n t)

/-- The text `SoftmaxNodeOp::backward()`. -/
def SoftmaxNodeOp.backward (g : Graph F) (n a : ChainPtr) : Except Err (Graph F) := do
  let ga ← (g a).grad
  let t ← SoftmaxGrad ga (g n).adj_ (g n).val_
  pure (g.setGrad a t)

/-- The text `ArgmaxNodeOp::forward()`. -/
def ArgmaxNodeOp.forward (K : Kernels F) (g : Graph F) (n a : ChainPtr) :
    Except Err (Graph F) := do
  let av ← (g a).val
  let t ← Argmax K (g n).val_ av
  pure (g.setVal n t)

/-- The text `ArgmaxNodeOp::backward()`: the body is empty. -/
def ArgmaxNodeOp.backward (g : Graph F) (_n _a : ChainPtr) : Except Err (Graph F) :=
  pure g

/-- The text `LogNodeOp::forward()`. -/
def LogNodeOp.forward (K : Kernels F) (g : Graph F) (n a : ChainPtr) :
    Except Err (Graph F) := do
  let av ← (g a).val
  let t ← Element2 (fun _ x2 => K.Log x2) (g n).val_ av
  pure (g.setVal n t)

/-- The text `LogNodeOp::backward()`. -/
def LogNodeOp.backward (g : Graph F) (n a : ChainPtr) : Except Err (Graph F) := do
  let ga ← (g a).grad
  let av ← (g a).val
  let t ← Element3 (fun x1 x2 x3 => x1 + x2 * (1 / x3)) ga (g n).adj_ av
  pure (g.setGrad a t)

/-- The text `ExpNodeOp::forward()`. -/
def ExpNodeOp.forward (K : Kernels F) (g : Graph F) (n a : ChainPtr) :
    Except Err (Graph F) := do
  let av ← (g a).val
  let t ← Element2 (fun _ x2 => K.Exp x2) (g n).val_ av
  pure (g.setVal n t)

/-- The text `ExpNodeOp::backward()`. -/
def ExpNodeOp.backward (K : Kernels F) (g : Graph F) (n a : ChainPtr) :
    Except Err (Graph F) := do
  let ga ← (g a).grad
  let av ← (g a).val
  let t ← Element3 (fun x1 x2 x3 => x1 + x2 * K.Exp x3) ga (g n).adj_ av
  pure (g.setGrad a t)

/-- The text `NegNodeOp::forward()`. -/
def NegNodeOp.forward (g : Graph F) (n a : ChainPtr) : Except Err (Graph F) := do
  let av ← (g a).val
  let t ← Element2 (fun _ x2 => -x2) (g n).val_ av
  pure (g.setVal n t)

/-- The text `NegNodeOp::backward()`. -/
def NegNodeOp.backward (g : Graph F) (n a : ChainPtr) : Except Err (Graph F) := do
  let ga ← (g a).grad
  let t ← Element2 (fun x1 x2 => x1 + -x2) ga (g n).adj_
  pure (g.setGrad a t)

/-! ## Binary operators -/

/-- The text `DotNodeOp::forward()`: `C = A*B`, nothing accumulated. -/
def DotNodeOp.forward (g : Graph F) (n a b : ChainPtr) : Except Err (Graph F) := do
  let av ← (g a).val
  let bv ← (g b).val
  let t ← Prod (g n).val_ av bv false false 0
  pure (g.setVal n t)

/-- The text `DotNodeOp::backward()`: `df/dA += D*B.T`, then `df/dB += A.T*D`, both with
`beta` 1. -/
def DotNodeOp.backward (g : Graph F) (n a b : ChainPtr) : Except Err (Graph F) := do
  let ga ← (g a).grad
  let bv ← (g b).val
  let t1 ← Prod ga (g n).adj_ bv false true 1
  let g1 := g.setGrad a t1
  let gb ← (g1 b).grad
  let av ← (g1 a).val
  let t2 ← Prod gb av (g1 n).adj_ true false 1
  pure (g1.setGrad b t2)

/-- The text `PlusNodeOp::forward()`. -/
def PlusNodeOp.forward (g : Graph F) (n a b : ChainPtr) : Except Err (Graph F) := do
  let av ← (g a).val
  let bv ← (g b).val
  let t ← Element3 (fun _ x2 x3 => x2 + x3) (g n).val_ av bv
  pure (g.setVal n t)

/-- The text `PlusNodeOp::backward()`. -/
def PlusNodeOp.backward (g : Graph F) (n a b : ChainPtr) : Except Err (Graph F) := do
  let ga ← (g a).grad
  let t1 ← Element2 (fun x1 x2 => x1 + x2) ga (g n).adj_
  let g1 := g.setGrad a t1
  let gb ← (g1 b).grad
  let t2 ← Element2 (fun x1 x2 => x1 + x2) gb (g1 n).adj_
  pure (g1.setGrad b t2)

/-- The text `MinusNodeOp::forward()`. -/
def MinusNodeOp.forward (g : Graph F) (n a b : ChainPtr) : Except Err (Graph F) := do
  let av ← (g a).val
  let bv ← (g b).val
  let t ← Element3 (fun _ x2 x3 => x2 - x3) (g n).val_ av bv
  pure (g.setVal n t)

/-- The text `MinusNodeOp::backward()`. -/
def MinusNodeOp.backward (g : Graph F) (n a b : ChainPtr) : Except Err (Graph F) := do
  let ga ← (g a).grad
  let t1 ← Element2 (fun x1 x2 => x1 + x2) ga (g n).adj_
  let g1 := g.setGrad a t1
  let gb ← (g1 b).grad
  let t2 ← Element2 (fun x1 x2 => x1 - x2) gb (g1 n).adj_
  pure (g1.setGrad b t2)

/-- The text `MultNodeOp::forward()`. -/
def MultNodeOp.forward (g : Graph F) (n a b : ChainPtr) : Except Err (Graph F) := do
  let av ← (g a).val
  let bv ← (g b).val
  let t ← Element3 (fun _ x2 x3 => x2 * x3) (g n).val_ av bv
  pure (g.setVal n t)

/-- The text `MultNodeOp::backward()`. -/
def MultNodeOp.backward (g : Graph F) (n a b : ChainPtr) : Except Err (Graph F) := do
  let ga ← (g a).grad
  let bv ← (g b).val
  let t1 ← Element3 (fun x1 x2 x3 => x1 + x2 * x3) ga (g n).adj_ bv
  let g1 := g.setGrad a t1
  let gb ← (g1 b).grad
  let av ← (g1 a).val
  let t2 ← Element3 (fun x1 x2 x3 => x1 + x2 * x3) gb (g1 n).adj_ av
  pure (g1.setGrad b t2)

/-- The text `DivNodeOp::forward()`. -/
def DivNodeOp.forward (g : Graph F) (n a b : ChainPtr) : Except Err (Graph F) := do
  let av ← (g a).val
  let bv ← (g b).val
  let t ← Element3 (fun _ x2 x3 => x2 / x3) (g n).val_ av bv
  pure (g.setVal n t)

/-- The text `DivNodeOp::backward()`. -/
def DivNodeOp.backward (g : Graph F) (n a b : ChainPtr) : Except Err (Graph F) := do
  let ga ← (g a).grad
  let bv ← (g b).val
  let t1 ← Element3 (fun x1 x2 x3 => x1 + x2 * 1 / x3) ga (g n).adj_ bv
  let g1 := g.setGrad a t1
  let gb ← (g1 b).grad
  let av ← (g1 a).val
  let bv ← (g1 b).val
  let t2 ← Element4 (fun x1 x2 x3 x4 => x1 - x2 * x3 / (x4 * x4)) gb (g1 n).adj_ av bv
  pure (g1.setGrad b t2)

/-- The text `CrossEntropyNodeOp::forward()`: the softmax of the first parent's value is
stored in `probs_` (refilled if already allocated, else allocated with the shape of the
parent's value), then `val_` gets the row sums of `-b * log(probs)`. -/
def CrossEntropyNodeOp.forward (K : Kernels F) (g : Graph F) (n a b : ChainPtr) :
    Except Err (Graph F) := do
  let av ← (g a).val
  let probs0 : Tensor F :=
    if (g n).probs_.allocated then (g n).probs_.set 0
    else (g n).probs_.allocate av.shape (some 0)
  let probs1 ← probs0.copyFrom av
  let probs ← Softmax K probs1
  let g1 := g.put n { g n with probs_ := probs }
  let av ← (g1 a).val
  let bv ← (g1 b).val
  let result ← Element3 (fun _ x2 x3 => -x2 * K.Log x3) (Tensor.ofShape av.shape) bv
    (g1 n).probs_
  let t ← SumRowwise result (g1 n).val_
  pure (g1.setVal n t)

/-- The text `CrossEntropyNodeOp::backward()`: with `result` a scratch tensor of the
shape of `probs_`, the first parent's gradient gets `adj * (p - y)` added, the second
parent's gradient `-adj * log(p)`. -/
def CrossEntropyNodeOp.backward (K : Kernels F) (g : Graph F) (n a b : ChainPtr) :
    Except Err (Graph F) := do
  let result : Tensor F := Tensor.ofShape (g n).probs_.shape
  let bv ← (g b).val
  let result ← Element3 (fun _ x2 x3 => x2 - x3) result (g n).probs_ bv
  let result ← ScaleRowwise result (g n).adj_
  let ga ← (g a).grad
  let t1 ← Element2 (fun x1 x2 => x1 + x2) ga result
  let g1 := g.setGrad a t1
  let result ← Element2 (fun _ x2 => -K.Log x2) result (g1 n).probs_
  let result ← ScaleRowwise result (g1 n).adj_
  let gb ← (g1 b).grad
  let t2 ← Element2 (fun x1 x2 => x1 + x2) gb result
  pure (g1.setGrad b t2)

/-! ## Virtual dispatch -/

/-- The call `forward()` on the node at `n`: the leaf classes do nothing. -/
def Node.forward (K : Kernels F) (g : Graph F) (n : ChainPtr) : Except Err (Graph F) :=
  match (g n).op with
  | .Input => pure g
  | .Constant => pure g
  | .Param => pure g
  | .Logit a => LogitNodeOp.forward K g n a
  | .Tanh a => TanhNodeOp.forward K g n a
  | .ReLU a => ReLUNodeOp.forward g n a
  | .Dropout a => DropoutNodeOp.forward K g n a
  | .Softmax a => SoftmaxNodeOp.forward K g n a
  | .Argmax a => ArgmaxNodeOp.forward K g n a
  | .Log a => LogNodeOp.forward K g n a
  | .Exp a => ExpNodeOp.forward K g n a
  | .Neg a => NegNodeOp.forward g n a
  | .Dot a b => DotNodeOp.forward g n a b
  | .Plus a b => PlusNodeOp.forward g n a b
  | .Minus a b => MinusNodeOp.forward g n a b
  | .Mult a b => MultNodeOp.forward g n a b
  | .Div a b => DivNodeOp.forward g n a b
  | .CrossEntropy a b => CrossEntropyNodeOp.forward K g n a b

/-- The call `backward()` on the node at `n`: the leaf classes do nothing. -/
def Node.backward (K : Kernels F) (g : Graph F) (n : ChainPtr) : Except Err (Graph F) :=
  match (g n).op with
  | .Input => pure g
  | .Constant => pure g
  | .Param => pure g
  | .Logit a => LogitNodeOp.backward g n a
  | .Tanh a => TanhNodeOp.backward g n a
  | .ReLU a => ReLUNodeOp.backward g n a
  | .Dropout a => DropoutNodeOp.backward g n a
  | .Softmax a => SoftmaxNodeOp.backward g n a
  | .Argmax a => ArgmaxNodeOp.backward g n a
  | .Log a => LogNodeOp.backward g n a
  | .Exp a => ExpNodeOp.backward K g n a
  | .Neg a => NegNodeOp.backward g n a
  | .Dot a b => DotNodeOp.backward g n a b
  | .Plus a b => PlusNodeOp.backward g n a b
  | .Minus a b => MinusNodeOp.backward g n a b
  | .Mult a b => MultNodeOp.backward g n a b
  | .Div a b => DivNodeOp.backward g n a b
  | .CrossEntropy a b => CrossEntropyNodeOp.backward K g n a b

/-! ## What one backward call adds -/

/-- The parents of a node: `a_`, and `b_` for a binary operator. -/
def Op.parents : Op → List ChainPtr
  | .Input => []
  | .Constant => []
  | .Param => []
  | .Logit a => [a]
  | .Tanh a => [a]
  | .ReLU a => [a]
  | .Dropout a => [a]
  | .Softmax a => [a]
  | .Argmax a => [a]
  | .Log a => [a]
  | .Exp a => [a]
  | .Neg a => [a]
  | .Dot a b => [a, b]
  | .Plus a b => [a, b]
  | .Minus a b => [a, b]
  | .Mult a b => [a, b]
  | .Div a b => [a, b]
  | .CrossEntropy a b => [a, b]

/-- The contribution of one `backward` call of the node at `n` to cell (i, j) of the
gradient of its parent `p`, as the operator tables give it (with the tests of ReLU and
Dropout on the node's own value, as in the code): a function of the node's adjoint and
value, of the parents' values and of the cached probabilities, never of a gradient of a
parent. A parent that fills both slots of a binary operator receives both amounts. -/
def ownContribution (K : Kernels F) (g : Graph F) (n p : ChainPtr) (i j : Nat) : F :=
  let adj := (g n).adj_.data
  let val := (g n).val_.data
  match (g n).op with
  | .Input => 0
  | .Constant => 0
  | .Param => 0
  | .Logit _ => adj i j * val i j * (1 - val i j)
  | .Tanh _ => adj i j * (1 - val i j * val i j)
  | .ReLU _ => adj i j * (if val i j > 0 then 1 else 0)
  | .Dropout _ => adj i j * (if val i j ≠ 0 then 1 else 0)
  | .Softmax _ =>
      val i j * (adj i j
        - Finset.sum (Finset.range (g n).val_.shape.cols) fun x => val i x * adj i x)
  | .Argmax _ => 0
  | .Log a => adj i j * (1 / (g a).val_.data i j)
  | .Exp a => adj i j * K.Exp ((g a).val_.data i j)
  | .Neg _ => -adj i j
  | .Dot a b =>
      (if p = a then
        Finset.sum (Finset.range (g n).adj_.shape.cols) fun x => adj i x * (g b).val_.data j x
       else 0)
      + (if p = b then
        Finset.sum (Finset.range (g a).val_.shape.rows) fun x => (g a).val_.data x i * adj x j
       else 0)
  | .Plus a b => (if p = a then adj i j else 0) + (if p = b then adj i j else 0)
  | .Minus a b => (if p = a then adj i j else 0) + (if p = b then -adj i j else 0)
  | .Mult a b =>
      (if p = a then adj i j * (g b).val_.data i j else 0)
      + (if p = b then adj i j * (g a).val_.data i j else 0)
  | .Div a b =>
      (if p = a then adj i j / (g b).val_.data i j else 0)
      + (if p = b then
          -(adj i j * (g a).val_.data i j / ((g b).val_.data i j * (g b).val_.data i j))
         else 0)
  | .CrossEntropy a b =>
      (if p = a then ((g n).probs_.data i j - (g b).val_.data i j) * adj i 0 else 0)
      + (if p = b then -K.Log ((g n).probs_.data i j) * adj i 0 else 0)

/-! ## Passes over small graphs -/

/-- The elementwise unary operators: every operator with one parent but the row-wise
Softmax and Argmax. -/
def Op.isElementwiseUnary : Op → Bool
  | .Logit _ => true
  | .Tanh _ => true
  | .ReLU _ => true
  | .Dropout _ => true
  | .Log _ => true
  | .Exp _ => true
  | .Neg _ => true
  | _ => false

/-- A node is allocated with shape `s`: its shape and its value tensor's shape are `s`,
the value tensor is allocated, and the gradient tensor, if already allocated, has shape
`s` as well. This is the state `allocate` leaves, before or after earlier iterations. -/
def Node.Ready (s : Shape) (n : Node F) : Prop :=
  n.val_.allocated = true ∧ n.val_.shape = s ∧ n.shape_ = s
    ∧ (n.adj_.allocated = true → n.adj_.shape = s)

/-- The first part of the run of the fan-out property on `y = f(x); z = g(x);
loss = y + z`: forward in construction order, `set_zero_adjoint` on x, y and z,
`init_dependent` on the loss, then backward on the loss. -/
def fanOutSeed (K : Kernels F) (g : Graph F) (x y z loss : ChainPtr) :
    Except Err (Graph F) := do
  let g ← Node.forward K g y
  let g ← Node.forward K g z
  let g ← Node.forward K g loss
  let g := ((g.set_zero_adjoint x).set_zero_adjoint y).set_zero_adjoint z
  let g := g.init_dependent loss
  Node.backward K g loss

/-- The whole run of the fan-out property: `fanOutSeed`, then backward on y and z, in
the order `yFirst` chooses. -/
def fanOutPass (K : Kernels F) (g : Graph F) (x y z loss : ChainPtr) (yFirst : Bool) :
    Except Err (Graph F) := do
  let g ← fanOutSeed K g x y z loss
  if yFirst then do
    let g ← Node.backward K g y
    Node.backward K g z
  else do
    let g ← Node.backward K g z
    Node.backward K g y

/-- The buffer `forward` of an elementwise unary node writes into its value tensor, given
the node (its operator, and for Dropout its probability and seed) and the parent's value
tensor. For the other classes: the buffer as it is. -/
def elementwiseValue (K : Kernels F) (n : Node F) (av : Tensor F) : Nat → Nat → F :=
  match n.op with
  | .Logit _ => fun i j => K.Sigma (av.data i j)
  | .Tanh _ => fun i j => K.Tanh (av.data i j)
  | .ReLU _ => fun i j => max (0 * av.data i j) (av.data i j)
  | .Dropout _ => K.Dropout av.shape av.data n.p_ n.seed_
  | .Log _ => fun i j => K.Log (av.data i j)
  | .Exp _ => fun i j => K.Exp (av.data i j)
  | .Neg _ => fun i j => -av.data i j
  | _ => n.val_.data

/-- The forward part of the run on `y = Tanh(Plus(Dot(W, x), b))`, in construction
order: the product, the sum, the tanh. -/
def chainForward (K : Kernels F) (g : Graph F) (d p y : ChainPtr) : Except Err (Graph F) := do
  let g ← Node.forward K g d
  let g ← Node.forward K g p
  Node.forward K g y

/-- The whole run on `y = Tanh(Plus(Dot(W, x), b))` with W at `w`, the product at `d`
and the sum at `p`: forward, `set_zero_adjoint` on every node but y, `init_dependent` on
y, then backward in reverse construction order: the tanh, the sum, the product. -/
def chainPass (K : Kernels F) (g : Graph F) (w x b d p y : ChainPtr) :
    Except Err (Graph F) := do
  let g ← chainForward K g d p y
  let g := ((((g.set_zero_adjoint w).set_zero_adjoint x).set_zero_adjoint b).set_zero_adjoint
    d).set_zero_adjoint p
  let g := g.init_dependent y
  let g ← Node.backward K g y
  let g ← Node.backward K g p
  Node.backward K g d

/-! ## Construction of the leaf nodes and of the unary operators -/

/-- Whether an argument is `keywords::lazy_shape = ...`. -/
def Keyword.isLazyShape {F : Type} : Keyword F → Bool
  | .lazy_shape _ => true
  | _ => false

/-- The constructor `InputNode(args...)`: the base node is built, then the check that a
shape or a deferred shape was given. -/
def InputNode.new (args : List (Keyword F)) (seed : Int) : Except Err (Node F) :=
  let n : Node F := Node.new .Input (Keywords.ofArgs args) seed
  if !n.keywords.shape.isSome && !n.keywords.lazy_shape.isSome then
    throw (Err.thrown "Data items require shape information")
  else pure n

/-- The constructor `ConstantNode(args...)`. -/
def ConstantNode.new (args : List (Keyword F)) (seed : Int) : Except Err (Node F) :=
  let n : Node F := Node.new .Constant (Keywords.ofArgs args) seed
  if !n.keywords.shape.isSome && !n.keywords.lazy_shape.isSome then
    throw (Err.thrown "Constant items require shape information")
  else pure n

/-- The constructor `ParamNode(args...)`: `init_` is the init keyword or a function that
does nothing and `initialized_` is false (both set by `Node.new`), then the check. -/
def ParamNode.new (args : List (Keyword F)) (seed : Int) : Except Err (Node F) :=
  let n : Node F := Node.new .Param (Keywords.ofArgs args) seed
  if !n.keywords.shape.isSome && !n.keywords.lazy_shape.isSome then
    throw (Err.thrown "Param items require shape information")
  else pure n

/-- The body of `ParamNode::allocate(batchSize)` once more, with a second result: the
number of times the call invokes `init_`. -/
def ParamNode.allocateTraced (_batchSize : Nat) (n : Node F) : Node F × Nat :=
  let val : Tensor F := n.val_.allocate n.shape_ none
  if !n.initialized_ then
    ({ n with val_ := n.init_ val, initialized_ := true }, 1)
  else
    ({ n with val_ := val }, 0)

/-- A sequence of `allocate` calls on a parameter, one per batch size of the list: the
node after the last call and, call by call, the number of invocations of `init_`. -/
def ParamNode.allocateAll : List Nat → Node F → Node F × List Nat
  | [], n => (n, [])
  | b :: bs, n =>
    let r := ParamNode.allocateTraced b n
    let rs := ParamNode.allocateAll bs r.1
    (rs.1, r.2 :: rs.2)

/-- The constructor `UnaryNodeOp(a, args...)` of the class `op`: the base node is built
from `keywords::shape = a->shape()` followed by the arguments. -/
def UnaryNodeOp.new (op : Op) (g : Graph F) (a : ChainPtr) (args : List (Keyword F))
    (seed : Int) : Node F :=
  Node.new op (Keywords.ofArgs (Keyword.shape (g a).shape :: args)) seed

/-- The text `ArgmaxNodeOp::newShape(a)`, on the parent's shape. -/
def ArgmaxNodeOp.newShape (shape : Shape) : Except Err Shape :=
  shape.assign 1 1

/-- The constructor `ArgmaxNodeOp(a, args...)`: the unary constructor is called with
`keywords::shape = newShape(a)` followed by the caller's arguments. -/
def ArgmaxNodeOp.new (g : Graph F) (a : ChainPtr) (args : List (Keyword F)) (seed : Int) :
    Except Err (Node F) := do
  let s ← ArgmaxNodeOp.newShape (g a).shape
  pure (UnaryNodeOp.new (.Argmax a) g a (Keyword.shape s :: args) seed)

/-- The constructors of the other unary operators, such as `LogitNodeOp(args...)`, pass
their arguments on to `UnaryNodeOp`. -/
def LogitNodeOp.new (g : Graph F) (a : ChainPtr) (args : List (Keyword F)) (seed : Int) :
    Node F :=
  UnaryNodeOp.new (.Logit a) g a args seed

/-- A tensor is allocated and has the given shape. -/
def Tensor.AllocatedWith (t : Tensor F) (s : Shape) : Prop :=
  t.allocated = true ∧ t.shape = s

/-- The store is ready for `backward` of the node at `n`: every tensor the call gets
through a checked accessor or hands to a kernel is allocated, and the shapes are aligned
as the kernels of the operator need them. The gradients are those of the parents and of
the node itself; the values are those the operator's `backward` reads (its own for
Logit, Tanh, ReLU, Dropout and Softmax, the parents' for Log, Exp, Mult, Div and Dot, the
cached probabilities and the second parent's for CrossEntropy). The leaf classes and
Argmax, whose `backward` is empty, need nothing. This is the state that `allocate` and
`forward` on the nodes, and `set_zero_adjoint` or `init_dependent` on the gradients, leave
in a well-shaped graph; it says nothing about `backward` itself. -/
def Graph.BackwardReady (g : Graph F) (n : ChainPtr) : Prop :=
  match (g n).op with
  | .Input => True
  | .Constant => True
  | .Param => True
  | .Logit a => ∃ s, (g a).adj_.AllocatedWith s ∧ (g n).adj_.AllocatedWith s
      ∧ (g n).val_.AllocatedWith s
  | .Tanh a => ∃ s, (g a).adj_.AllocatedWith s ∧ (g n).adj_.AllocatedWith s
      ∧ (g n).val_.AllocatedWith s
  | .ReLU a => ∃ s, (g a).adj_.AllocatedWith s ∧ (g n).adj_.AllocatedWith s
      ∧ (g n).val_.AllocatedWith s
  | .Dropout a => ∃ s, (g a).adj_.AllocatedWith s ∧ (g n).adj_.AllocatedWith s
      ∧ (g n).val_.AllocatedWith s
  | .Softmax a => ∃ s, (g a).adj_.AllocatedWith s ∧ (g n).adj_.AllocatedWith s
      ∧ (g n).val_.AllocatedWith s
  | .Argmax _ => True
  | .Log a => ∃ s, (g a).adj_.AllocatedWith s ∧ (g n).adj_.AllocatedWith s
      ∧ (g a).val_.AllocatedWith s
  | .Exp a => ∃ s, (g a).adj_.AllocatedWith s ∧ (g n).adj_.AllocatedWith s
      ∧ (g a).val_.AllocatedWith s
  | .Neg a => ∃ s, (g a).adj_.AllocatedWith s ∧ (g n).adj_.AllocatedWith s
  | .Dot a b => ∃ m k l : Nat,
      (g a).val_.AllocatedWith [(m : Int), (k : Int)]
      ∧ (g b).val_.AllocatedWith [(k : Int), (l : Int)]
      ∧ (g n).adj_.AllocatedWith [(m : Int), (l : Int)]
      ∧ (g a).adj_.AllocatedWith [(m : Int), (k : Int)]
      ∧ (g b).adj_.AllocatedWith [(k : Int), (l : Int)]
  | .Plus a b => ∃ s, (g a).adj_.AllocatedWith s ∧ (g b).adj_.AllocatedWith s
      ∧ (g n).adj_.AllocatedWith s
  | .Minus a b => ∃ s, (g a).adj_.AllocatedWith s ∧ (g b).adj_.AllocatedWith s
      ∧ (g n).adj_.AllocatedWith s
  | .Mult a b => ∃ s, (g a).adj_.AllocatedWith s ∧ (g b).adj_.AllocatedWith s
      ∧ (g n).adj_.AllocatedWith s ∧ (g a).val_.AllocatedWith s ∧ (g b).val_.AllocatedWith s
  | .Div a b => ∃ s, (g a).adj_.AllocatedWith s ∧ (g b).adj_.AllocatedWith s
      ∧ (g n).adj_.AllocatedWith s ∧ (g a).val_.AllocatedWith s ∧ (g b).val_.AllocatedWith s
  | .CrossEntropy a b => ∃ r c : Nat,
      (g n).probs_.AllocatedWith [(r : Int), (c : Int)]
      ∧ (g b).val_.AllocatedWith [(r : Int), (c : Int)]
      ∧ (g n).adj_.AllocatedWith [(r : Int), 1]
      ∧ (g a).adj_.AllocatedWith [(r : Int), (c : Int)]
      ∧ (g b).adj_.AllocatedWith [(r : Int), (c : Int)]

/-! ## Concrete inputs for the examples -/

/-- Stand-ins for the black-box kernels in the examples. -/
def exampleKernels : Kernels ℚ :=
  { Sigma := fun x => x
    Tanh := fun x => x
    Log := fun x => x
    Exp := fun x => x
    Softmax := fun _ d => d
    Argmax := fun _ d => d
    Dropout := fun _ d _ _ => d }

/-- A node for the examples: built with a shape and a fill value, allocated with batch
size 1 (sentinel -1), its gradient zeroed. -/
def exampleNode (op : Op) (shape : Shape) (v : ℚ) : Node ℚ :=
  (Node.allocateV (-1) 1
    (Node.new op (Keywords.ofArgs [Keyword.shape shape, Keyword.value v]) 0)).set_zero_adjoint

/-- A store for the examples: address 0 holds a (2 x 3) node, every other address a
(3 x 5) node. -/
def exampleDotGraph : Graph ℚ := fun p =>
  if p = 0 then Node.new .Input (Keywords.ofArgs [Keyword.shape [2, 3]]) 0
  else Node.new .Input (Keywords.ofArgs [Keyword.shape [3, 5]]) 0

/-- A store with an argmax node at address 1 over a (2 x 3) node at every other
address. -/
def exampleArgmaxGraph : Graph ℚ := fun p =>
  match p with
  | 1 => exampleNode (Op.Argmax 0) [2, 1] 0
  | _ => exampleNode Op.Input [2, 3] 1

/-- A store with an elementwise product at address 2 of the (2 x 2) nodes at addresses 0
and 1 (every address but 1 and 2 holds the node of address 0). -/
def exampleMultGraph : Graph ℚ := fun p =>
  match p with
  | 1 => exampleNode Op.Input [2, 2] 5
  | 2 => exampleNode (Op.Mult 0 1) [2, 2] 0
  | _ => exampleNode Op.Input [2, 2] 3

/-- A store with a cross-entropy node at address 2 over the (2 x 3) nodes at addresses 0
and 1 (every address but 1 and 2 holds the node of address 0). -/
def exampleCrossEntropyGraph : Graph ℚ := fun p =>
  match p with
  | 1 => exampleNode Op.Input [2, 3] 2
  | 2 => exampleNode (Op.CrossEntropy 0 1) [2, 1] 0
  | _ => exampleNode Op.Input [2, 3] 1

/-- The store of `y = Tanh(x); z = Logit(x); loss = y + z` with x (2 x 2) at address 0,
y at 1, z at 2 and the loss at every other address. -/
def exampleFanOutGraph : Graph ℚ := fun p =>
  match p with
  | 0 => exampleNode Op.Input [2, 2] 3
  | 1 => exampleNode (Op.Tanh 0) [2, 2] 0
  | 2 => exampleNode (Op.Logit 0) [2, 2] 0
  | _ => exampleNode (Op.Plus 1 2) [2, 2] 0

/-- The store of `y = Tanh(Dot(W, x) + b)` with W (2 x 3) at address 0, x (3 x 1) at 1,
b (2 x 1) at 2, the product at 3, the sum at 4 and the tanh at every other address. -/
def exampleChainGraph : Graph ℚ := fun p =>
  match p with
  | 0 => exampleNode Op.Input [2, 3] 1
  | 1 => exampleNode Op.Input [3, 1] 2
  | 2 => exampleNode Op.Input [2, 1] 3
  | 3 => exampleNode (Op.Dot 0 1) [2, 1] 0
  | 4 => exampleNode (Op.Plus 3 2) [2, 1] 0
  | _ => exampleNode (Op.Tanh 4) [2, 1] 0

/-- A store with an elementwise quotient at address 2 of the (2 x 2) nodes at addresses 0
and 1 (every address but 1 and 2 holds the node of address 0). -/
def exampleDivGraph : Graph ℚ := fun p =>
  match p with
  | 1 => exampleNode Op.Input [2, 2] 5
  | 2 => exampleNode (Op.Div 0 1) [2, 2] 0
  | _ => exampleNode Op.Input [2, 2] 3

/-- A store with a ReLU node at address 1 over the (2 x 2) node at every other
address. -/
def exampleReLUGraph : Graph ℚ := fun p =>
  match p with
  | 1 => exampleNode (Op.ReLU 0) [2, 2] 0
  | _ => exampleNode Op.Input [2, 2] 3

/-- Kernels with a given sigmoid functor, the other black boxes as in `exampleKernels`. -/
def kernelsWithSigma (sigma : F → F) : Kernels F :=
  { Sigma := sigma
    Tanh := fun x => x
    Log := fun x => x
    Exp := fun x => x
    Softmax := fun _ d => d
    Argmax := fun _ d => d
    Dropout := fun _ d _ _ => d }

/-- A store over any scalar field with a Logit node at address 1 over the (2 x 2) node at
every other address; the nodes are allocated with batch size 1 and their gradients
zeroed. -/
def exampleLogitGraph : Graph F := fun p =>
  match p with
  | 1 => (Node.allocateV (-1) 1
      (Node.new (Op.Logit 0) (Keywords.ofArgs [Keyword.shape [2, 2]]) 0)).set_zero_adjoint
  | _ => (Node.allocateV (-1) 1
      (Node.new Op.Input (Keywords.ofArgs [Keyword.shape [2, 2], Keyword.value 3])
        0)).set_zero_adjoint

/-- A store with the elementwise square `x ⊙ x` at address 1: a MultNodeOp whose two
parents are both the (2 x 2) node held at every other address. -/
def exampleSquareGraph : Graph ℚ := fun p =>
  match p with
  | 1 => exampleNode (Op.Mult 0 0) [2, 2] 0
  | _ => exampleNode Op.Input [2, 2] 3

/-! ## Helper lemmas -/

theorem Keywords.foldl_add_shape (args : List (Keyword F))
    (hargs : ∀ k ∈ args, k.isShape = false) (kw : Keywords F) :
    (args.foldl Keywords.add kw).shape = kw.shape := by
  induction args generalizing kw with
  | nil => rfl
  | cons k ks ih =>
    have hk : k.isShape = false := hargs k (List.mem_cons_self k ks)
    have hks : ∀ x ∈ ks, x.isShape = false := fun x hx => hargs x (List.mem_cons_of_mem k hx)
    rw [List.foldl_cons, ih hks]
    cases k <;> simp_all [Keywords.add, Keyword.isShape]

theorem Keywords.ofArgs_shape_cons (s : Shape) (args : List (Keyword F))
    (hargs : ∀ k ∈ args, k.isShape = false) :
    (Keywords.ofArgs (Keyword.shape s :: args)).shape = some s := by
  unfold Keywords.ofArgs
  rw [List.foldl_cons, Keywords.foldl_add_shape args hargs]
  rfl

/-! ## Shape rules of the operators -/

/-- C2: for parents of shapes (r1, c1) and (r2, c2), `DotNodeOp::newShape` and with it the
constructor raise "matrix product requires dimensions to match" exactly when c1 differs
from r2; otherwise the derived shape is (r1, c2), and it is the shape of the node when the
caller passes no shape keyword of their own. A (2 x 3) with a (4 x 5) operand fails. -/
theorem C2_dot_shape_rule (g : Graph F) (a b : ChainPtr) (r1 c1 r2 c2 : Int)
    (args : List (Keyword F)) (seed : Int)
    (ha : (g a).shape_ = [r1, c1]) (hb : (g b).shape_ = [r2, c2]) :
    (DotNodeOp.new g a b args seed
        = .error (Err.thrown "matrix product requires dimensions to match") ↔ c1 ≠ r2)
    ∧ (c1 = r2 → DotNodeOp.newShape (g a).shape (g b).shape = .ok [r1, c2])
    ∧ (c1 = r2 → (∀ k ∈ args, k.isShape = false) →
        ∃ n, DotNodeOp.new g a b args seed = .ok n ∧ n.shape_ = [r1, c2])
    ∧ DotNodeOp.newShape [2, 3] [4, 5]
        = .error (Err.thrown "matrix product requires dimensions to match") := by
  refine ⟨?_, ?_, ?_, ?_⟩
  · by_cases h : c1 = r2
    · simp [DotNodeOp.new, DotNodeOp.newShape, Node.shape, ha, hb, Shape.index,
        Shape.assign, h, bind, Except.bind, pure, Except.pure]
    · simp [DotNodeOp.new, DotNodeOp.newShape, Node.shape, ha, hb, Shape.index,
        Shape.assign, h, bind, Except.bind, throw, throwThe, MonadExceptOf.throw]
  · intro h
    simp [DotNodeOp.newShape, Node.shape, ha, hb, Shape.index, Shape.assign, h, bind,
      Except.bind, pure, Except.pure]
  · intro h hargs
    refine ⟨Node.new (.Dot a b) (Keywords.ofArgs (Keyword.shape [r1, c2] :: args)) seed, ?_, ?_⟩
    · simp [DotNodeOp.new, DotNodeOp.newShape, Node.shape, ha, hb, Shape.index,
        Shape.assign, h, bind, Except.bind, pure, Except.pure]
    · simp [Node.new, Keywords.ofArgs_shape_cons _ args hargs]
  · rfl

/-- C2, at a concrete store: the product of a (2 x 3) and a (3 x 5) node is built and has
shape (2 x 5). -/
theorem C2_dot_shape_rule_witness :
    ∃ n, DotNodeOp.new exampleDotGraph 0 1 [] 0 = .ok n ∧ n.shape_ = [2, 5] :=
  (C2_dot_shape_rule exampleDotGraph 0 1 2 3 3 5 [] 0 rfl rfl).2.2.1 rfl (by simp)

/-- C8, as stated, fails: two parents of shapes (2, 3, 4) and (2, 3, 5) are not of
identical shape, yet no error is raised, and the derived shape (2, 1, 4) is not
(rows, 1). -/
theorem C8_counterexample :
    ([2, 3, 4] : Shape) ≠ [2, 3, 5]
    ∧ CrossEntropyNodeOp.newShape [2, 3, 4] [2, 3, 5] = .ok [2, 1, 4] :=
  ⟨by decide, rfl⟩

/-- C8, amended: `CrossEntropyNodeOp::newShape` and with it the constructor raise "cross
entropy requires dimensions to match" exactly when the parents' shapes differ in the
first or in the second dimension; dimensions after the second are not compared. When no
error is raised the derived shape is the first parent's with the second dimension set
to 1, and it is the node's shape when the caller passes no shape keyword. For
two-dimensional parents: the error is raised exactly when the shapes are not identical,
and otherwise the shape is (rows, 1). -/
theorem C8_cross_entropy_shape_rule (g : Graph F) (a b : ChainPtr) (r1 c1 r2 c2 : Int)
    (t1 t2 : List Int) (args : List (Keyword F)) (seed : Int)
    (ha : (g a).shape_ = r1 :: c1 :: t1) (hb : (g b).shape_ = r2 :: c2 :: t2) :
    (CrossEntropyNodeOp.new g a b args seed
        = .error (Err.thrown "cross entropy requires dimensions to match")
      ↔ (r1 ≠ r2 ∨ c1 ≠ c2))
    ∧ (r1 = r2 → c1 = c2 →
        CrossEntropyNodeOp.newShape (g a).shape (g b).shape = .ok (r1 :: 1 :: t1))
    ∧ (r1 = r2 → c1 = c2 → (∀ k ∈ args, k.isShape = false) →
        ∃ n, CrossEntropyNodeOp.new g a b args seed = .ok n ∧ n.shape_ = r1 :: 1 :: t1)
    ∧ (t1 = [] → t2 = [] →
        ((r1 ≠ r2 ∨ c1 ≠ c2) ↔ (g a).shape_ ≠ (g b).shape_)) := by
  refine ⟨?_, ?_, ?_, ?_⟩
  · by_cases hr : r1 = r2
    · by_cases hc : c1 = c2
      · simp [CrossEntropyNodeOp.new, CrossEntropyNodeOp.newShape, Node.shape, ha, hb,
          Shape.index, Shape.assign, hr, hc, bind, Except.bind, pure, Except.pure]
      · simp [CrossEntropyNodeOp.new, CrossEntropyNodeOp.newShape, Node.shape, ha, hb,
          Shape.index, Shape.assign, hr, hc, bind, Except.bind, pure, Except.pure, throw,
          throwThe, MonadExceptOf.throw]
    · simp [CrossEntropyNodeOp.new, CrossEntropyNodeOp.newShape, Node.shape, ha, hb,
        Shape.index, Shape.assign, hr, bind, Except.bind, throw, throwThe,
        MonadExceptOf.throw]
  · intro hr hc
    simp [CrossEntropyNodeOp.newShape, Node.shape, ha, hb, Shape.index, Shape.assign, hr,
      hc, bind, Except.bind, pure, Except.pure]
  · intro hr hc hargs
    refine ⟨Node.new (.CrossEntropy a b)
      (Keywords.ofArgs (Keyword.shape (r1 :: 1 :: t1) :: args)) seed, ?_, ?_⟩
    · simp [CrossEntropyNodeOp.new, CrossEntropyNodeOp.newShape, Node.shape, ha, hb,
        Shape.index, Shape.assign, hr, hc, bind, Except.bind, pure, Except.pure]
    · simp [Node.new, Keywords.ofArgs_shape_cons _ args hargs]
  · intro h1 h2
    subst h1 h2
    rw [ha, hb]
    constructor
    · rintro (h | h) heq <;> simp_all
    · intro h
      by_contra hcon
      push_neg at hcon
      exact h (by rw [hcon.1, hcon.2])

/-- C8, amended, at a concrete store whose two parents both have shape (3 x 5): the node
is built and has shape (3 x 1). -/
theorem C8_cross_entropy_shape_rule_witness :
    ∃ n, CrossEntropyNodeOp.new exampleDotGraph 1 2 [] 0 = .ok n ∧ n.shape_ = [3, 1] :=
  (C8_cross_entropy_shape_rule exampleDotGraph 1 2 3 5 3 5 [] [] [] 0 rfl rfl).2.2.1
    rfl rfl (by simp)

/-! ## Allocation -/

theorem Node.allocateV_of_ne_param (whatevs : Int) (b : Nat) (n : Node F)
    (hop : n.op ≠ Op.Param) :
    Node.allocateV whatevs b n = Node.allocate whatevs b n := by
  unfold Node.allocateV
  cases hn : n.op <;> simp_all

theorem Node.allocate_shape (whatevs : Int) (b : Nat) (n : Node F) :
    (Node.allocate whatevs b n).shape_ = Node.resolveShape whatevs b n := by
  simp only [Node.allocate]

theorem Node.allocate_val_allocated (whatevs : Int) (b : Nat) (n : Node F) :
    (Node.allocate whatevs b n).val_.allocated = true
    ∧ (Node.allocate whatevs b n).val_.shape = (Node.allocate whatevs b n).shape_ := by
  simp only [Node.allocate]
  split_ifs <;> exact ⟨rfl, rfl⟩

theorem dimOfBatchSize_of_lt (b : Nat) (h : b < 2147483648) :
    dimOfBatchSize b = (b : Int) := by
  have h1 : b % 4294967296 = b := Nat.mod_eq_of_lt (by omega)
  simp [dimOfBatchSize, h1, h]

theorem dimOfBatchSize_of_neg_sentinel (whatevs : Int) (b : Nat) (hneg : whatevs < 0)
    (h : b < 2147483648) : dimOfBatchSize b ≠ whatevs := by
  rw [dimOfBatchSize_of_lt b h]
  intro hb
  have : (0 : Int) ≤ (b : Int) := Int.natCast_nonneg b
  omega

/-- C9, as stated, fails: an Input node constructed with shape (sentinel, 3), sentinel
-1, has after `allocate(4294967300)` the shape (4, 3), not the constructed shape with
the sentinel replaced by the batch size 4294967300: the batch size is converted to a
dimension and does not fit. It also fails on a node that was allocated before: after
`allocate(4)` the same node has after `allocate(7)` the shape (4, 3), not (7, 3). -/
theorem C9_counterexample :
    (Node.new Op.Input (Keywords.ofArgs [Keyword.shape [-1, 3]]) 0 : Node ℚ).shape_ = [-1, 3]
    ∧ (Node.allocateV (-1) 4294967300 (Node.new Op.Input
        (Keywords.ofArgs [Keyword.shape [-1, 3]]) 0 : Node ℚ)).shape_ = [4, 3]
    ∧ (Node.allocateV (-1) 4294967300 (Node.new Op.Input
        (Keywords.ofArgs [Keyword.shape [-1, 3]]) 0 : Node ℚ)).shape_ ≠ [4294967300, 3]
    ∧ (Node.allocateV (-1) 7 (Node.allocateV (-1) 4 (Node.new Op.Input
        (Keywords.ofArgs [Keyword.shape [-1, 3]]) 0 : Node ℚ))).shape_ = [4, 3]
    ∧ (Node.allocateV (-1) 7 (Node.allocateV (-1) 4 (Node.new Op.Input
        (Keywords.ofArgs [Keyword.shape [-1, 3]]) 0 : Node ℚ))).shape_ ≠ [7, 3] :=
  ⟨rfl, rfl, by decide, rfl, by decide⟩

/-- C9, amended: for a node of any class but ParamNode (Input, Constant and the operators
inherit `Node::allocate`) as its constructor leaves it, with the constructed shape (the
shape keyword, or (1, 1) without one), and every batch size: after the first `allocate`
the shape is, when the store has no deferred-shape producer, the constructed shape with
each dimension equal to the sentinel replaced by the batch size converted to a dimension
(the batch size itself when it is below 2^31) and every other dimension kept, and, when
the store has a producer, the producer's result; the value tensor is allocated and has
that shape. -/
theorem C9_allocate_resolves_shape (whatevs : Int) (batchSize : Nat) (op : Op)
    (kw : Keywords F) (seed : Int) (hop : op ≠ Op.Param) :
    (Node.new op kw seed).shape_ = kw.shape.getD [1, 1]
    ∧ (kw.lazy_shape = none →
        (Node.allocateV whatevs batchSize (Node.new op kw seed)).shape_.length
          = (kw.shape.getD [1, 1]).length
        ∧ ∀ (i : Nat) (d : Int), (kw.shape.getD [1, 1])[i]? = some d →
            (Node.allocateV whatevs batchSize (Node.new op kw seed)).shape_[i]?
              = some (if d = whatevs then dimOfBatchSize batchSize else d))
    ∧ (batchSize < 2147483648 → dimOfBatchSize batchSize = (batchSize : Int))
    ∧ (∀ f, kw.lazy_shape = some f →
        (Node.allocateV whatevs batchSize (Node.new op kw seed)).shape_ = f ())
    ∧ (Node.allocateV whatevs batchSize (Node.new op kw seed)).val_.allocated = true
    ∧ (Node.allocateV whatevs batchSize (Node.new op kw seed)).val_.shape
        = (Node.allocateV whatevs batchSize (Node.new op kw seed)).shape_ := by
  have hV : Node.allocateV whatevs batchSize (Node.new op kw seed)
      = Node.allocate whatevs batchSize (Node.new op kw seed) :=
    Node.allocateV_of_ne_param whatevs batchSize _ hop
  rw [hV, Node.allocate_shape]
  refine ⟨rfl, ?_, dimOfBatchSize_of_lt batchSize, ?_,
    (Node.allocate_val_allocated whatevs batchSize _).1, ?_⟩
  · intro h
    constructor
    · simp [Node.resolveShape, Node.new, h]
    · intro i d hd
      simp [Node.resolveShape, Node.new, h, List.getElem?_map, hd]
  · intro f h
    simp [Node.resolveShape, Node.new, h]
  · rw [(Node.allocate_val_allocated whatevs batchSize _).2, Node.allocate_shape]

/-- C9, amended, at a freshly built Input node of constructed shape (sentinel, 3) with
sentinel -1 and batch size 4. -/
theorem C9_allocate_resolves_shape_witness :
    (Node.allocateV (-1) 4 (Node.new Op.Input
        (Keywords.ofArgs [Keyword.shape [-1, 3]]) 0 : Node ℚ)).val_.shape
      = (Node.allocateV (-1) 4 (Node.new Op.Input
        (Keywords.ofArgs [Keyword.shape [-1, 3]]) 0 : Node ℚ)).shape_ :=
  (C9_allocate_resolves_shape (-1) 4 Op.Input
    (Keywords.ofArgs [Keyword.shape [-1, 3]] : Keywords ℚ) 0 (by decide)).2.2.2.2.2

/-- C10, as stated, fails, with sentinel -1: a ParamNode built with shape (sentinel, 5),
and one built with shape (sentinel, 0), whose value tensor has no element, still have
the sentinel dimension after `allocate(4)`; so has an Input node whose deferred-shape
producer returns (sentinel, 3); and so has an Input node of shape (sentinel, 3) after
`allocate(4294967295)`, a batch size that converts to the sentinel itself. In the last
two cases the shape is the one the call writes into `shape_` before it allocates the
value tensor. -/
theorem C10_counterexample :
    (Node.allocateV (-1) 4 (Node.new Op.Param
        (Keywords.ofArgs [Keyword.shape [-1, 5]]) 0 : Node ℚ)).shape_ = [-1, 5]
    ∧ (Node.allocateV (-1) 4 (Node.new Op.Param
        (Keywords.ofArgs [Keyword.shape [-1, 0]]) 0 : Node ℚ)).shape_ = [-1, 0]
    ∧ (Node.allocateV (-1) 4 (Node.new Op.Input
        (Keywords.ofArgs [Keyword.lazy_shape (fun _ => [-1, 3])]) 0 : Node ℚ)).shape_
      = [-1, 3]
    ∧ Node.resolveShape (-1) 4 (Node.new Op.Input
        (Keywords.ofArgs [Keyword.lazy_shape (fun _ => [-1, 3])]) 0 : Node ℚ) = [-1, 3]
    ∧ (Node.allocateV (-1) 4294967295 (Node.new Op.Input
        (Keywords.ofArgs [Keyword.shape [-1, 3]]) 0 : Node ℚ)).shape_ = [-1, 3]
    ∧ Node.resolveShape (-1) 4294967295 (Node.new Op.Input
        (Keywords.ofArgs [Keyword.shape [-1, 3]]) 0 : Node ℚ) = [-1, 3] :=
  ⟨rfl, rfl, rfl, rfl, rfl, rfl⟩

/-- C10, amended: for a node of any class but ParamNode whose store has no deferred-shape
producer, and every batch size whose conversion to a dimension is not the sentinel value
(with a negative sentinel: every batch size below 2^31), after `allocate` no dimension
of the shape is the sentinel. With a deferred-shape producer the shape after `allocate`
is what the producer returns. `ParamNode::allocate` leaves the shape as it is. -/
theorem C10_no_sentinel_after_allocate (whatevs : Int) (batchSize : Nat) (n : Node F) :
    (n.op ≠ Op.Param → n.keywords.lazy_shape = none →
        dimOfBatchSize batchSize ≠ whatevs →
        whatevs ∉ (Node.allocateV whatevs batchSize n).shape_)
    ∧ (n.op ≠ Op.Param → n.keywords.lazy_shape = none → whatevs < 0 →
        batchSize < 2147483648 →
        whatevs ∉ (Node.allocateV whatevs batchSize n).shape_)
    ∧ (n.op ≠ Op.Param → ∀ f, n.keywords.lazy_shape = some f →
        (Node.allocateV whatevs batchSize n).shape_ = f ())
    ∧ (n.op = Op.Param → (Node.allocateV whatevs batchSize n).shape_ = n.shape_) := by
  have key : n.op ≠ Op.Param → n.keywords.lazy_shape = none →
      dimOfBatchSize batchSize ≠ whatevs →
      whatevs ∉ (Node.allocateV whatevs batchSize n).shape_ := by
    intro hop hl hb
    rw [Node.allocateV_of_ne_param whatevs batchSize n hop, Node.allocate_shape]
    simp only [Node.resolveShape, hl, Option.isSome_none, Bool.false_eq_true, if_false,
      List.mem_map, not_exists, not_and]
    intro d _ hd
    by_cases h : d = whatevs
    · rw [if_pos h] at hd
      exact hb hd
    · rw [if_neg h] at hd
      exact h hd
  refine ⟨key, ?_, ?_, ?_⟩
  · intro hop hl hneg hlt
    exact key hop hl (dimOfBatchSize_of_neg_sentinel whatevs batchSize hneg hlt)
  · intro hop f hf
    rw [Node.allocateV_of_ne_param whatevs batchSize n hop, Node.allocate_shape]
    simp [Node.resolveShape, hf]
  · intro hop
    simp only [Node.allocateV, hop, ParamNode.allocate]
    split_ifs <;> rfl

/-- C10, amended, at a freshly built Input node of constructed shape (sentinel, 3) with
sentinel -1 and batch size 4. -/
theorem C10_no_sentinel_after_allocate_witness :
    (-1 : Int) ∉ (Node.allocateV (-1) 4 (Node.new Op.Input
        (Keywords.ofArgs [Keyword.shape [-1, 3]]) 0 : Node ℚ)).shape_ :=
  (C10_no_sentinel_after_allocate (-1) 4
    (Node.new Op.Input (Keywords.ofArgs [Keyword.shape [-1, 3]]) 0 : Node ℚ)).1
    (by decide) rfl (by decide)

/-! ## Backward of the operators -/

/-- C5: for a matrix-product node that is not its own parent, with distinct parents A (m x k)
and B (k x l), adjoint D (m x l), and any prior contents of the parents' gradients, `backward` succeeds and leaves
`A.grad = gA + D * B^T` and `B.grad = gB + A^T * D`; every other node, and everything but
the gradient in the two parents, is as before. -/
theorem C5_dot_backward_accumulates (K : Kernels F) (g : Graph F) (n a b : ChainPtr)
    (m k l : Nat) (hop : (g n).op = Op.Dot a b)
    (hab : a ≠ b) (hna : n ≠ a)
    (hA : (g a).val_.allocated = true) (hAs : (g a).val_.shape = [(m : Int), (k : Int)])
    (hB : (g b).val_.allocated = true) (hBs : (g b).val_.shape = [(k : Int), (l : Int)])
    (hD : (g n).adj_.allocated = true) (hDs : (g n).adj_.shape = [(m : Int), (l : Int)])
    (hgA : (g a).adj_.allocated = true) (hgAs : (g a).adj_.shape = [(m : Int), (k : Int)])
    (hgB : (g b).adj_.allocated = true) (hgBs : (g b).adj_.shape = [(k : Int), (l : Int)]) :
    ∃ g1, Node.backward K g n = .ok g1
      ∧ (∀ i j, (g1 a).adj_.data i j
          = (g a).adj_.data i j
            + Finset.sum (Finset.range l) fun x => (g n).adj_.data i x * (g b).val_.data j x)
      ∧ (∀ i j, (g1 b).adj_.data i j
          = (g b).adj_.data i j
            + Finset.sum (Finset.range m) fun x => (g a).val_.data x i * (g n).adj_.data x j)
      ∧ (∀ p, p ≠ a → p ≠ b → g1 p = g p)
      ∧ (g1 a).val_ = (g a).val_ ∧ (g1 b).val_ = (g b).val_ := by
  simp [Node.backward, hop, DotNodeOp.backward, Node.grad, Node.val, Prod, Graph.setGrad,
    Graph.put, Shape.rows, Shape.cols, bind, Except.bind, pure, Except.pure,
    Function.update_noteq, hab, hna, hab.symm, hna.symm,
    hA, hAs, hB, hBs, hD, hDs, hgA, hgAs, hgB, hgBs]
  exact ⟨fun i j => add_comm _ _, fun i j => add_comm _ _,
    fun p hpa hpb => by simp [Function.update_noteq, hpa, hpb]⟩

/-- C5, at the product node of the example store (W is 2 x 3, x is 3 x 1): `backward`
succeeds. -/
theorem C5_dot_backward_accumulates_witness :
    ∃ g1, Node.backward exampleKernels exampleChainGraph 3 = .ok g1 :=
  (C5_dot_backward_accumulates exampleKernels exampleChainGraph 3 0 1 2 3 1 rfl
    (by decide) (by decide) rfl rfl rfl rfl rfl rfl rfl rfl rfl rfl).imp
    fun _ h => h.1

/-- C7: `backward` of an argmax node returns the store it was given: the parent's
gradient, and every other piece of state of every node, is unchanged, whatever the
parent's gradient and the node's adjoint hold (allocated or not). -/
theorem C7_argmax_backward_unchanged (K : Kernels F) (g : Graph F) (n a : ChainPtr)
    (hop : (g n).op = Op.Argmax a) :
    Node.backward K g n = .ok g ∧ ArgmaxNodeOp.backward g n a = .ok g := by
  simp [Node.backward, hop, ArgmaxNodeOp.backward, pure, Except.pure]

/-- C7, at the argmax node of the example store. -/
theorem C7_argmax_backward_unchanged_witness :
    Node.backward exampleKernels exampleArgmaxGraph 1 = .ok exampleArgmaxGraph :=
  (C7_argmax_backward_unchanged exampleKernels exampleArgmaxGraph 1 0 rfl).1

/-! ## Inversion of the kernels and accessors -/

theorem Except.bind_eq_ok_iff {α β : Type} (x : Except Err α) (f : α → Except Err β) (b : β) :
    (x >>= f) = .ok b ↔ ∃ a, x = .ok a ∧ f a = .ok b := by
  cases x with
  | error e => simp [bind, Except.bind]
  | ok a => simp [bind, Except.bind]

theorem Node.grad_eq_ok_iff (n : Node F) (t : Tensor F) :
    n.grad = .ok t ↔ n.adj_.allocated = true ∧ n.adj_ = t := by
  unfold Node.grad
  by_cases h : n.adj_.allocated = true <;> simp [h]

theorem Node.val_eq_ok_iff (n : Node F) (t : Tensor F) :
    n.val = .ok t ↔ n.val_.allocated = true ∧ n.val_ = t := by
  unfold Node.val
  by_cases h : n.val_.allocated = true <;> simp [h]

theorem Element2_eq_ok_iff (f : F → F → F) (out in2 t : Tensor F) :
    Element2 f out in2 = .ok t ↔
      (out.allocated = true ∧ in2.allocated = true ∧ in2.shape = out.shape)
      ∧ { out with data := fun i j => f (out.data i j) (in2.data i j) } = t := by
  unfold Element2
  split_ifs with h <;> simp [h]

theorem Element3_eq_ok_iff (f : F → F → F → F) (out in2 in3 t : Tensor F) :
    Element3 f out in2 in3 = .ok t ↔
      (out.allocated = true ∧ in2.allocated = true ∧ in3.allocated = true
        ∧ in2.shape = out.shape ∧ in3.shape = out.shape)
      ∧ { out with data := fun i j => f (out.data i j) (in2.data i j) (in3.data i j) } = t := by
  unfold Element3
  split_ifs with h <;> simp [h]

theorem Element4_eq_ok_iff (f : F → F → F → F → F) (out in2 in3 in4 t : Tensor F) :
    Element4 f out in2 in3 in4 = .ok t ↔
      (out.allocated = true ∧ in2.allocated = true ∧ in3.allocated = true
        ∧ in4.allocated = true
        ∧ in2.shape = out.shape ∧ in3.shape = out.shape ∧ in4.shape = out.shape)
      ∧ { out with
          data := fun i j => f (out.data i j) (in2.data i j) (in3.data i j) (in4.data i j) }
        = t := by
  unfold Element4
  split_ifs with h <;> simp [h]

theorem Prod_eq_ok_iff (C A B t : Tensor F) (transA transB : Bool) (beta : F) :
    Prod C A B transA transB beta = .ok t ↔
      (C.allocated = true ∧ A.allocated = true ∧ B.allocated = true
        ∧ A.shape = [(A.shape.rows : Int), (A.shape.cols : Int)]
        ∧ B.shape = [(B.shape.rows : Int), (B.shape.cols : Int)]
        ∧ (if transA then A.shape.rows else A.shape.cols)
            = (if transB then B.shape.cols else B.shape.rows)
        ∧ C.shape = [((if transA then A.shape.cols else A.shape.rows : Nat) : Int),
                     ((if transB then B.shape.rows else B.shape.cols : Nat) : Int)])
      ∧ { C with
          data := fun i j =>
            (Finset.sum (Finset.range (if transA then A.shape.rows else A.shape.cols)) fun x =>
              (if transA then A.data x i else A.data i x)
                * (if transB then B.data j x else B.data x j))
            + beta * C.data i j } = t := by
  cases transA <;> cases transB <;>
    · simp only [Prod, Bool.false_eq_true, if_false, if_true]
      split_ifs with h
      · exact ⟨fun ht => ⟨h, Except.ok.inj ht⟩, fun ht => congrArg Except.ok ht.2⟩
      · exact ⟨fun ht => ht.elim, fun ht => absurd ht.1 h⟩

theorem ScaleRowwise_eq_ok_iff (out scale t : Tensor F) :
    ScaleRowwise out scale = .ok t ↔
      (out.allocated = true ∧ scale.allocated = true
        ∧ out.shape = [(out.shape.rows : Int), (out.shape.cols : Int)]
        ∧ scale.shape = [(out.shape.rows : Int), 1])
      ∧ { out with data := fun i j => out.data i j * scale.data i 0 } = t := by
  unfold ScaleRowwise
  split_ifs with h
  · exact ⟨fun ht => ⟨h, Except.ok.inj ht⟩, fun ht => congrArg Except.ok ht.2⟩
  · exact ⟨fun ht => ht.elim, fun ht => absurd ht.1 h⟩

theorem SoftmaxGrad_eq_ok_iff (grad adj val t : Tensor F) :
    SoftmaxGrad grad adj val = .ok t ↔
      (grad.allocated = true ∧ adj.allocated = true ∧ val.allocated = true
        ∧ adj.shape = grad.shape ∧ val.shape = grad.shape)
      ∧ { grad with
          data := fun i j =>
            grad.data i j
              + val.data i j * (adj.data i j
                  - Finset.sum (Finset.range val.shape.cols) fun x =>
                      val.data i x * adj.data i x) } = t := by
  unfold SoftmaxGrad
  split_ifs with h <;> simp [h]

/-! ## What `set_zero_adjoint` changes -/

theorem Node.set_zero_adjoint_data (n : Node F) :
    n.set_zero_adjoint.adj_.data = fun _ _ => 0 := by
  unfold Node.set_zero_adjoint
  split_ifs <;> rfl

theorem Node.set_zero_adjoint_val (n : Node F) : n.set_zero_adjoint.val_ = n.val_ := by
  unfold Node.set_zero_adjoint
  split_ifs <;> rfl

theorem Node.set_zero_adjoint_probs (n : Node F) : n.set_zero_adjoint.probs_ = n.probs_ := by
  unfold Node.set_zero_adjoint
  split_ifs <;> rfl

/-! ## One backward call on a zeroed parent gradient -/

theorem LogitNodeOp_backward_after_zero (g : Graph F) (n a : ChainPtr) (g1 : Graph F)
    (hna : n ≠ a) (hrun : LogitNodeOp.backward (g.set_zero_adjoint a) n a = .ok g1)
    (i j : Nat) :
    (g1 a).adj_.data i j
      = (g n).adj_.data i j * (g n).val_.data i j * (1 - (g n).val_.data i j) := by
  simp only [LogitNodeOp.backward, Except.bind_eq_ok_iff, Node.grad_eq_ok_iff,
    Element3_eq_ok_iff, pure, Except.pure, Except.ok.injEq] at hrun
  obtain ⟨ga, ⟨-, rfl⟩, t, ⟨-, rfl⟩, rfl⟩ := hrun
  simp [Graph.setGrad, Graph.put, Graph.set_zero_adjoint, Node.set_zero_adjoint_data,
    Function.update_noteq hna]

theorem TanhNodeOp_backward_after_zero (g : Graph F) (n a : ChainPtr) (g1 : Graph F)
    (hna : n ≠ a) (hrun : TanhNodeOp.backward (g.set_zero_adjoint a) n a = .ok g1)
    (i j : Nat) :
    (g1 a).adj_.data i j
      = (g n).adj_.data i j * (1 - (g n).val_.data i j * (g n).val_.data i j) := by
  simp only [TanhNodeOp.backward, Except.bind_eq_ok_iff, Node.grad_eq_ok_iff,
    Element3_eq_ok_iff, pure, Except.pure, Except.ok.injEq] at hrun
  obtain ⟨ga, ⟨-, rfl⟩, t, ⟨-, rfl⟩, rfl⟩ := hrun
  simp [Graph.setGrad, Graph.put, Graph.set_zero_adjoint, Node.set_zero_adjoint_data,
    Function.update_noteq hna]

theorem ReLUNodeOp_backward_after_zero (g : Graph F) (n a : ChainPtr) (g1 : Graph F)
    (hna : n ≠ a) (hrun : ReLUNodeOp.backward (g.set_zero_adjoint a) n a = .ok g1)
    (i j : Nat) :
    (g1 a).adj_.data i j
      = (g n).adj_.data i j * (if (g n).val_.data i j > 0 then 1 else 0) := by
  simp only [ReLUNodeOp.backward, Except.bind_eq_ok_iff, Node.grad_eq_ok_iff,
    Element3_eq_ok_iff, pure, Except.pure, Except.ok.injEq] at hrun
  obtain ⟨ga, ⟨-, rfl⟩, t, ⟨-, rfl⟩, rfl⟩ := hrun
  simp [Graph.setGrad, Graph.put, Graph.set_zero_adjoint, Node.set_zero_adjoint_data,
    Function.update_noteq hna]

theorem DropoutNodeOp_backward_after_zero (g : Graph F) (n a : ChainPtr) (g1 : Graph F)
    (hna : n ≠ a) (hrun : DropoutNodeOp.backward (g.set_zero_adjoint a) n a = .ok g1)
    (i j : Nat) :
    (g1 a).adj_.data i j
      = (g n).adj_.data i j * (if (g n).val_.data i j ≠ 0 then 1 else 0) := by
  simp only [DropoutNodeOp.backward, Except.bind_eq_ok_iff, Node.grad_eq_ok_iff,
    Element3_eq_ok_iff, pure, Except.pure, Except.ok.injEq] at hrun
  obtain ⟨ga, ⟨-, rfl⟩, t, ⟨-, rfl⟩, rfl⟩ := hrun
  simp [Graph.setGrad, Graph.put, Graph.set_zero_adjoint, Node.set_zero_adjoint_data,
    Function.update_noteq hna]

theorem SoftmaxNodeOp_backward_after_zero (g : Graph F) (n a : ChainPtr) (g1 : Graph F)
    (hna : n ≠ a) (hrun : SoftmaxNodeOp.backward (g.set_zero_adjoint a) n a = .ok g1)
    (i j : Nat) :
    (g1 a).adj_.data i j
      = (g n).val_.data i j * ((g n).adj_.data i j
          - Finset.sum (Finset.range (g n).val_.shape.cols) fun x =>
              (g n).val_.data i x * (g n).adj_.data i x) := by
  simp only [SoftmaxNodeOp.backward, Except.bind_eq_ok_iff, Node.grad_eq_ok_iff,
    SoftmaxGrad_eq_ok_iff, pure, Except.pure, Except.ok.injEq] at hrun
  obtain ⟨ga, ⟨-, rfl⟩, t, ⟨-, rfl⟩, rfl⟩ := hrun
  simp [Graph.setGrad, Graph.put, Graph.set_zero_adjoint, Node.set_zero_adjoint_data,
    Function.update_noteq hna]

theorem ArgmaxNodeOp_backward_after_zero (g : Graph F) (n a : ChainPtr) (g1 : Graph F)
    (hrun : ArgmaxNodeOp.backward (g.set_zero_adjoint a) n a = .ok g1) (i j : Nat) :
    (g1 a).adj_.data i j = 0 := by
  simp only [ArgmaxNodeOp.backward, pure, Except.pure, Except.ok.injEq] at hrun
  subst hrun
  simp [Graph.put, Graph.set_zero_adjoint, Node.set_zero_adjoint_data]

theorem LogNodeOp_backward_after_zero (g : Graph F) (n a : ChainPtr) (g1 : Graph F)
    (hna : n ≠ a) (hrun : LogNodeOp.backward (g.set_zero_adjoint a) n a = .ok g1)
    (i j : Nat) :
    (g1 a).adj_.data i j = (g n).adj_.data i j * (1 / (g a).val_.data i j) := by
  simp only [LogNodeOp.backward, Except.bind_eq_ok_iff, Node.grad_eq_ok_iff,
    Node.val_eq_ok_iff, Element3_eq_ok_iff, pure, Except.pure, Except.ok.injEq] at hrun
  obtain ⟨ga, ⟨-, rfl⟩, av, ⟨-, rfl⟩, t, ⟨-, rfl⟩, rfl⟩ := hrun
  simp [Graph.setGrad, Graph.put, Graph.set_zero_adjoint, Node.set_zero_adjoint_data,
    Node.set_zero_adjoint_val, Function.update_noteq hna]

theorem ExpNodeOp_backward_after_zero (K : Kernels F) (g : Graph F) (n a : ChainPtr)
    (g1 : Graph F) (hna : n ≠ a)
    (hrun : ExpNodeOp.backward K (g.set_zero_adjoint a) n a = .ok g1) (i j : Nat) :
    (g1 a).adj_.data i j = (g n).adj_.data i j * K.Exp ((g a).val_.data i j) := by
  simp only [ExpNodeOp.backward, Except.bind_eq_ok_iff, Node.grad_eq_ok_iff,
    Node.val_eq_ok_iff, Element3_eq_ok_iff, pure, Except.pure, Except.ok.injEq] at hrun
  obtain ⟨ga, ⟨-, rfl⟩, av, ⟨-, rfl⟩, t, ⟨-, rfl⟩, rfl⟩ := hrun
  simp [Graph.setGrad, Graph.put, Graph.set_zero_adjoint, Node.set_zero_adjoint_data,
    Node.set_zero_adjoint_val, Function.update_noteq hna]

theorem NegNodeOp_backward_after_zero (g : Graph F) (n a : ChainPtr) (g1 : Graph F)
    (hna : n ≠ a) (hrun : NegNodeOp.backward (g.set_zero_adjoint a) n a = .ok g1)
    (i j : Nat) :
    (g1 a).adj_.data i j = -(g n).adj_.data i j := by
  simp only [NegNodeOp.backward, Except.bind_eq_ok_iff, Node.grad_eq_ok_iff,
    Element2_eq_ok_iff, pure, Except.pure, Except.ok.injEq] at hrun
  obtain ⟨ga, ⟨-, rfl⟩, t, ⟨-, rfl⟩, rfl⟩ := hrun
  simp [Graph.setGrad, Graph.put, Graph.set_zero_adjoint, Node.set_zero_adjoint_data,
    Function.update_noteq hna]

theorem PlusNodeOp_backward_after_zero (g : Graph F) (n a b p : ChainPtr) (g1 : Graph F)
    (hp : p = a ∨ p = b) (hna : n ≠ a) (hnb : n ≠ b)
    (hrun : PlusNodeOp.backward (g.set_zero_adjoint p) n a b = .ok g1) (i j : Nat) :
    (g1 p).adj_.data i j
      = (if p = a then (g n).adj_.data i j else 0)
        + (if p = b then (g n).adj_.data i j else 0) := by
  simp only [PlusNodeOp.backward, Except.bind_eq_ok_iff, Node.grad_eq_ok_iff,
    Node.val_eq_ok_iff, Element2_eq_ok_iff, pure, Except.pure, Except.ok.injEq] at hrun
  obtain ⟨ga, ⟨-, rfl⟩, t1, ⟨-, rfl⟩, gb, ⟨-, rfl⟩, t2, ⟨-, rfl⟩, rfl⟩ := hrun
  by_cases hab : a = b
  · subst hab
    have hpa : p = a := by tauto
    subst hpa
    simp [Graph.setGrad, Graph.put, Graph.set_zero_adjoint, Node.set_zero_adjoint_data,
      Node.set_zero_adjoint_val, Function.update_noteq hna]
  · rcases hp with rfl | rfl
    · simp [Graph.setGrad, Graph.put, Graph.set_zero_adjoint, Node.set_zero_adjoint_data,
        Node.set_zero_adjoint_val, Function.update_noteq hna, Function.update_noteq hnb,
        hab, Function.update_noteq hab, Function.update_noteq (Ne.symm hab)]
    · simp [Graph.setGrad, Graph.put, Graph.set_zero_adjoint, Node.set_zero_adjoint_data,
        Node.set_zero_adjoint_val, Function.update_noteq hna, Function.update_noteq hnb,
        hab, Ne.symm hab, Function.update_noteq hab, Function.update_noteq (Ne.symm hab)]

theorem MinusNodeOp_backward_after_zero (g : Graph F) (n a b p : ChainPtr) (g1 : Graph F)
    (hp : p = a ∨ p = b) (hna : n ≠ a) (hnb : n ≠ b)
    (hrun : MinusNodeOp.backward (g.set_zero_adjoint p) n a b = .ok g1) (i j : Nat) :
    (g1 p).adj_.data i j
      = (if p = a then (g n).adj_.data i j else 0)
        + (if p = b then -(g n).adj_.data i j else 0) := by
  simp only [MinusNodeOp.backward, Except.bind_eq_ok_iff, Node.grad_eq_ok_iff,
    Node.val_eq_ok_iff, Element2_eq_ok_iff, pure, Except.pure, Except.ok.injEq] at hrun
  obtain ⟨ga, ⟨-, rfl⟩, t1, ⟨-, rfl⟩, gb, ⟨-, rfl⟩, t2, ⟨-, rfl⟩, rfl⟩ := hrun
  by_cases hab : a = b
  · subst hab
    have hpa : p = a := by tauto
    subst hpa
    simp [Graph.setGrad, Graph.put, Graph.set_zero_adjoint, Node.set_zero_adjoint_data,
      Node.set_zero_adjoint_val, Function.update_noteq hna]
  · rcases hp with rfl | rfl
    · simp [Graph.setGrad, Graph.put, Graph.set_zero_adjoint, Node.set_zero_adjoint_data,
        Node.set_zero_adjoint_val, Function.update_noteq hna, Function.update_noteq hnb,
        hab, Function.update_noteq hab, Function.update_noteq (Ne.symm hab)]
    · simp [Graph.setGrad, Graph.put, Graph.set_zero_adjoint, Node.set_zero_adjoint_data,
        Node.set_zero_adjoint_val, Function.update_noteq hna, Function.update_noteq hnb,
        hab, Ne.symm hab, Function.update_noteq hab, Function.update_noteq (Ne.symm hab)]

theorem MultNodeOp_backward_after_zero (g : Graph F) (n a b p : ChainPtr) (g1 : Graph F)
    (hp : p = a ∨ p = b) (hna : n ≠ a) (hnb : n ≠ b)
    (hrun : MultNodeOp.backward (g.set_zero_adjoint p) n a b = .ok g1) (i j : Nat) :
    (g1 p).adj_.data i j
      = (if p = a then (g n).adj_.data i j * (g b).val_.data i j else 0)
        + (if p = b then (g n).adj_.data i j * (g a).val_.data i j else 0) := by
  simp only [MultNodeOp.backward, Except.bind_eq_ok_iff, Node.grad_eq_ok_iff,
    Node.val_eq_ok_iff, Element3_eq_ok_iff, pure, Except.pure, Except.ok.injEq] at hrun
  obtain ⟨ga, ⟨-, rfl⟩, bv, ⟨-, rfl⟩, t1, ⟨-, rfl⟩, gb, ⟨-, rfl⟩, av, ⟨-, rfl⟩, t2,
    ⟨-, rfl⟩, rfl⟩ := hrun
  by_cases hab : a = b
  · subst hab
    have hpa : p = a := by tauto
    subst hpa
    simp [Graph.setGrad, Graph.put, Graph.set_zero_adjoint, Node.set_zero_adjoint_data,
      Node.set_zero_adjoint_val, Function.update_noteq hna]
  · rcases hp with rfl | rfl
    · simp [Graph.setGrad, Graph.put, Graph.set_zero_adjoint, Node.set_zero_adjoint_data,
        Node.set_zero_adjoint_val, Function.update_noteq hna, Function.update_noteq hnb,
        hab, Function.update_noteq hab, Function.update_noteq (Ne.symm hab)]
    · simp [Graph.setGrad, Graph.put, Graph.set_zero_adjoint, Node.set_zero_adjoint_data,
        Node.set_zero_adjoint_val, Function.update_noteq hna, Function.update_noteq hnb,
        hab, Ne.symm hab, Function.update_noteq hab, Function.update_noteq (Ne.symm hab)]

theorem DivNodeOp_backward_after_zero (g : Graph F) (n a b p : ChainPtr) (g1 : Graph F)
    (hp : p = a ∨ p = b) (hna : n ≠ a) (hnb : n ≠ b)
    (hrun : DivNodeOp.backward (g.set_zero_adjoint p) n a b = .ok g1) (i j : Nat) :
    (g1 p).adj_.data i j
      = (if p = a then (g n).adj_.data i j / (g b).val_.data i j else 0)
        + (if p = b then
            -((g n).adj_.data i j * (g a).val_.data i j
                / ((g b).val_.data i j * (g b).val_.data i j))
           else 0) := by
  simp only [DivNodeOp.backward, Except.bind_eq_ok_iff, Node.grad_eq_ok_iff,
    Node.val_eq_ok_iff, Element3_eq_ok_iff, Element4_eq_ok_iff, pure, Except.pure,
    Except.ok.injEq] at hrun
  obtain ⟨ga, ⟨-, rfl⟩, bv, ⟨-, rfl⟩, t1, ⟨-, rfl⟩, gb, ⟨-, rfl⟩, av, ⟨-, rfl⟩, bv2,
    ⟨-, rfl⟩, t2, ⟨-, rfl⟩, rfl⟩ := hrun
  by_cases hab : a = b
  · subst hab
    have hpa : p = a := by tauto
    subst hpa
    simp [Graph.setGrad, Graph.put, Graph.set_zero_adjoint, Node.set_zero_adjoint_data,
      Node.set_zero_adjoint_val, Function.update_noteq hna, sub_eq_add_neg]
  · rcases hp with rfl | rfl
    · simp [Graph.setGrad, Graph.put, Graph.set_zero_adjoint, Node.set_zero_adjoint_data,
        Node.set_zero_adjoint_val, Function.update_noteq hna, Function.update_noteq hnb,
        hab, Function.update_noteq hab, Function.update_noteq (Ne.symm hab)]
    · simp [Graph.setGrad, Graph.put, Graph.set_zero_adjoint, Node.set_zero_adjoint_data,
        Node.set_zero_adjoint_val, Function.update_noteq hna, Function.update_noteq hnb,
        hab, Ne.symm hab, Function.update_noteq hab, Function.update_noteq (Ne.symm hab)]

theorem DotNodeOp_backward_after_zero (g : Graph F) (n a b p : ChainPtr) (g1 : Graph F)
    (hp : p = a ∨ p = b) (hna : n ≠ a) (hnb : n ≠ b)
    (hrun : DotNodeOp.backward (g.set_zero_adjoint p) n a b = .ok g1) (i j : Nat) :
    (g1 p).adj_.data i j
      = (if p = a then
          Finset.sum (Finset.range (g n).adj_.shape.cols) fun x =>
            (g n).adj_.data i x * (g b).val_.data j x
         else 0)
        + (if p = b then
          Finset.sum (Finset.range (g a).val_.shape.rows) fun x =>
            (g a).val_.data x i * (g n).adj_.data x j
         else 0) := by
  simp only [DotNodeOp.backward, Except.bind_eq_ok_iff, Node.grad_eq_ok_iff,
    Node.val_eq_ok_iff, Prod_eq_ok_iff, pure, Except.pure, Except.ok.injEq] at hrun
  obtain ⟨ga, ⟨-, rfl⟩, bv, ⟨-, rfl⟩, t1, ⟨-, rfl⟩, gb, ⟨-, rfl⟩, av, ⟨-, rfl⟩, t2,
    ⟨-, rfl⟩, rfl⟩ := hrun
  by_cases hab : a = b
  · subst hab
    have hpa : p = a := by tauto
    subst hpa
    simp [Graph.setGrad, Graph.put, Graph.set_zero_adjoint, Node.set_zero_adjoint_data,
      Node.set_zero_adjoint_val, Function.update_noteq hna]
    exact add_comm _ _
  · rcases hp with rfl | rfl
    · simp [Graph.setGrad, Graph.put, Graph.set_zero_adjoint, Node.set_zero_adjoint_data,
        Node.set_zero_adjoint_val, Function.update_noteq hna, Function.update_noteq hnb,
        hab, Function.update_noteq hab, Function.update_noteq (Ne.symm hab)]
    · simp [Graph.setGrad, Graph.put, Graph.set_zero_adjoint, Node.set_zero_adjoint_data,
        Node.set_zero_adjoint_val, Function.update_noteq hna, Function.update_noteq hnb,
        hab, Ne.symm hab, Function.update_noteq hab, Function.update_noteq (Ne.symm hab)]

theorem CrossEntropyNodeOp_backward_after_zero (K : Kernels F) (g : Graph F)
    (n a b p : ChainPtr) (g1 : Graph F)
    (hp : p = a ∨ p = b) (hna : n ≠ a) (hnb : n ≠ b)
    (hrun : CrossEntropyNodeOp.backward K (g.set_zero_adjoint p) n a b = .ok g1)
    (i j : Nat) :
    (g1 p).adj_.data i j
      = (if p = a then
          ((g n).probs_.data i j - (g b).val_.data i j) * (g n).adj_.data i 0 else 0)
        + (if p = b then -K.Log ((g n).probs_.data i j) * (g n).adj_.data i 0 else 0) := by
  simp only [CrossEntropyNodeOp.backward, Except.bind_eq_ok_iff, Node.grad_eq_ok_iff,
    Node.val_eq_ok_iff, Element2_eq_ok_iff, Element3_eq_ok_iff, ScaleRowwise_eq_ok_iff,
    pure, Except.pure, Except.ok.injEq] at hrun
  obtain ⟨bv, ⟨-, rfl⟩, r1, ⟨-, rfl⟩, r2, ⟨-, rfl⟩, ga, ⟨-, rfl⟩, t1, ⟨-, rfl⟩, r3,
    ⟨-, rfl⟩, r4, ⟨-, rfl⟩, gb, ⟨-, rfl⟩, t2, ⟨-, rfl⟩, rfl⟩ := hrun
  by_cases hab : a = b
  · subst hab
    have hpa : p = a := by tauto
    subst hpa
    simp [Graph.setGrad, Graph.put, Graph.set_zero_adjoint, Node.set_zero_adjoint_data,
      Node.set_zero_adjoint_val, Function.update_noteq hna]
  · rcases hp with rfl | rfl
    · simp [Graph.setGrad, Graph.put, Graph.set_zero_adjoint, Node.set_zero_adjoint_data,
        Node.set_zero_adjoint_val, Function.update_noteq hna, Function.update_noteq hnb,
        hab, Function.update_noteq hab, Function.update_noteq (Ne.symm hab)]
    · simp [Graph.setGrad, Graph.put, Graph.set_zero_adjoint, Node.set_zero_adjoint_data,
        Node.set_zero_adjoint_val, Function.update_noteq hna, Function.update_noteq hnb,
        hab, Ne.symm hab, Function.update_noteq hab, Function.update_noteq (Ne.symm hab)]

theorem Graph.setGrad_val (g : Graph F) (p q : ChainPtr) (t : Tensor F) :
    ((g.setGrad p t) q).val_ = (g q).val_ := by
  unfold Graph.setGrad Graph.put
  by_cases h : q = p
  · subst h
    simp
  · simp [Function.update_noteq h]

theorem Graph.setGrad_of_ne (g : Graph F) (p q : ChainPtr) (t : Tensor F) (h : q ≠ p) :
    (g.setGrad p t) q = g q := by
  simp [Graph.setGrad, Graph.put, Function.update_noteq h]

theorem ownContribution_setGrad (K : Kernels F) (g : Graph F) (n p : ChainPtr)
    (t : Tensor F) (hnp : n ≠ p) (i j : Nat) :
    ownContribution K (g.setGrad p t) n p i j = ownContribution K g n p i j := by
  simp only [ownContribution, Graph.setGrad_val, Graph.setGrad_of_ne g p n t hnp]

/-! ## Completion of `backward` in a ready store -/

theorem Node.backward_completes (K : Kernels F) (g : Graph F) (n : ChainPtr)
    (hself : n ∉ (g n).op.parents) (hr : g.BackwardReady n) :
    ∃ g1, Node.backward K g n = .ok g1 := by
  unfold Graph.BackwardReady at hr
  unfold Node.backward
  cases hop : (g n).op with
  | Input => exact ⟨g, rfl⟩
  | Constant => exact ⟨g, rfl⟩
  | Param => exact ⟨g, rfl⟩
  | Argmax a => exact ⟨g, rfl⟩
  | Logit a =>
    simp only [hop, Tensor.AllocatedWith] at hr
    obtain ⟨s, ⟨h1, h2⟩, ⟨h3, h4⟩, h5, h6⟩ := hr
    simp [LogitNodeOp.backward, Node.grad, Element3, bind, Except.bind, pure, Except.pure,
      h1, h2, h3, h4, h5, h6]
  | Tanh a =>
    simp only [hop, Tensor.AllocatedWith] at hr
    obtain ⟨s, ⟨h1, h2⟩, ⟨h3, h4⟩, h5, h6⟩ := hr
    simp [TanhNodeOp.backward, Node.grad, Element3, bind, Except.bind, pure, Except.pure,
      h1, h2, h3, h4, h5, h6]
  | ReLU a =>
    simp only [hop, Tensor.AllocatedWith] at hr
    obtain ⟨s, ⟨h1, h2⟩, ⟨h3, h4⟩, h5, h6⟩ := hr
    simp [ReLUNodeOp.backward, Node.grad, Element3, bind, Except.bind, pure, Except.pure,
      h1, h2, h3, h4, h5, h6]
  | Dropout a =>
    simp only [hop, Tensor.AllocatedWith] at hr
    obtain ⟨s, ⟨h1, h2⟩, ⟨h3, h4⟩, h5, h6⟩ := hr
    simp [DropoutNodeOp.backward, Node.grad, Element3, bind, Except.bind, pure, Except.pure,
      h1, h2, h3, h4, h5, h6]
  | Softmax a =>
    simp only [hop, Tensor.AllocatedWith] at hr
    obtain ⟨s, ⟨h1, h2⟩, ⟨h3, h4⟩, h5, h6⟩ := hr
    simp [SoftmaxNodeOp.backward, Node.grad, SoftmaxGrad, bind, Except.bind, pure,
      Except.pure, h1, h2, h3, h4, h5, h6]
  | Log a =>
    simp only [hop, Tensor.AllocatedWith] at hr
    obtain ⟨s, ⟨h1, h2⟩, ⟨h3, h4⟩, h5, h6⟩ := hr
    simp [LogNodeOp.backward, Node.grad, Node.val, Element3, bind, Except.bind, pure,
      Except.pure, h1, h2, h3, h4, h5, h6]
  | Exp a =>
    simp only [hop, Tensor.AllocatedWith] at hr
    obtain ⟨s, ⟨h1, h2⟩, ⟨h3, h4⟩, h5, h6⟩ := hr
    simp [ExpNodeOp.backward, Node.grad, Node.val, Element3, bind, Except.bind, pure,
      Except.pure, h1, h2, h3, h4, h5, h6]
  | Neg a =>
    simp only [hop, Tensor.AllocatedWith] at hr
    obtain ⟨s, ⟨h1, h2⟩, h3, h4⟩ := hr
    simp [NegNodeOp.backward, Node.grad, Element2, bind, Except.bind, pure, Except.pure,
      h1, h2, h3, h4]
  | Plus a b =>
    simp only [hop, Tensor.AllocatedWith] at hr
    simp only [hop, Op.parents, List.mem_cons, List.mem_singleton, List.not_mem_nil,
      or_false, not_or] at hself
    obtain ⟨hna, hnb⟩ := hself
    obtain ⟨s, ⟨h1, h2⟩, ⟨h3, h4⟩, h5, h6⟩ := hr
    by_cases hab : a = b
    · subst hab
      simp [PlusNodeOp.backward, Node.grad, Element2, Graph.setGrad, Graph.put, bind,
        Except.bind, pure, Except.pure, Function.update_noteq hna, h1, h2, h5, h6]
    · simp [PlusNodeOp.backward, Node.grad, Element2, Graph.setGrad, Graph.put, bind,
        Except.bind, pure, Except.pure, Function.update_noteq hna, Function.update_noteq hnb,
        Function.update_noteq hab, Function.update_noteq (Ne.symm hab), hab, Ne.symm hab,
        h1, h2, h3, h4, h5, h6]
  | Minus a b =>
    simp only [hop, Tensor.AllocatedWith] at hr
    simp only [hop, Op.parents, List.mem_cons, List.mem_singleton, List.not_mem_nil,
      or_false, not_or] at hself
    obtain ⟨hna, hnb⟩ := hself
    obtain ⟨s, ⟨h1, h2⟩, ⟨h3, h4⟩, h5, h6⟩ := hr
    by_cases hab : a = b
    · subst hab
      simp [MinusNodeOp.backward, Node.grad, Element2, Graph.setGrad, Graph.put, bind,
        Except.bind, pure, Except.pure, Function.update_noteq hna, h1, h2, h5, h6]
    · simp [MinusNodeOp.backward, Node.grad, Element2, Graph.setGrad, Graph.put, bind,
        Except.bind, pure, Except.pure, Function.update_noteq hna, Function.update_noteq hnb,
        Function.update_noteq hab, Function.update_noteq (Ne.symm hab), hab, Ne.symm hab,
        h1, h2, h3, h4, h5, h6]
  | Mult a b =>
    simp only [hop, Tensor.AllocatedWith] at hr
    simp only [hop, Op.parents, List.mem_cons, List.mem_singleton, List.not_mem_nil,
      or_false, not_or] at hself
    obtain ⟨hna, hnb⟩ := hself
    obtain ⟨s, ⟨h1, h2⟩, ⟨h3, h4⟩, ⟨h5, h6⟩, ⟨h7, h8⟩, h9, h10⟩ := hr
    by_cases hab : a = b
    · subst hab
      simp [MultNodeOp.backward, Node.grad, Node.val, Element3, Graph.setGrad, Graph.put,
        bind, Except.bind, pure, Except.pure, Function.update_noteq hna,
        h1, h2, h5, h6, h7, h8]
    · simp [MultNodeOp.backward, Node.grad, Node.val, Element3, Graph.setGrad, Graph.put,
        bind, Except.bind, pure, Except.pure, Function.update_noteq hna,
        Function.update_noteq hnb, Function.update_noteq hab,
        Function.update_noteq (Ne.symm hab), hab, Ne.symm hab,
        h1, h2, h3, h4, h5, h6, h7, h8, h9, h10]
  | Div a b =>
    simp only [hop, Tensor.AllocatedWith] at hr
    simp only [hop, Op.parents, List.mem_cons, List.mem_singleton, List.not_mem_nil,
      or_false, not_or] at hself
    obtain ⟨hna, hnb⟩ := hself
    obtain ⟨s, ⟨h1, h2⟩, ⟨h3, h4⟩, ⟨h5, h6⟩, ⟨h7, h8⟩, h9, h10⟩ := hr
    by_cases hab : a = b
    · subst hab
      simp [DivNodeOp.backward, Node.grad, Node.val, Element3, Element4, Graph.setGrad,
        Graph.put, bind, Except.bind, pure, Except.pure, Function.update_noteq hna,
        h1, h2, h5, h6, h7, h8]
    · simp [DivNodeOp.backward, Node.grad, Node.val, Element3, Element4, Graph.setGrad,
        Graph.put, bind, Except.bind, pure, Except.pure, Function.update_noteq hna,
        Function.update_noteq hnb, Function.update_noteq hab,
        Function.update_noteq (Ne.symm hab), hab, Ne.symm hab,
        h1, h2, h3, h4, h5, h6, h7, h8, h9, h10]
  | Dot a b =>
    simp only [hop, Tensor.AllocatedWith] at hr
    simp only [hop, Op.parents, List.mem_cons, List.mem_singleton, List.not_mem_nil,
      or_false, not_or] at hself
    obtain ⟨hna, hnb⟩ := hself
    obtain ⟨m, k, l, ⟨h1, h2⟩, ⟨h3, h4⟩, ⟨h5, h6⟩, ⟨h7, h8⟩, h9, h10⟩ := hr
    by_cases hab : a = b
    · subst hab
      have hmkl : m = k ∧ k = l := by
        have h := h2.symm.trans h4
        simpa using h
      obtain ⟨hmk, hkl⟩ := hmkl
      subst hmk hkl
      simp [DotNodeOp.backward, Node.grad, Node.val, Prod, Graph.setGrad, Graph.put,
        Shape.rows, Shape.cols, bind, Except.bind, pure, Except.pure,
        Function.update_noteq hna, h1, h2, h5, h6, h7, h8]
    · simp [DotNodeOp.backward, Node.grad, Node.val, Prod, Graph.setGrad, Graph.put,
        Shape.rows, Shape.cols, bind, Except.bind, pure, Except.pure,
        Function.update_noteq hna, Function.update_noteq hnb, Function.update_noteq hab,
        Function.update_noteq (Ne.symm hab), hab, Ne.symm hab,
        h1, h2, h3, h4, h5, h6, h7, h8, h9, h10]
  | CrossEntropy a b =>
    simp only [hop, Tensor.AllocatedWith] at hr
    simp only [hop, Op.parents, List.mem_cons, List.mem_singleton, List.not_mem_nil,
      or_false, not_or] at hself
    obtain ⟨hna, hnb⟩ := hself
    obtain ⟨r, c, ⟨h1, h2⟩, ⟨h3, h4⟩, ⟨h5, h6⟩, ⟨h7, h8⟩, h9, h10⟩ := hr
    by_cases hab : a = b
    · subst hab
      simp [CrossEntropyNodeOp.backward, Node.val, Node.grad, Element2, Element3,
        ScaleRowwise, Tensor.ofShape, Tensor.allocate, Graph.put, Graph.setGrad,
        Shape.rows, Shape.cols, bind, Except.bind, pure, Except.pure,
        Function.update_noteq hna, h1, h2, h3, h4, h5, h6, h7, h8]
    · simp [CrossEntropyNodeOp.backward, Node.val, Node.grad, Element2, Element3,
        ScaleRowwise, Tensor.ofShape, Tensor.allocate, Graph.put, Graph.setGrad,
        Shape.rows, Shape.cols, bind, Except.bind, pure, Except.pure,
        Function.update_noteq hna, Function.update_noteq hnb, Function.update_noteq hab,
        Function.update_noteq (Ne.symm hab), hab, Ne.symm hab,
        h1, h2, h3, h4, h5, h6, h7, h8, h9, h10]

/-! ## No residue after zeroing -/

/-- C6: for every operator node `n` that is not its own parent, and each of its parents
`p`: in a store that after `set_zero_adjoint` on `p` is ready for `backward` of `n` (the
tensors the call touches are allocated and aligned), `backward` of `n`, called right after
`set_zero_adjoint` on `p`, completes and leaves the gradient of `p` in every cell exactly
the contribution of that one call (for a parent in both slots of a binary operator, of
both slots). The same holds whatever tensor `t` the gradient of `p` held before: the
gradient after the call is the contribution computed without `t`. Whenever the call
completes at all, the gradient of `p` is that contribution, and two runs that differ only
in the prior content of the gradient end with the same gradient. -/
theorem C6_no_residue_after_zeroing (K : Kernels F) (g : Graph F) (n p : ChainPtr)
    (hp : p ∈ (g n).op.parents) (hself : n ∉ (g n).op.parents) :
    ((g.set_zero_adjoint p).BackwardReady n →
        ∃ g1, Node.backward K (g.set_zero_adjoint p) n = .ok g1
          ∧ ∀ i j, (g1 p).adj_.data i j = ownContribution K g n p i j)
    ∧ (∀ t : Tensor F, ((g.setGrad p t).set_zero_adjoint p).BackwardReady n →
        ∃ g2, Node.backward K ((g.setGrad p t).set_zero_adjoint p) n = .ok g2
          ∧ ∀ i j, (g2 p).adj_.data i j = ownContribution K g n p i j)
    ∧ (∀ g1, Node.backward K (g.set_zero_adjoint p) n = .ok g1 →
        ∀ i j, (g1 p).adj_.data i j = ownContribution K g n p i j)
    ∧ (∀ (t : Tensor F) (g1 g2 : Graph F),
        Node.backward K (g.set_zero_adjoint p) n = .ok g1 →
        Node.backward K ((g.setGrad p t).set_zero_adjoint p) n = .ok g2 →
        ∀ i j, (g2 p).adj_.data i j = (g1 p).adj_.data i j) := by
  have hnp : n ≠ p := fun h => hself (h ▸ hp)
  have hop0 : ((g.set_zero_adjoint p) n).op = (g n).op := by
    simp [Graph.set_zero_adjoint, Graph.put, Function.update_noteq hnp]
  have main : ∀ (g : Graph F), p ∈ (g n).op.parents → n ∉ (g n).op.parents →
      ∀ g1, Node.backward K (g.set_zero_adjoint p) n = .ok g1 →
        ∀ i j, (g1 p).adj_.data i j = ownContribution K g n p i j := by
    intro g hp hself g1 hrun i j
    have hop0 : ((g.set_zero_adjoint p) n).op = (g n).op := by
      simp [Graph.set_zero_adjoint, Graph.put, Function.update_noteq hnp]
    unfold Node.backward at hrun
    rw [hop0] at hrun
    unfold ownContribution
    cases hop : (g n).op with
    | Input => simp [hop, Op.parents] at hp
    | Constant => simp [hop, Op.parents] at hp
    | Param => simp [hop, Op.parents] at hp
    | Logit a =>
      simp only [hop, Op.parents, List.mem_singleton] at hp hself hrun
      subst hp
      exact LogitNodeOp_backward_after_zero g n p g1 hself hrun i j
    | Tanh a =>
      simp only [hop, Op.parents, List.mem_singleton] at hp hself hrun
      subst hp
      exact TanhNodeOp_backward_after_zero g n p g1 hself hrun i j
    | ReLU a =>
      simp only [hop, Op.parents, List.mem_singleton] at hp hself hrun
      subst hp
      exact ReLUNodeOp_backward_after_zero g n p g1 hself hrun i j
    | Dropout a =>
      simp only [hop, Op.parents, List.mem_singleton] at hp hself hrun
      subst hp
      exact DropoutNodeOp_backward_after_zero g n p g1 hself hrun i j
    | Softmax a =>
      simp only [hop, Op.parents, List.mem_singleton] at hp hself hrun
      subst hp
      exact SoftmaxNodeOp_backward_after_zero g n p g1 hself hrun i j
    | Argmax a =>
      simp only [hop, Op.parents, List.mem_singleton] at hp hself hrun
      subst hp
      exact ArgmaxNodeOp_backward_after_zero g n p g1 hrun i j
    | Log a =>
      simp only [hop, Op.parents, List.mem_singleton] at hp hself hrun
      subst hp
      exact LogNodeOp_backward_after_zero g n p g1 hself hrun i j
    | Exp a =>
      simp only [hop, Op.parents, List.mem_singleton] at hp hself hrun
      subst hp
      exact ExpNodeOp_backward_after_zero K g n p g1 hself hrun i j
    | Neg a =>
      simp only [hop, Op.parents, List.mem_singleton] at hp hself hrun
      subst hp
      exact NegNodeOp_backward_after_zero g n p g1 hself hrun i j
    | Dot a b =>
      simp only [hop, Op.parents, List.mem_cons, List.mem_singleton, List.not_mem_nil,
        or_false, not_or] at hp hself hrun
      exact DotNodeOp_backward_after_zero g n a b p g1 hp hself.1 hself.2 hrun i j
    | Plus a b =>
      simp only [hop, Op.parents, List.mem_cons, List.mem_singleton, List.not_mem_nil,
        or_false, not_or] at hp hself hrun
      exact PlusNodeOp_backward_after_zero g n a b p g1 hp hself.1 hself.2 hrun i j
    | Minus a b =>
      simp only [hop, Op.parents, List.mem_cons, List.mem_singleton, List.not_mem_nil,
        or_false, not_or] at hp hself hrun
      exact MinusNodeOp_backward_after_zero g n a b p g1 hp hself.1 hself.2 hrun i j
    | Mult a b =>
      simp only [hop, Op.parents, List.mem_cons, List.mem_singleton, List.not_mem_nil,
        or_false, not_or] at hp hself hrun
      exact MultNodeOp_backward_after_zero g n a b p g1 hp hself.1 hself.2 hrun i j
    | Div a b =>
      simp only [hop, Op.parents, List.mem_cons, List.mem_singleton, List.not_mem_nil,
        or_false, not_or] at hp hself hrun
      exact DivNodeOp_backward_after_zero g n a b p g1 hp hself.1 hself.2 hrun i j
    | CrossEntropy a b =>
      simp only [hop, Op.parents, List.mem_cons, List.mem_singleton, List.not_mem_nil,
        or_false, not_or] at hp hself hrun
      exact CrossEntropyNodeOp_backward_after_zero K g n a b p g1 hp hself.1 hself.2 hrun i j
  have ready : ∀ (g : Graph F), p ∈ (g n).op.parents → n ∉ (g n).op.parents →
      (g.set_zero_adjoint p).BackwardReady n →
      ∃ g1, Node.backward K (g.set_zero_adjoint p) n = .ok g1
        ∧ ∀ i j, (g1 p).adj_.data i j = ownContribution K g n p i j := by
    intro g hp hself hr
    have hop0 : ((g.set_zero_adjoint p) n).op = (g n).op := by
      simp [Graph.set_zero_adjoint, Graph.put, Function.update_noteq hnp]
    obtain ⟨g1, h1⟩ := Node.backward_completes K (g.set_zero_adjoint p) n
      (by rw [hop0]; exact hself) hr
    exact ⟨g1, h1, main g hp hself g1 h1⟩
  have hn : ∀ t : Tensor F, (g.setGrad p t) n = g n :=
    fun t => Graph.setGrad_of_ne g p n t hnp
  refine ⟨ready g hp hself, ?_, main g hp hself, ?_⟩
  · intro t hr
    obtain ⟨g2, h2, hc⟩ := ready (g.setGrad p t) (by rw [hn t]; exact hp)
      (by rw [hn t]; exact hself) hr
    refine ⟨g2, h2, fun i j => ?_⟩
    rw [hc i j, ownContribution_setGrad K g n p t hnp i j]
  · intro t g1 g2 h1 h2 i j
    rw [main g hp hself g1 h1 i j,
      main (g.setGrad p t) (by rw [hn t]; exact hp) (by rw [hn t]; exact hself) g2 h2 i j,
      ownContribution_setGrad K g n p t hnp i j]

/-- C6, at the example stores, after zeroing the gradient of the first parent: at the
elementwise product of two distinct nodes, at the matrix product of the chain, and at the
elementwise square, whose one parent fills both slots, `backward` completes and leaves
that parent's gradient equal to the call's own contribution. -/
theorem C6_no_residue_after_zeroing_witness :
    (∃ g1, Node.backward exampleKernels (exampleMultGraph.set_zero_adjoint 0) 2 = .ok g1
      ∧ ∀ i j, (g1 0).adj_.data i j = ownContribution exampleKernels exampleMultGraph 2 0 i j)
    ∧ (∃ g1, Node.backward exampleKernels (exampleChainGraph.set_zero_adjoint 0) 3 = .ok g1
      ∧ ∀ i j, (g1 0).adj_.data i j
          = ownContribution exampleKernels exampleChainGraph 3 0 i j)
    ∧ (∃ g1, Node.backward exampleKernels (exampleSquareGraph.set_zero_adjoint 0) 1 = .ok g1
      ∧ ∀ i j, (g1 0).adj_.data i j
          = ownContribution exampleKernels exampleSquareGraph 1 0 i j) :=
  ⟨(C6_no_residue_after_zeroing exampleKernels exampleMultGraph 2 0
      (by decide) (by decide)).1
      ⟨[2, 2], ⟨rfl, rfl⟩, ⟨rfl, rfl⟩, ⟨rfl, rfl⟩, ⟨rfl, rfl⟩, rfl, rfl⟩,
   (C6_no_residue_after_zeroing exampleKernels exampleChainGraph 3 0
      (by decide) (by decide)).1
      ⟨2, 3, 1, ⟨rfl, rfl⟩, ⟨rfl, rfl⟩, ⟨rfl, rfl⟩, ⟨rfl, rfl⟩, rfl, rfl⟩,
   (C6_no_residue_after_zeroing exampleKernels exampleSquareGraph 1 0
      (by decide) (by decide)).1
      ⟨[2, 2], ⟨rfl, rfl⟩, ⟨rfl, rfl⟩, ⟨rfl, rfl⟩, ⟨rfl, rfl⟩, rfl, rfl⟩⟩

/-! ## Cross-entropy -/

/-- C4: for a cross-entropy node over distinct parents a and b of shape (r x c), `forward`
succeeds and leaves in `probs_` the row-wise softmax of a's value. In every later store
whose `probs_` is still that buffer (a's value may have changed since), `backward`
succeeds and leaves `a.grad = gA + adj_row * (probs - b.val)` and
`b.grad = gB + adj_row * (-log(probs))`, where row i is scaled by entry i of the node's
adjoint, gA and gB are the prior contents, and probs is the softmax of a's value at the
time of `forward`. -/
theorem C4_cross_entropy_backward (K : Kernels F) (g : Graph F) (n a b : ChainPtr)
    (r c : Nat) (hop : (g n).op = Op.CrossEntropy a b)
    (hab : a ≠ b) (hna : n ≠ a) (hnb : n ≠ b)
    (hA : (g a).val_.allocated = true) (hAs : (g a).val_.shape = [(r : Int), (c : Int)])
    (hB : (g b).val_.allocated = true) (hBs : (g b).val_.shape = [(r : Int), (c : Int)])
    (hV : (g n).val_.allocated = true) (hVs : (g n).val_.shape = [(r : Int), 1])
    (hP : (g n).probs_.allocated = true → (g n).probs_.shape = [(r : Int), (c : Int)]) :
    ∃ g1, Node.forward K g n = .ok g1
      ∧ (g1 n).probs_
          = { allocated := true, shape := [(r : Int), (c : Int)],
              data := K.Softmax [(r : Int), (c : Int)] (g a).val_.data }
      ∧ ∀ g2 : Graph F, (g2 n).op = Op.CrossEntropy a b →
          (g2 n).probs_ = (g1 n).probs_ →
          (g2 b).val_.allocated = true → (g2 b).val_.shape = [(r : Int), (c : Int)] →
          (g2 n).adj_.allocated = true → (g2 n).adj_.shape = [(r : Int), 1] →
          (g2 a).adj_.allocated = true → (g2 a).adj_.shape = [(r : Int), (c : Int)] →
          (g2 b).adj_.allocated = true → (g2 b).adj_.shape = [(r : Int), (c : Int)] →
          ∃ g3, Node.backward K g2 n = .ok g3
            ∧ (∀ i j, (g3 a).adj_.data i j
                = (g2 a).adj_.data i j
                  + (K.Softmax [(r : Int), (c : Int)] (g a).val_.data i j
                      - (g2 b).val_.data i j) * (g2 n).adj_.data i 0)
            ∧ (∀ i j, (g3 b).adj_.data i j
                = (g2 b).adj_.data i j
                  + -K.Log (K.Softmax [(r : Int), (c : Int)] (g a).val_.data i j)
                      * (g2 n).adj_.data i 0) := by
  have hfw : ∃ g1, Node.forward K g n = .ok g1
      ∧ (g1 n).probs_
          = { allocated := true, shape := [(r : Int), (c : Int)],
              data := K.Softmax [(r : Int), (c : Int)] (g a).val_.data } := by
    by_cases hp : (g n).probs_.allocated = true
    · have hps := hP hp
      simp [Node.forward, hop, CrossEntropyNodeOp.forward, Node.val, Tensor.copyFrom,
        Softmax, Element3, SumRowwise, Tensor.ofShape, Tensor.allocate, Tensor.set,
        Graph.put, Graph.setVal, Shape.rows, Shape.cols, bind, Except.bind, pure,
        Except.pure, Function.update_noteq hna, Function.update_noteq hnb,
        Function.update_noteq hna.symm, Function.update_noteq hnb.symm,
        hA, hAs, hB, hBs, hV, hVs, hp, hps]
    · simp [Node.forward, hop, CrossEntropyNodeOp.forward, Node.val, Tensor.copyFrom,
        Softmax, Element3, SumRowwise, Tensor.ofShape, Tensor.allocate, Tensor.set,
        Graph.put, Graph.setVal, Shape.rows, Shape.cols, bind, Except.bind, pure,
        Except.pure, Function.update_noteq hna, Function.update_noteq hnb,
        Function.update_noteq hna.symm, Function.update_noteq hnb.symm,
        hA, hAs, hB, hBs, hV, hVs, hp]
  obtain ⟨g1, hg1, hprobs⟩ := hfw
  refine ⟨g1, hg1, hprobs, ?_⟩
  intro g2 hop2 hpr2 hB2 hBs2 hD hDs hgA hgAs hgB hgBs
  rw [hprobs] at hpr2
  simp [Node.backward, hop2, CrossEntropyNodeOp.backward, Node.val, Node.grad, Element2,
    Element3, ScaleRowwise, Tensor.ofShape, Tensor.allocate, Graph.put, Graph.setGrad,
    Shape.rows, Shape.cols, bind, Except.bind, pure, Except.pure,
    Function.update_noteq hna, Function.update_noteq hnb,
    Function.update_noteq hab, Function.update_noteq hab.symm, hab, hab.symm,
    hpr2, hB2, hBs2, hD, hDs, hgA, hgAs, hgB, hgBs]

/-- C4, at the cross-entropy node of the example store (parents 2 x 3, probabilities not
yet allocated): `forward` succeeds. -/
theorem C4_cross_entropy_backward_witness :
    ∃ g1, Node.forward exampleKernels exampleCrossEntropyGraph 2 = .ok g1 :=
  (C4_cross_entropy_backward exampleKernels exampleCrossEntropyGraph 2 0 1 2 3 rfl
    (by decide) (by decide) (by decide) rfl rfl rfl rfl rfl rfl
    (fun h => absurd h (by decide))).imp fun _ h => h.1

/-! ## Unary elementwise operators, uniformly -/

theorem Node.forward_elementwise (K : Kernels F) (g : Graph F) (n a : ChainPtr) (s : Shape)
    (hk : (g n).op.isElementwiseUnary = true) (hpar : (g n).op.parents = [a])
    (hA : (g a).val_.allocated = true) (hAs : (g a).val_.shape = s)
    (hV : (g n).val_.allocated = true) (hVs : (g n).val_.shape = s) :
    ∃ sd : Int,
      Node.forward K g n
        = .ok (g.put n { g n with
            val_ := { allocated := true, shape := s,
                      data := elementwiseValue K (g n) (g a).val_ },
            seed_ := sd }) := by
  unfold Node.forward elementwiseValue
  cases hop : (g n).op <;> simp [hop, Op.isElementwiseUnary] at hk <;>
    simp only [hop, Op.parents, List.cons.injEq, and_true] at hpar <;> subst hpar
  · exact ⟨(g n).seed_, by
      simp [LogitNodeOp.forward, Node.val, Element2, Graph.setVal, bind, Except.bind, pure,
        Except.pure, hA, hAs, hV, hVs]⟩
  · exact ⟨(g n).seed_, by
      simp [TanhNodeOp.forward, Node.val, Element2, Graph.setVal, bind, Except.bind, pure,
        Except.pure, hA, hAs, hV, hVs]⟩
  · exact ⟨(g n).seed_, by
      simp [ReLUNodeOp.forward, Node.val, Element2, Graph.setVal, bind, Except.bind, pure,
        Except.pure, hA, hAs, hV, hVs]⟩
  · exact ⟨(g n).seed_ + 1, by
      simp [DropoutNodeOp.forward, Node.val, Dropout, Graph.setVal, bind, Except.bind, pure,
        Except.pure, hA, hAs, hV, hVs]⟩
  · exact ⟨(g n).seed_, by
      simp [LogNodeOp.forward, Node.val, Element2, Graph.setVal, bind, Except.bind, pure,
        Except.pure, hA, hAs, hV, hVs]⟩
  · exact ⟨(g n).seed_, by
      simp [ExpNodeOp.forward, Node.val, Element2, Graph.setVal, bind, Except.bind, pure,
        Except.pure, hA, hAs, hV, hVs]⟩
  · exact ⟨(g n).seed_, by
      simp [NegNodeOp.forward, Node.val, Element2, Graph.setVal, bind, Except.bind, pure,
        Except.pure, hA, hAs, hV, hVs]⟩

theorem Node.backward_elementwise (K : Kernels F) (g : Graph F) (n a : ChainPtr) (s : Shape)
    (hk : (g n).op.isElementwiseUnary = true) (hpar : (g n).op.parents = [a])
    (hA : (g a).val_.allocated = true) (hAs : (g a).val_.shape = s)
    (hV : (g n).val_.allocated = true) (hVs : (g n).val_.shape = s)
    (hD : (g n).adj_.allocated = true) (hDs : (g n).adj_.shape = s)
    (hG : (g a).adj_.allocated = true) (hGs : (g a).adj_.shape = s) :
    Node.backward K g n
      = .ok (g.setGrad a ⟨true, s,
          fun i j => (g a).adj_.data i j + ownContribution K g n a i j⟩) := by
  unfold Node.backward ownContribution
  cases hop : (g n).op <;> simp [hop, Op.isElementwiseUnary] at hk <;>
    simp only [hop, Op.parents, List.cons.injEq, and_true] at hpar <;> subst hpar
  · simp [LogitNodeOp.backward, Node.grad, Node.val, Element3, bind, Except.bind, pure,
      Except.pure, hA, hAs, hV, hVs, hD, hDs, hG, hGs]
  · simp [TanhNodeOp.backward, Node.grad, Node.val, Element3, bind, Except.bind, pure,
      Except.pure, hA, hAs, hV, hVs, hD, hDs, hG, hGs]
  · simp [ReLUNodeOp.backward, Node.grad, Node.val, Element3, bind, Except.bind, pure,
      Except.pure, hA, hAs, hV, hVs, hD, hDs, hG, hGs]
  · simp [DropoutNodeOp.backward, Node.grad, Node.val, Element3, bind, Except.bind, pure,
      Except.pure, hA, hAs, hV, hVs, hD, hDs, hG, hGs]
  · simp [LogNodeOp.backward, Node.grad, Node.val, Element3, bind, Except.bind, pure,
      Except.pure, hA, hAs, hV, hVs, hD, hDs, hG, hGs]
  · simp [ExpNodeOp.backward, Node.grad, Node.val, Element3, bind, Except.bind, pure,
      Except.pure, hA, hAs, hV, hVs, hD, hDs, hG, hGs]
  · simp [NegNodeOp.backward, Node.grad, Node.val, Element2, bind, Except.bind, pure,
      Except.pure, hA, hAs, hV, hVs, hD, hDs, hG, hGs]

theorem Graph.put_same (g : Graph F) (p : ChainPtr) (n : Node F) : (g.put p n) p = n := by
  simp [Graph.put]

theorem Graph.put_of_ne (g : Graph F) (p q : ChainPtr) (n : Node F) (h : q ≠ p) :
    (g.put p n) q = g q := by
  simp [Graph.put, Function.update_noteq h]

theorem Node_set_zero_adjoint_of_ready (s : Shape) (n : Node F) (h : n.Ready s) :
    n.set_zero_adjoint = { n with adj_ := ⟨true, s, fun _ _ => 0⟩ } := by
  obtain ⟨-, -, h3, h4⟩ := h
  unfold Node.set_zero_adjoint
  split_ifs with ha
  · simp only [Tensor.set]
    rw [← h4 ha, ← ha]
  · simp [Tensor.allocate, h3]

theorem Node_init_dependent_of_ready (s : Shape) (n : Node F) (h : n.Ready s) :
    n.init_dependent = { n with adj_ := ⟨true, s, fun _ _ => 1⟩ } := by
  obtain ⟨-, -, h3, h4⟩ := h
  unfold Node.init_dependent
  split_ifs with ha
  · simp only [Tensor.set]
    rw [← h4 ha, ← ha]
  · simp [Tensor.allocate, h3]

theorem PlusNodeOp_forward_ok (g : Graph F) (n a b : ChainPtr) (s : Shape)
    (hA : (g a).val_.allocated = true) (hAs : (g a).val_.shape = s)
    (hB : (g b).val_.allocated = true) (hBs : (g b).val_.shape = s)
    (hV : (g n).val_.allocated = true) (hVs : (g n).val_.shape = s) :
    PlusNodeOp.forward g n a b
      = .ok (g.put n { g n with
          val_ := ⟨true, s, fun i j => (g a).val_.data i j + (g b).val_.data i j⟩ }) := by
  simp [PlusNodeOp.forward, Node.val, Element3, Graph.setVal, bind, Except.bind, pure,
    Except.pure, hA, hAs, hB, hBs, hV, hVs]

theorem PlusNodeOp_backward_ok (g : Graph F) (n a b : ChainPtr) (s : Shape)
    (hab : a ≠ b) (hna : n ≠ a)
    (hD : (g n).adj_.allocated = true) (hDs : (g n).adj_.shape = s)
    (hgA : (g a).adj_.allocated = true) (hgAs : (g a).adj_.shape = s)
    (hgB : (g b).adj_.allocated = true) (hgBs : (g b).adj_.shape = s) :
    PlusNodeOp.backward g n a b
      = .ok ((g.put a { g a with
            adj_ := ⟨true, s, fun i j => (g a).adj_.data i j + (g n).adj_.data i j⟩ }).put b
          { g b with
            adj_ := ⟨true, s, fun i j => (g b).adj_.data i j + (g n).adj_.data i j⟩ }) := by
  simp [PlusNodeOp.backward, Node.grad, Element2, Graph.setGrad, Graph.put, bind,
    Except.bind, pure, Except.pure, Function.update_noteq hna, Function.update_noteq hab,
    Function.update_noteq hab.symm, hD, hDs, hgA, hgAs, hgB, hgBs]

theorem Graph_set_zero_adjoint_of_ready (g : Graph F) (p : ChainPtr) (s : Shape)
    (h : (g p).Ready s) :
    g.set_zero_adjoint p = g.put p { g p with adj_ := ⟨true, s, fun _ _ => 0⟩ } := by
  unfold Graph.set_zero_adjoint
  rw [Node_set_zero_adjoint_of_ready s (g p) h]

theorem Graph_init_dependent_of_ready (g : Graph F) (p : ChainPtr) (s : Shape)
    (h : (g p).Ready s) :
    g.init_dependent p = g.put p { g p with adj_ := ⟨true, s, fun _ _ => 1⟩ } := by
  unfold Graph.init_dependent
  rw [Node_init_dependent_of_ready s (g p) h]

/-! ## Fan-out -/

/-- C1: let x feed two distinct elementwise unary operator nodes y and z, with
loss = Plus(y, z), all four nodes distinct and allocated with one shape. Then the run
"forward; zero the gradients of x, y, z; seed the loss gradient with 1; backward on the
loss, then on y and z" succeeds in either order of y and z, and in both orders x's
gradient is in every cell the sum of the two individual contributions: of what
`backward` of y alone, and `backward` of z alone, leave in x's zeroed gradient after the
backward of the loss. For y = Tanh(x) and z = Logit(x) these are `1 * (1 - tanh(x)^2)`
and `1 * sigma(x) * (1 - sigma(x))`. -/
theorem C1_fan_out_accumulation (K : Kernels F) (g : Graph F) (x y z loss : ChainPtr)
    (s : Shape) (hnd : [x, y, z, loss].Nodup)
    (hy : (g y).op.isElementwiseUnary = true) (hyp : (g y).op.parents = [x])
    (hz : (g z).op.isElementwiseUnary = true) (hzp : (g z).op.parents = [x])
    (hl : (g loss).op = Op.Plus y z)
    (hrx : (g x).Ready s) (hry : (g y).Ready s) (hrz : (g z).Ready s)
    (hrl : (g loss).Ready s) :
    ∃ gS gy gz gyz gzy,
      fanOutSeed K g x y z loss = .ok gS
      ∧ Node.backward K gS y = .ok gy ∧ Node.backward K gS z = .ok gz
      ∧ fanOutPass K g x y z loss true = .ok gyz
      ∧ fanOutPass K g x y z loss false = .ok gzy
      ∧ (∀ i j, (gS x).adj_.data i j = 0)
      ∧ (∀ i j, (gyz x).adj_.data i j = (gy x).adj_.data i j + (gz x).adj_.data i j)
      ∧ (∀ i j, (gzy x).adj_.data i j = (gy x).adj_.data i j + (gz x).adj_.data i j)
      ∧ ((g y).op = Op.Tanh x → (g z).op = Op.Logit x → ∀ i j,
          (gy x).adj_.data i j
              = 1 * (1 - K.Tanh ((g x).val_.data i j) * K.Tanh ((g x).val_.data i j))
          ∧ (gz x).adj_.data i j
              = 1 * K.Sigma ((g x).val_.data i j) * (1 - K.Sigma ((g x).val_.data i j))) := by
  simp only [List.nodup_cons, List.mem_cons, List.mem_singleton, not_or, List.not_mem_nil,
    not_false_eq_true, List.nodup_nil, and_true] at hnd
  obtain ⟨⟨hxy, hxz, hxl⟩, ⟨hyz, hyl⟩, hzl⟩ := hnd
  have hyx := Ne.symm hxy
  have hzx := Ne.symm hxz
  have hlx := Ne.symm hxl
  have hzy := Ne.symm hyz
  have hly := Ne.symm hyl
  have hlz := Ne.symm hzl
  -- forward of y
  obtain ⟨sy, h1⟩ :=
    Node.forward_elementwise K g y x s hy hyp hrx.1 hrx.2.1 hry.1 hry.2.1
  generalize hdy : elementwiseValue K (g y) (g x).val_ = dy at h1
  generalize hg1 : g.put y { g y with val_ := ⟨true, s, dy⟩, seed_ := sy } = g1 at h1
  have e1x : g1 x = g x := by rw [← hg1, Graph.put_of_ne _ _ _ _ hxy]
  have e1y : g1 y = { g y with val_ := ⟨true, s, dy⟩, seed_ := sy } := by
    rw [← hg1, Graph.put_same]
  have e1z : g1 z = g z := by rw [← hg1, Graph.put_of_ne _ _ _ _ hzy]
  have e1l : g1 loss = g loss := by rw [← hg1, Graph.put_of_ne _ _ _ _ hly]
  -- forward of z
  obtain ⟨sz, h2⟩ :=
    Node.forward_elementwise K g1 z x s (by rw [e1z]; exact hz) (by rw [e1z]; exact hzp)
      (by rw [e1x]; exact hrx.1) (by rw [e1x]; exact hrx.2.1)
      (by rw [e1z]; exact hrz.1) (by rw [e1z]; exact hrz.2.1)
  rw [e1z, e1x] at h2
  generalize hdz : elementwiseValue K (g z) (g x).val_ = dz at h2
  generalize hg2 : g1.put z { g z with val_ := ⟨true, s, dz⟩, seed_ := sz } = g2 at h2
  have e2x : g2 x = g x := by rw [← hg2, Graph.put_of_ne _ _ _ _ hxz, e1x]
  have e2y : g2 y = { g y with val_ := ⟨true, s, dy⟩, seed_ := sy } := by
    rw [← hg2, Graph.put_of_ne _ _ _ _ hyz, e1y]
  have e2z : g2 z = { g z with val_ := ⟨true, s, dz⟩, seed_ := sz } := by
    rw [← hg2, Graph.put_same]
  have e2l : g2 loss = g loss := by rw [← hg2, Graph.put_of_ne _ _ _ _ hlz, e1l]
  -- forward of the loss
  have h3 : Node.forward K g2 loss
      = .ok (g2.put loss { g loss with val_ := ⟨true, s, fun i j => dy i j + dz i j⟩ }) := by
    have hp := PlusNodeOp_forward_ok g2 loss y z s (by rw [e2y]) (by rw [e2y])
      (by rw [e2z]) (by rw [e2z]) (by rw [e2l]; exact hrl.1) (by rw [e2l]; exact hrl.2.1)
    rw [e2l, e2y, e2z] at hp
    simpa [Node.forward, e2l, hl] using hp
  generalize hg3 : g2.put loss { g loss with val_ := ⟨true, s, fun i j => dy i j + dz i j⟩ }
    = g3 at h3
  have e3x : g3 x = g x := by rw [← hg3, Graph.put_of_ne _ _ _ _ hxl, e2x]
  have e3y : g3 y = { g y with val_ := ⟨true, s, dy⟩, seed_ := sy } := by
    rw [← hg3, Graph.put_of_ne _ _ _ _ hyl, e2y]
  have e3z : g3 z = { g z with val_ := ⟨true, s, dz⟩, seed_ := sz } := by
    rw [← hg3, Graph.put_of_ne _ _ _ _ hzl, e2z]
  have e3l : g3 loss = { g loss with val_ := ⟨true, s, fun i j => dy i j + dz i j⟩ } := by
    rw [← hg3, Graph.put_same]
  -- the gradients of x, y and z are zeroed, the gradient of the loss is seeded
  have h4 := Graph_set_zero_adjoint_of_ready g3 x s (by rw [e3x]; exact hrx)
  rw [e3x] at h4
  generalize hg4 : g3.set_zero_adjoint x = g4 at h4
  have e4y : g4 y = { g y with val_ := ⟨true, s, dy⟩, seed_ := sy } := by
    rw [h4, Graph.put_of_ne _ _ _ _ hyx, e3y]
  have h5 := Graph_set_zero_adjoint_of_ready g4 y s
    (by rw [e4y]; exact ⟨rfl, rfl, hry.2.2.1, hry.2.2.2⟩)
  rw [e4y] at h5
  generalize hg5 : g4.set_zero_adjoint y = g5 at h5
  have e5z : g5 z = { g z with val_ := ⟨true, s, dz⟩, seed_ := sz } := by
    rw [h5, Graph.put_of_ne _ _ _ _ hzy, h4, Graph.put_of_ne _ _ _ _ hzx, e3z]
  have h6 := Graph_set_zero_adjoint_of_ready g5 z s
    (by rw [e5z]; exact ⟨rfl, rfl, hrz.2.2.1, hrz.2.2.2⟩)
  rw [e5z] at h6
  generalize hg6 : g5.set_zero_adjoint z = g6 at h6
  have e6l : g6 loss = { g loss with val_ := ⟨true, s, fun i j => dy i j + dz i j⟩ } := by
    rw [h6, Graph.put_of_ne _ _ _ _ hlz, h5, Graph.put_of_ne _ _ _ _ hly, h4,
      Graph.put_of_ne _ _ _ _ hlx, e3l]
  have h7 := Graph_init_dependent_of_ready g6 loss s
    (by rw [e6l]; exact ⟨rfl, rfl, hrl.2.2.1, hrl.2.2.2⟩)
  rw [e6l] at h7
  generalize hg7 : g6.init_dependent loss = g7 at h7
  have e7x : g7 x = { g x with adj_ := ⟨true, s, fun _ _ => 0⟩ } := by
    rw [h7, Graph.put_of_ne _ _ _ _ hxl, h6, Graph.put_of_ne _ _ _ _ hxz, h5,
      Graph.put_of_ne _ _ _ _ hxy, h4, Graph.put_same]
  have e7y : g7 y = { g y with
      val_ := ⟨true, s, dy⟩, seed_ := sy, adj_ := ⟨true, s, fun _ _ => 0⟩ } := by
    rw [h7, Graph.put_of_ne _ _ _ _ hyl, h6, Graph.put_of_ne _ _ _ _ hyz, h5,
      Graph.put_same]
  have e7z : g7 z = { g z with
      val_ := ⟨true, s, dz⟩, seed_ := sz, adj_ := ⟨true, s, fun _ _ => 0⟩ } := by
    rw [h7, Graph.put_of_ne _ _ _ _ hzl, h6, Graph.put_same]
  have e7l : g7 loss = { g loss with
      val_ := ⟨true, s, fun i j => dy i j + dz i j⟩, adj_ := ⟨true, s, fun _ _ => 1⟩ } := by
    rw [h7, Graph.put_same]
  -- backward of the loss
  have h8 : Node.backward K g7 loss
      = .ok ((g7.put y { g y with
            val_ := ⟨true, s, dy⟩, seed_ := sy, adj_ := ⟨true, s, fun _ _ => 0 + 1⟩ }).put z
          { g z with
            val_ := ⟨true, s, dz⟩, seed_ := sz, adj_ := ⟨true, s, fun _ _ => 0 + 1⟩ }) := by
    have hp := PlusNodeOp_backward_ok g7 loss y z s hyz hly (by rw [e7l]) (by rw [e7l])
      (by rw [e7y]) (by rw [e7y]) (by rw [e7z]) (by rw [e7z])
    rw [e7l, e7y, e7z] at hp
    simpa [Node.backward, e7l, hl] using hp
  generalize hgS : (g7.put y { g y with
            val_ := ⟨true, s, dy⟩, seed_ := sy, adj_ := ⟨true, s, fun _ _ => 0 + 1⟩ }).put z
          { g z with
            val_ := ⟨true, s, dz⟩, seed_ := sz, adj_ := ⟨true, s, fun _ _ => 0 + 1⟩ }
    = gS at h8
  have eSx : gS x = { g x with adj_ := ⟨true, s, fun _ _ => 0⟩ } := by
    rw [← hgS, Graph.put_of_ne _ _ _ _ hxz, Graph.put_of_ne _ _ _ _ hxy, e7x]
  have eSy : gS y = { g y with
      val_ := ⟨true, s, dy⟩, seed_ := sy, adj_ := ⟨true, s, fun _ _ => 0 + 1⟩ } := by
    rw [← hgS, Graph.put_of_ne _ _ _ _ hyz, Graph.put_same]
  have eSz : gS z = { g z with
      val_ := ⟨true, s, dz⟩, seed_ := sz, adj_ := ⟨true, s, fun _ _ => 0 + 1⟩ } := by
    rw [← hgS, Graph.put_same]
  have hseed : fanOutSeed K g x y z loss = .ok gS := by
    simp [fanOutSeed, h1, h2, h3, hg4, hg5, hg6, hg7, h8, bind, Except.bind]
  have eSx0 : ∀ i j, (gS x).adj_.data i j = 0 := by
    intro i j
    rw [eSx]
  -- backward of y alone, and of z alone
  have hby := Node.backward_elementwise K gS y x s (by rw [eSy]; exact hy)
    (by rw [eSy]; exact hyp) (by rw [eSx]; exact hrx.1) (by rw [eSx]; exact hrx.2.1)
    (by rw [eSy]) (by rw [eSy]) (by rw [eSy]) (by rw [eSy]) (by rw [eSx]) (by rw [eSx])
  have hbz := Node.backward_elementwise K gS z x s (by rw [eSz]; exact hz)
    (by rw [eSz]; exact hzp) (by rw [eSx]; exact hrx.1) (by rw [eSx]; exact hrx.2.1)
    (by rw [eSz]) (by rw [eSz]) (by rw [eSz]) (by rw [eSz]) (by rw [eSx]) (by rw [eSx])
  generalize hgy : gS.setGrad x ⟨true, s, fun i j =>
    (gS x).adj_.data i j + ownContribution K gS y x i j⟩ = gy at hby
  generalize hgz : gS.setGrad x ⟨true, s, fun i j =>
    (gS x).adj_.data i j + ownContribution K gS z x i j⟩ = gz at hbz
  have eyx : ∀ i j, (gy x).adj_.data i j = ownContribution K gS y x i j := by
    intro i j
    simp [← hgy, Graph.setGrad, Graph.put_same, eSx0]
  have ezx : ∀ i j, (gz x).adj_.data i j = ownContribution K gS z x i j := by
    intro i j
    simp [← hgz, Graph.setGrad, Graph.put_same, eSx0]
  -- backward of z after y, and of y after z
  have eyz : gy z = gS z := by rw [← hgy, Graph.setGrad_of_ne _ _ _ _ hzx]
  have ezy : gz y = gS y := by rw [← hgz, Graph.setGrad_of_ne _ _ _ _ hyx]
  have eyv : (gy x).val_ = (gS x).val_ := by rw [← hgy, Graph.setGrad_val]
  have ezv : (gz x).val_ = (gS x).val_ := by rw [← hgz, Graph.setGrad_val]
  have hbyz := Node.backward_elementwise K gy z x s (by rw [eyz, eSz]; exact hz)
    (by rw [eyz, eSz]; exact hzp) (by rw [eyv, eSx]; exact hrx.1)
    (by rw [eyv, eSx]; exact hrx.2.1)
    (by rw [eyz, eSz]) (by rw [eyz, eSz]) (by rw [eyz, eSz]) (by rw [eyz, eSz])
    (by simp [← hgy, Graph.setGrad, Graph.put_same])
    (by simp [← hgy, Graph.setGrad, Graph.put_same])
  have hbzy := Node.backward_elementwise K gz y x s (by rw [ezy, eSy]; exact hy)
    (by rw [ezy, eSy]; exact hyp) (by rw [ezv, eSx]; exact hrx.1)
    (by rw [ezv, eSx]; exact hrx.2.1)
    (by rw [ezy, eSy]) (by rw [ezy, eSy]) (by rw [ezy, eSy]) (by rw [ezy, eSy])
    (by simp [← hgz, Graph.setGrad, Graph.put_same])
    (by simp [← hgz, Graph.setGrad, Graph.put_same])
  have cz : ∀ i j, ownContribution K gy z x i j = ownContribution K gS z x i j := by
    intro i j
    rw [← hgy, ownContribution_setGrad K gS z x _ hzx i j]
  have cy : ∀ i j, ownContribution K gz y x i j = ownContribution K gS y x i j := by
    intro i j
    rw [← hgz, ownContribution_setGrad K gS y x _ hyx i j]
  generalize hgyz : gy.setGrad x ⟨true, s, fun i j =>
    (gy x).adj_.data i j + ownContribution K gy z x i j⟩ = gyz at hbyz
  generalize hgzy : gz.setGrad x ⟨true, s, fun i j =>
    (gz x).adj_.data i j + ownContribution K gz y x i j⟩ = gzy at hbzy
  refine ⟨gS, gy, gz, gyz, gzy, hseed, hby, hbz, ?_, ?_, eSx0, ?_, ?_, ?_⟩
  · simp only [fanOutPass, hseed, bind, Except.bind, if_true, hby]
    exact hbyz
  · simp only [fanOutPass, hseed, bind, Except.bind, Bool.false_eq_true, if_false, hbz]
    exact hbzy
  · intro i j
    simp [← hgyz, Graph.setGrad, Graph.put_same, eyx, ezx, cz]
  · intro i j
    simp [← hgzy, Graph.setGrad, Graph.put_same, eyx, ezx, cy]
    exact add_comm _ _
  · intro hty htz i j
    rw [eyx, ezx]
    simp [ownContribution, eSy, eSz, hty, htz, ← hdy, ← hdz, elementwiseValue]

/-- C1, at the example store `y = Tanh(x); z = Logit(x); loss = y + z`: the run succeeds
with y before z. -/
theorem C1_fan_out_accumulation_witness :
    ∃ gyz, fanOutPass exampleKernels exampleFanOutGraph 0 1 2 3 true = .ok gyz := by
  obtain ⟨_, _, _, gyz, _, h⟩ :=
    C1_fan_out_accumulation exampleKernels exampleFanOutGraph 0 1 2 3 [2, 2]
      (by decide) rfl rfl rfl rfl rfl
      ⟨rfl, rfl, rfl, fun _ => rfl⟩ ⟨rfl, rfl, rfl, fun _ => rfl⟩
      ⟨rfl, rfl, rfl, fun _ => rfl⟩ ⟨rfl, rfl, rfl, fun _ => rfl⟩
  exact ⟨gyz, h.2.2.2.1⟩

/-! ## The chain `y = Tanh(Dot(W, x) + b)` -/

theorem DotNodeOp_forward_ok (g : Graph F) (n a b : ChainPtr) (m k l : Nat)
    (hA : (g a).val_.allocated = true) (hAs : (g a).val_.shape = [(m : Int), (k : Int)])
    (hB : (g b).val_.allocated = true) (hBs : (g b).val_.shape = [(k : Int), (l : Int)])
    (hV : (g n).val_.allocated = true) (hVs : (g n).val_.shape = [(m : Int), (l : Int)]) :
    DotNodeOp.forward g n a b
      = .ok (g.put n { g n with
          val_ := ⟨true, [(m : Int), (l : Int)], fun i j =>
            Finset.sum (Finset.range k) fun x => (g a).val_.data i x * (g b).val_.data x j⟩ }) := by
  simp [DotNodeOp.forward, Node.val, Prod, Graph.setVal, Shape.rows, Shape.cols, bind,
    Except.bind, pure, Except.pure, hA, hAs, hB, hBs, hV, hVs]

theorem DotNodeOp_backward_ok (g : Graph F) (n a b : ChainPtr) (m k l : Nat)
    (hab : a ≠ b) (hna : n ≠ a)
    (hA : (g a).val_.allocated = true) (hAs : (g a).val_.shape = [(m : Int), (k : Int)])
    (hB : (g b).val_.allocated = true) (hBs : (g b).val_.shape = [(k : Int), (l : Int)])
    (hD : (g n).adj_.allocated = true) (hDs : (g n).adj_.shape = [(m : Int), (l : Int)])
    (hgA : (g a).adj_.allocated = true) (hgAs : (g a).adj_.shape = [(m : Int), (k : Int)])
    (hgB : (g b).adj_.allocated = true) (hgBs : (g b).adj_.shape = [(k : Int), (l : Int)]) :
    DotNodeOp.backward g n a b
      = .ok ((g.put a { g a with
            adj_ := ⟨true, [(m : Int), (k : Int)], fun i j =>
              (Finset.sum (Finset.range l) fun x => (g n).adj_.data i x * (g b).val_.data j x)
                + (g a).adj_.data i j⟩ }).put b
          { g b with
            adj_ := ⟨true, [(k : Int), (l : Int)], fun i j =>
              (Finset.sum (Finset.range m) fun x => (g a).val_.data x i * (g n).adj_.data x j)
                + (g b).adj_.data i j⟩ }) := by
  simp [DotNodeOp.backward, Node.grad, Node.val, Prod, Graph.setGrad, Graph.put,
    Shape.rows, Shape.cols, bind, Except.bind, pure, Except.pure,
    Function.update_noteq hna, Function.update_noteq hab, Function.update_noteq hab.symm,
    hA, hAs, hB, hBs, hD, hDs, hgA, hgAs, hgB, hgBs]

/-- C3: for W of shape (m x n) at `w`, x of shape (n x 1), b of shape (m x 1) and
`y = Tanh(Plus(Dot(W, x), b))`, all nodes distinct and allocated: the forward pass in
construction order succeeds and gives `y.val = tanh(W * x + b)` in every cell; the whole
run (forward, every gradient but y's zeroed, y's gradient seeded with 1, backward on the
tanh, the sum, the product) succeeds, keeps y's value, and leaves `b.grad = 1 - y^2`,
`W.grad = (1 - y^2) * x^T` and `x.grad = W^T * (1 - y^2)`. -/
theorem C3_chain_rule (K : Kernels F) (g : Graph F) (w x b d p y : ChainPtr) (m n : Nat)
    (hnd : [w, x, b, d, p, y].Nodup)
    (hd : (g d).op = Op.Dot w x) (hp : (g p).op = Op.Plus d b) (hy : (g y).op = Op.Tanh p)
    (hrw : (g w).Ready [(m : Int), (n : Int)]) (hrx : (g x).Ready [(n : Int), 1])
    (hrb : (g b).Ready [(m : Int), 1]) (hrd : (g d).Ready [(m : Int), 1])
    (hrp : (g p).Ready [(m : Int), 1]) (hry : (g y).Ready [(m : Int), 1]) :
    ∃ gV gF, chainForward K g d p y = .ok gV ∧ chainPass K g w x b d p y = .ok gF
      ∧ (∀ i j, (gV y).val_.data i j
          = K.Tanh ((Finset.sum (Finset.range n) fun k =>
              (g w).val_.data i k * (g x).val_.data k j) + (g b).val_.data i j))
      ∧ (gF y).val_ = (gV y).val_
      ∧ (∀ i j, (gF b).adj_.data i j
          = 1 - (gV y).val_.data i j * (gV y).val_.data i j)
      ∧ (∀ i j, (gF w).adj_.data i j
          = (1 - (gV y).val_.data i 0 * (gV y).val_.data i 0) * (g x).val_.data j 0)
      ∧ (∀ i j, (gF x).adj_.data i j
          = Finset.sum (Finset.range m) fun k =>
              (g w).val_.data k i
                * (1 - (gV y).val_.data k j * (gV y).val_.data k j)) := by
  simp only [List.nodup_cons, List.mem_cons, List.mem_singleton, not_or, List.not_mem_nil,
    not_false_eq_true, List.nodup_nil, and_true] at hnd
  obtain ⟨⟨h_w_x, h_w_b, h_w_d, h_w_p, h_w_y⟩, ⟨h_x_b, h_x_d, h_x_p, h_x_y⟩,
    ⟨h_b_d, h_b_p, h_b_y⟩, ⟨h_d_p, h_d_y⟩, h_p_y⟩ := hnd
  have h_x_w : x ≠ w := Ne.symm h_w_x
  have h_b_w : b ≠ w := Ne.symm h_w_b
  have h_d_w : d ≠ w := Ne.symm h_w_d
  have h_p_w : p ≠ w := Ne.symm h_w_p
  have h_y_w : y ≠ w := Ne.symm h_w_y
  have h_b_x : b ≠ x := Ne.symm h_x_b
  have h_d_x : d ≠ x := Ne.symm h_x_d
  have h_p_x : p ≠ x := Ne.symm h_x_p
  have h_y_x : y ≠ x := Ne.symm h_x_y
  have h_d_b : d ≠ b := Ne.symm h_b_d
  have h_p_b : p ≠ b := Ne.symm h_b_p
  have h_y_b : y ≠ b := Ne.symm h_b_y
  have h_p_d : p ≠ d := Ne.symm h_d_p
  have h_y_d : y ≠ d := Ne.symm h_d_y
  have h_y_p : y ≠ p := Ne.symm h_p_y
  -- forward of the product
  have h1 := DotNodeOp_forward_ok g d w x m n 1 hrw.1 hrw.2.1 hrx.1
    (by simpa using hrx.2.1) hrd.1 (by simpa using hrd.2.1)
  simp only [Nat.cast_one] at h1
  generalize hDV : (fun i j => Finset.sum (Finset.range n) fun k => (g w).val_.data i k * (g x).val_.data k j) = DV at h1
  generalize hg1 : g.put d { g d with val_ := ⟨true, [(m : Int), 1], DV⟩ } = g1 at h1
  have f1 : Node.forward K g d = .ok g1 := by
    simpa [Node.forward, hd] using h1
  have e1w : g1 w = g w := by
    rw [← hg1, Graph.put_of_ne _ _ _ _ h_w_d]
  have e1x : g1 x = g x := by
    rw [← hg1, Graph.put_of_ne _ _ _ _ h_x_d]
  have e1b : g1 b = g b := by
    rw [← hg1, Graph.put_of_ne _ _ _ _ h_b_d]
  have e1d : g1 d = { g d with val_ := ⟨true, [(m : Int), 1], DV⟩ } := by
    rw [← hg1, Graph.put_same]
  have e1p : g1 p = g p := by
    rw [← hg1, Graph.put_of_ne _ _ _ _ h_p_d]
  have e1y : g1 y = g y := by
    rw [← hg1, Graph.put_of_ne _ _ _ _ h_y_d]
  -- forward of the sum
  have h2 := PlusNodeOp_forward_ok g1 p d b [(m : Int), 1] (by rw [e1d]) (by rw [e1d])
    (by rw [e1b]; exact hrb.1) (by rw [e1b]; exact hrb.2.1)
    (by rw [e1p]; exact hrp.1) (by rw [e1p]; exact hrp.2.1)
  rw [e1p, e1d, e1b] at h2
  generalize hPV : (fun i j => DV i j + (g b).val_.data i j) = PV at h2
  generalize hg2 : g1.put p { g p with val_ := ⟨true, [(m : Int), 1], PV⟩ } = g2 at h2
  have f2 : Node.forward K g1 p = .ok g2 := by
    simpa [Node.forward, e1p, hp] using h2
  have e2w : g2 w = g w := by
    rw [← hg2, Graph.put_of_ne _ _ _ _ h_w_p, e1w]
  have e2x : g2 x = g x := by
    rw [← hg2, Graph.put_of_ne _ _ _ _ h_x_p, e1x]
  have e2b : g2 b = g b := by
    rw [← hg2, Graph.put_of_ne _ _ _ _ h_b_p, e1b]
  have e2d : g2 d = { g d with val_ := ⟨true, [(m : Int), 1], DV⟩ } := by
    rw [← hg2, Graph.put_of_ne _ _ _ _ h_d_p, e1d]
  have e2p : g2 p = { g p with val_ := ⟨true, [(m : Int), 1], PV⟩ } := by
    rw [← hg2, Graph.put_same]
  have e2y : g2 y = g y := by
    rw [← hg2, Graph.put_of_ne _ _ _ _ h_y_p, e1y]
  -- forward of the tanh
  obtain ⟨sy, f3⟩ := Node.forward_elementwise K g2 y p [(m : Int), 1]
    (by rw [e2y, hy]; rfl) (by rw [e2y, hy]; rfl) (by rw [e2p]) (by rw [e2p])
    (by rw [e2y]; exact hry.1) (by rw [e2y]; exact hry.2.1)
  have hYV : elementwiseValue K (g2 y) (g2 p).val_ = fun i j => K.Tanh (PV i j) := by
    rw [e2y, e2p]
    simp [elementwiseValue, hy]
  rw [hYV, e2y] at f3
  generalize hYVd : (fun i j => K.Tanh (PV i j)) = YV at f3
  generalize hg3 : g2.put y { g y with val_ := ⟨true, [(m : Int), 1], YV⟩, seed_ := sy } = g3 at f3
  have e3w : g3 w = g w := by
    rw [← hg3, Graph.put_of_ne _ _ _ _ h_w_y, e2w]
  have e3x : g3 x = g x := by
    rw [← hg3, Graph.put_of_ne _ _ _ _ h_x_y, e2x]
  have e3b : g3 b = g b := by
    rw [← hg3, Graph.put_of_ne _ _ _ _ h_b_y, e2b]
  have e3d : g3 d = { g d with val_ := ⟨true, [(m : Int), 1], DV⟩ } := by
    rw [← hg3, Graph.put_of_ne _ _ _ _ h_d_y, e2d]
  have e3p : g3 p = { g p with val_ := ⟨true, [(m : Int), 1], PV⟩ } := by
    rw [← hg3, Graph.put_of_ne _ _ _ _ h_p_y, e2p]
  have e3y : g3 y = { g y with val_ := ⟨true, [(m : Int), 1], YV⟩, seed_ := sy } := by
    rw [← hg3, Graph.put_same]
  have hfw : chainForward K g d p y = .ok g3 := by
    simp [chainForward, f1, f2, f3, bind, Except.bind]
  -- the gradients of all nodes but y are zeroed, the gradient of y is seeded
  have z4 := Graph_set_zero_adjoint_of_ready g3 w [(m : Int), (n : Int)] (by rw [e3w]; exact hrw)
  rw [e3w] at z4
  generalize hg4 : g3.set_zero_adjoint w = g4 at z4
  have e4w : g4 w = { g w with adj_ := ⟨true, [(m : Int), (n : Int)], fun _ _ => 0⟩ } := by
    rw [z4, Graph.put_same]
  have e4x : g4 x = g x := by
    rw [z4, Graph.put_of_ne _ _ _ _ h_x_w, e3x]
  have e4b : g4 b = g b := by
    rw [z4, Graph.put_of_ne _ _ _ _ h_b_w, e3b]
  have e4d : g4 d = { g d with val_ := ⟨true, [(m : Int), 1], DV⟩ } := by
    rw [z4, Graph.put_of_ne _ _ _ _ h_d_w, e3d]
  have e4p : g4 p = { g p with val_ := ⟨true, [(m : Int), 1], PV⟩ } := by
    rw [z4, Graph.put_of_ne _ _ _ _ h_p_w, e3p]
  have e4y : g4 y = { g y with val_ := ⟨true, [(m : Int), 1], YV⟩, seed_ := sy } := by
    rw [z4, Graph.put_of_ne _ _ _ _ h_y_w, e3y]
  have z5 := Graph_set_zero_adjoint_of_ready g4 x [(n : Int), 1] (by rw [e4x]; exact hrx)
  rw [e4x] at z5
  generalize hg5 : g4.set_zero_adjoint x = g5 at z5
  have e5w : g5 w = { g w with adj_ := ⟨true, [(m : Int), (n : Int)], fun _ _ => 0⟩ } := by
    rw [z5, Graph.put_of_ne _ _ _ _ h_w_x, e4w]
  have e5x : g5 x = { g x with adj_ := ⟨true, [(n : Int), 1], fun _ _ => 0⟩ } := by
    rw [z5, Graph.put_same]
  have e5b : g5 b = g b := by
    rw [z5, Graph.put_of_ne _ _ _ _ h_b_x, e4b]
  have e5d : g5 d = { g d with val_ := ⟨true, [(m : Int), 1], DV⟩ } := by
    rw [z5, Graph.put_of_ne _ _ _ _ h_d_x, e4d]
  have e5p : g5 p = { g p with val_ := ⟨true, [(m : Int), 1], PV⟩ } := by
    rw [z5, Graph.put_of_ne _ _ _ _ h_p_x, e4p]
  have e5y : g5 y = { g y with val_ := ⟨true, [(m : Int), 1], YV⟩, seed_ := sy } := by
    rw [z5, Graph.put_of_ne _ _ _ _ h_y_x, e4y]
  have z6 := Graph_set_zero_adjoint_of_ready g5 b [(m : Int), 1] (by rw [e5b]; exact hrb)
  rw [e5b] at z6
  generalize hg6 : g5.set_zero_adjoint b = g6 at z6
  have e6w : g6 w = { g w with adj_ := ⟨true, [(m : Int), (n : Int)], fun _ _ => 0⟩ } := by
    rw [z6, Graph.put_of_ne _ _ _ _ h_w_b, e5w]
  have e6x : g6 x = { g x with adj_ := ⟨true, [(n : Int), 1], fun _ _ => 0⟩ } := by
    rw [z6, Graph.put_of_ne _ _ _ _ h_x_b, e5x]
  have e6b : g6 b = { g b with adj_ := ⟨true, [(m : Int), 1], fun _ _ => 0⟩ } := by
    rw [z6, Graph.put_same]
  have e6d : g6 d = { g d with val_ := ⟨true, [(m : Int), 1], DV⟩ } := by
    rw [z6, Graph.put_of_ne _ _ _ _ h_d_b, e5d]
  have e6p : g6 p = { g p with val_ := ⟨true, [(m : Int), 1], PV⟩ } := by
    rw [z6, Graph.put_of_ne _ _ _ _ h_p_b, e5p]
  have e6y : g6 y = { g y with val_ := ⟨true, [(m : Int), 1], YV⟩, seed_ := sy } := by
    rw [z6, Graph.put_of_ne _ _ _ _ h_y_b, e5y]
  have z7 := Graph_set_zero_adjoint_of_ready g6 d [(m : Int), 1] (by rw [e6d]; exact ⟨rfl, rfl, hrd.2.2.1, hrd.2.2.2⟩)
  rw [e6d] at z7
  generalize hg7 : g6.set_zero_adjoint d = g7 at z7
  have e7w : g7 w = { g w with adj_ := ⟨true, [(m : Int), (n : Int)], fun _ _ => 0⟩ } := by
    rw [z7, Graph.put_of_ne _ _ _ _ h_w_d, e6w]
  have e7x : g7 x = { g x with adj_ := ⟨true, [(n : Int), 1], fun _ _ => 0⟩ } := by
    rw [z7, Graph.put_of_ne _ _ _ _ h_x_d, e6x]
  have e7b : g7 b = { g b with adj_ := ⟨true, [(m : Int), 1], fun _ _ => 0⟩ } := by
    rw [z7, Graph.put_of_ne _ _ _ _ h_b_d, e6b]
  have e7d : g7 d = { g d with val_ := ⟨true, [(m : Int), 1], DV⟩, adj_ := ⟨true, [(m : Int), 1], fun _ _ => 0⟩ } := by
    rw [z7, Graph.put_same]
  have e7p : g7 p = { g p with val_ := ⟨true, [(m : Int), 1], PV⟩ } := by
    rw [z7, Graph.put_of_ne _ _ _ _ h_p_d, e6p]
  have e7y : g7 y = { g y with val_ := ⟨true, [(m : Int), 1], YV⟩, seed_ := sy } := by
    rw [z7, Graph.put_of_ne _ _ _ _ h_y_d, e6y]
  have z8 := Graph_set_zero_adjoint_of_ready g7 p [(m : Int), 1] (by rw [e7p]; exact ⟨rfl, rfl, hrp.2.2.1, hrp.2.2.2⟩)
  rw [e7p] at z8
  generalize hg8 : g7.set_zero_adjoint p = g8 at z8
  have e8w : g8 w = { g w with adj_ := ⟨true, [(m : Int), (n : Int)], fun _ _ => 0⟩ } := by
    rw [z8, Graph.put_of_ne _ _ _ _ h_w_p, e7w]
  have e8x : g8 x = { g x with adj_ := ⟨true, [(n : Int), 1], fun _ _ => 0⟩ } := by
    rw [z8, Graph.put_of_ne _ _ _ _ h_x_p, e7x]
  have e8b : g8 b = { g b with adj_ := ⟨true, [(m : Int), 1], fun _ _ => 0⟩ } := by
    rw [z8, Graph.put_of_ne _ _ _ _ h_b_p, e7b]
  have e8d : g8 d = { g d with val_ := ⟨true, [(m : Int), 1], DV⟩, adj_ := ⟨true, [(m : Int), 1], fun _ _ => 0⟩ } := by
    rw [z8, Graph.put_of_ne _ _ _ _ h_d_p, e7d]
  have e8p : g8 p = { g p with val_ := ⟨true, [(m : Int), 1], PV⟩, adj_ := ⟨true, [(m : Int), 1], fun _ _ => 0⟩ } := by
    rw [z8, Graph.put_same]
  have e8y : g8 y = { g y with val_ := ⟨true, [(m : Int), 1], YV⟩, seed_ := sy } := by
    rw [z8, Graph.put_of_ne _ _ _ _ h_y_p, e7y]
  have z9 := Graph_init_dependent_of_ready g8 y [(m : Int), 1] (by rw [e8y]; exact ⟨rfl, rfl, hry.2.2.1, hry.2.2.2⟩)
  rw [e8y] at z9
  generalize hg9 : g8.init_dependent y = g9 at z9
  have e9w : g9 w = { g w with adj_ := ⟨true, [(m : Int), (n : Int)], fun _ _ => 0⟩ } := by
    rw [z9, Graph.put_of_ne _ _ _ _ h_w_y, e8w]
  have e9x : g9 x = { g x with adj_ := ⟨true, [(n : Int), 1], fun _ _ => 0⟩ } := by
    rw [z9, Graph.put_of_ne _ _ _ _ h_x_y, e8x]
  have e9b : g9 b = { g b with adj_ := ⟨true, [(m : Int), 1], fun _ _ => 0⟩ } := by
    rw [z9, Graph.put_of_ne _ _ _ _ h_b_y, e8b]
  have e9d : g9 d = { g d with val_ := ⟨true, [(m : Int), 1], DV⟩, adj_ := ⟨true, [(m : Int), 1], fun _ _ => 0⟩ } := by
    rw [z9, Graph.put_of_ne _ _ _ _ h_d_y, e8d]
  have e9p : g9 p = { g p with val_ := ⟨true, [(m : Int), 1], PV⟩, adj_ := ⟨true, [(m : Int), 1], fun _ _ => 0⟩ } := by
    rw [z9, Graph.put_of_ne _ _ _ _ h_p_y, e8p]
  have e9y : g9 y = { g y with val_ := ⟨true, [(m : Int), 1], YV⟩, seed_ := sy, adj_ := ⟨true, [(m : Int), 1], fun _ _ => 1⟩ } := by
    rw [z9, Graph.put_same]
  -- backward of the tanh
  have b1 := Node.backward_elementwise K g9 y p [(m : Int), 1]
    (by rw [e9y, hy]; rfl) (by rw [e9y, hy]; rfl) (by rw [e9p]) (by rw [e9p])
    (by rw [e9y]) (by rw [e9y]) (by rw [e9y]) (by rw [e9y]) (by rw [e9p]) (by rw [e9p])
  have hPG : (fun i j => (g9 p).adj_.data i j + ownContribution K g9 y p i j)
      = fun i j => 1 - YV i j * YV i j := by
    funext i j
    simp [ownContribution, e9y, e9p, hy]
  rw [hPG] at b1
  simp only [Graph.setGrad] at b1
  rw [e9p] at b1
  generalize hg10 : g9.put p _ = g10 at b1
  have e10w : g10 w = { g w with adj_ := ⟨true, [(m : Int), (n : Int)], fun _ _ => 0⟩ } := by
    rw [← hg10, Graph.put_of_ne _ _ _ _ h_w_p, e9w]
  have e10x : g10 x = { g x with adj_ := ⟨true, [(n : Int), 1], fun _ _ => 0⟩ } := by
    rw [← hg10, Graph.put_of_ne _ _ _ _ h_x_p, e9x]
  have e10b : g10 b = { g b with adj_ := ⟨true, [(m : Int), 1], fun _ _ => 0⟩ } := by
    rw [← hg10, Graph.put_of_ne _ _ _ _ h_b_p, e9b]
  have e10d : g10 d = { g d with val_ := ⟨true, [(m : Int), 1], DV⟩, adj_ := ⟨true, [(m : Int), 1], fun _ _ => 0⟩ } := by
    rw [← hg10, Graph.put_of_ne _ _ _ _ h_d_p, e9d]
  have e10p : g10 p = { g p with val_ := ⟨true, [(m : Int), 1], PV⟩, adj_ := ⟨true, [(m : Int), 1], fun i j => 1 - YV i j * YV i j⟩ } := by
    rw [← hg10, Graph.put_same]
  have e10y : g10 y = { g y with val_ := ⟨true, [(m : Int), 1], YV⟩, seed_ := sy, adj_ := ⟨true, [(m : Int), 1], fun _ _ => 1⟩ } := by
    rw [← hg10, Graph.put_of_ne _ _ _ _ h_y_p, e9y]
  -- backward of the sum
  have b2 := PlusNodeOp_backward_ok g10 p d b [(m : Int), 1] h_d_b h_p_d
    (by rw [e10p]) (by rw [e10p]) (by rw [e10d]) (by rw [e10d]) (by rw [e10b]) (by rw [e10b])
  rw [e10p, e10d, e10b] at b2
  simp only [zero_add] at b2
  generalize hg11 : g10.put d _ = g11 at b2
  have e11w : g11 w = { g w with adj_ := ⟨true, [(m : Int), (n : Int)], fun _ _ => 0⟩ } := by
    rw [← hg11, Graph.put_of_ne _ _ _ _ h_w_d, e10w]
  have e11x : g11 x = { g x with adj_ := ⟨true, [(n : Int), 1], fun _ _ => 0⟩ } := by
    rw [← hg11, Graph.put_of_ne _ _ _ _ h_x_d, e10x]
  have e11b : g11 b = { g b with adj_ := ⟨true, [(m : Int), 1], fun _ _ => 0⟩ } := by
    rw [← hg11, Graph.put_of_ne _ _ _ _ h_b_d, e10b]
  have e11d : g11 d = { g d with val_ := ⟨true, [(m : Int), 1], DV⟩, adj_ := ⟨true, [(m : Int), 1], fun i j => 1 - YV i j * YV i j⟩ } := by
    rw [← hg11, Graph.put_same]
  have e11p : g11 p = { g p with val_ := ⟨true, [(m : Int), 1], PV⟩, adj_ := ⟨true, [(m : Int), 1], fun i j => 1 - YV i j * YV i j⟩ } := by
    rw [← hg11, Graph.put_of_ne _ _ _ _ h_p_d, e10p]
  have e11y : g11 y = { g y with val_ := ⟨true, [(m : Int), 1], YV⟩, seed_ := sy, adj_ := ⟨true, [(m : Int), 1], fun _ _ => 1⟩ } := by
    rw [← hg11, Graph.put_of_ne _ _ _ _ h_y_d, e10y]
  generalize hg12 : g11.put b _ = g12 at b2
  have e12w : g12 w = { g w with adj_ := ⟨true, [(m : Int), (n : Int)], fun _ _ => 0⟩ } := by
    rw [← hg12, Graph.put_of_ne _ _ _ _ h_w_b, e11w]
  have e12x : g12 x = { g x with adj_ := ⟨true, [(n : Int), 1], fun _ _ => 0⟩ } := by
    rw [← hg12, Graph.put_of_ne _ _ _ _ h_x_b, e11x]
  have e12b : g12 b = { g b with adj_ := ⟨true, [(m : Int), 1], fun i j => 1 - YV i j * YV i j⟩ } := by
    rw [← hg12, Graph.put_same]
  have e12d : g12 d = { g d with val_ := ⟨true, [(m : Int), 1], DV⟩, adj_ := ⟨true, [(m : Int), 1], fun i j => 1 - YV i j * YV i j⟩ } := by
    rw [← hg12, Graph.put_of_ne _ _ _ _ h_d_b, e11d]
  have e12p : g12 p = { g p with val_ := ⟨true, [(m : Int), 1], PV⟩, adj_ := ⟨true, [(m : Int), 1], fun i j => 1 - YV i j * YV i j⟩ } := by
    rw [← hg12, Graph.put_of_ne _ _ _ _ h_p_b, e11p]
  have e12y : g12 y = { g y with val_ := ⟨true, [(m : Int), 1], YV⟩, seed_ := sy, adj_ := ⟨true, [(m : Int), 1], fun _ _ => 1⟩ } := by
    rw [← hg12, Graph.put_of_ne _ _ _ _ h_y_b, e11y]
  have r2 : Node.backward K g10 p = .ok g12 := by
    simpa [Node.backward, e10p, hp] using b2
  -- backward of the product
  have b3 := DotNodeOp_backward_ok g12 d w x m n 1 h_w_x h_d_w
    (by rw [e12w]; exact hrw.1) (by rw [e12w]; exact hrw.2.1)
    (by rw [e12x]; exact hrx.1) (by rw [e12x]; simpa using hrx.2.1)
    (by rw [e12d]) (by rw [e12d]; simp) (by rw [e12w]) (by rw [e12w])
    (by rw [e12x]) (by rw [e12x]; simp)
  rw [e12w, e12x, e12d] at b3
  generalize hg13 : g12.put w _ = g13 at b3
  have e13w : ∀ i j, (g13 w).adj_.data i j = (1 - YV i 0 * YV i 0) * (g x).val_.data j 0 := by
    intro i j
    rw [← hg13, Graph.put_same]
    simp
  have e13b : g13 b = { g b with adj_ := ⟨true, [(m : Int), 1], fun i j => 1 - YV i j * YV i j⟩ } := by
    rw [← hg13, Graph.put_of_ne _ _ _ _ h_b_w, e12b]
  have e13y : g13 y = { g y with val_ := ⟨true, [(m : Int), 1], YV⟩, seed_ := sy, adj_ := ⟨true, [(m : Int), 1], fun _ _ => 1⟩ } := by
    rw [← hg13, Graph.put_of_ne _ _ _ _ h_y_w, e12y]
  generalize hg14 : g13.put x _ = g14 at b3
  have e14x : ∀ i j, (g14 x).adj_.data i j
      = Finset.sum (Finset.range m) fun k => (g w).val_.data k i * (1 - YV k j * YV k j) := by
    intro i j
    rw [← hg14, Graph.put_same]
    simp
  have e14w : ∀ i j, (g14 w).adj_.data i j = (1 - YV i 0 * YV i 0) * (g x).val_.data j 0 := by
    intro i j
    rw [← hg14, Graph.put_of_ne _ _ _ _ h_w_x]
    exact e13w i j
  have e14b : g14 b = { g b with adj_ := ⟨true, [(m : Int), 1], fun i j => 1 - YV i j * YV i j⟩ } := by
    rw [← hg14, Graph.put_of_ne _ _ _ _ h_b_x, e13b]
  have e14y : g14 y = { g y with val_ := ⟨true, [(m : Int), 1], YV⟩, seed_ := sy, adj_ := ⟨true, [(m : Int), 1], fun _ _ => 1⟩ } := by
    rw [← hg14, Graph.put_of_ne _ _ _ _ h_y_x, e13y]
  have r3 : Node.backward K g12 d = .ok g14 := by
    simpa [Node.backward, e12d, hd] using b3
  have hpass : chainPass K g w x b d p y = .ok g14 := by
    simp [chainPass, hfw, hg4, hg5, hg6, hg7, hg8, hg9, b1, r2, r3, bind, Except.bind]
  have hY : ∀ i j, YV i j = K.Tanh ((Finset.sum (Finset.range n) fun k =>
      (g w).val_.data i k * (g x).val_.data k j) + (g b).val_.data i j) := by
    intro i j
    rw [← hYVd, ← hPV, ← hDV]
  refine ⟨g3, g14, hfw, hpass, ?_, ?_, ?_, ?_, ?_⟩
  · intro i j
    rw [e3y]
    exact hY i j
  · rw [e14y, e3y]
  · intro i j
    rw [e14b, e3y]
  · intro i j
    rw [e14w i j, e3y]
  · intro i j
    rw [e14x i j, e3y]

/-- C3, at the example store with W (2 x 3), x (3 x 1) and b (2 x 1): the whole run
succeeds. -/
theorem C3_chain_rule_witness :
    ∃ gF, chainPass exampleKernels exampleChainGraph 0 1 2 3 4 5 = .ok gF := by
  obtain ⟨_, gF, _, h, _⟩ :=
    C3_chain_rule exampleKernels exampleChainGraph 0 1 2 3 4 5 2 3 (by decide) rfl rfl rfl
      ⟨rfl, rfl, rfl, fun _ => rfl⟩ ⟨rfl, rfl, rfl, fun _ => rfl⟩
      ⟨rfl, rfl, rfl, fun _ => rfl⟩ ⟨rfl, rfl, rfl, fun _ => rfl⟩
      ⟨rfl, rfl, rfl, fun _ => rfl⟩ ⟨rfl, rfl, rfl, fun _ => rfl⟩
  exact ⟨gF, h⟩

/-! ## Parameters -/

theorem ParamNode.allocateTraced_fst (b : Nat) (n : Node F) :
    (ParamNode.allocateTraced b n).1 = ParamNode.allocate b n := by
  unfold ParamNode.allocateTraced ParamNode.allocate
  split_ifs <;> rfl

theorem ParamNode.allocateTraced_op (b : Nat) (n : Node F) :
    (ParamNode.allocateTraced b n).1.op = n.op := by
  unfold ParamNode.allocateTraced
  split_ifs <;> rfl

theorem ParamNode.allocateTraced_initialized (b : Nat) (n : Node F) :
    (ParamNode.allocateTraced b n).1.initialized_ = true := by
  unfold ParamNode.allocateTraced
  split_ifs with h
  · rfl
  · simpa using h

theorem ParamNode.allocateAll_initialized (bs : List Nat) (n : Node F)
    (h : n.initialized_ = true) :
    (ParamNode.allocateAll bs n).2 = List.replicate bs.length 0 := by
  induction bs generalizing n with
  | nil => rfl
  | cons b bs ih =>
    have h0 : (ParamNode.allocateTraced b n).2 = 0 := by
      simp [ParamNode.allocateTraced, h]
    simp only [ParamNode.allocateAll, List.length_cons, List.replicate_succ, h0,
      ih _ (ParamNode.allocateTraced_initialized b n)]

theorem ParamNode.allocateAll_fst (whatevs : Int) (bs : List Nat) (n : Node F)
    (h : n.op = Op.Param) :
    (ParamNode.allocateAll bs n).1 = bs.foldl (fun m b => Node.allocateV whatevs b m) n := by
  induction bs generalizing n with
  | nil => rfl
  | cons b bs ih =>
    have hV : Node.allocateV whatevs b n = (ParamNode.allocateTraced b n).1 := by
      rw [ParamNode.allocateTraced_fst]
      simp [Node.allocateV, h]
    simp only [ParamNode.allocateAll, List.foldl_cons, hV]
    exact ih _ (by rw [ParamNode.allocateTraced_op, h])

theorem ParamNode.new_ok (args : List (Keyword F)) (seed : Int) (n : Node F)
    (h : ParamNode.new args seed = .ok n) :
    n = Node.new .Param (Keywords.ofArgs args) seed := by
  simp only [ParamNode.new] at h
  split_ifs at h
  cases h
  rfl

/-- C11: for every ParamNode as its constructor builds it and every sequence of one or
more `allocate` calls, with any batch sizes, `init_` is invoked exactly once by the first
call and not at all by any later call: once in total. The calls are those the node
receives through the virtual `allocate`. -/
theorem C11_param_init_once (whatevs : Int) (args : List (Keyword F)) (seed : Int)
    (n : Node F) (hnew : ParamNode.new args seed = .ok n) (b : Nat) (bs : List Nat) :
    (ParamNode.allocateAll (b :: bs) n).2 = 1 :: List.replicate bs.length 0
    ∧ (ParamNode.allocateAll (b :: bs) n).2.sum = 1
    ∧ (ParamNode.allocateAll (b :: bs) n).1
        = (b :: bs).foldl (fun m c => Node.allocateV whatevs c m) n := by
  have hn := ParamNode.new_ok args seed n hnew
  have hop : n.op = Op.Param := by rw [hn]; rfl
  have hin : n.initialized_ = false := by rw [hn]; rfl
  have h1 : (ParamNode.allocateTraced b n).2 = 1 := by
    simp [ParamNode.allocateTraced, hin]
  have hl : (ParamNode.allocateAll (b :: bs) n).2 = 1 :: List.replicate bs.length 0 := by
    simp only [ParamNode.allocateAll, h1,
      ParamNode.allocateAll_initialized bs _ (ParamNode.allocateTraced_initialized b n)]
  refine ⟨hl, ?_, ParamNode.allocateAll_fst whatevs (b :: bs) n hop⟩
  rw [hl]
  simp

/-- C11, at a parameter of shape (3 x 2) and three calls with batch sizes 4, 4 and 7. -/
theorem C11_param_init_once_witness :
    (ParamNode.allocateAll [4, 4, 7]
      (Node.new Op.Param (Keywords.ofArgs [Keyword.shape [3, 2]]) 0 : Node ℚ)).2
      = [1, 0, 0] :=
  (C11_param_init_once (-1) [Keyword.shape [3, 2]] 0
    (Node.new Op.Param (Keywords.ofArgs [Keyword.shape [3, 2]]) 0 : Node ℚ) rfl 4 [4, 7]).1

/-! ## Repeated allocation -/

theorem Node.allocate_shape_of_no_producer (whatevs : Int) (b : Nat) (n : Node F)
    (hl : n.keywords.lazy_shape = none) :
    (Node.allocate whatevs b n).shape_
      = n.shape_.map (fun d => if d = whatevs then dimOfBatchSize b else d) := by
  simp [Node.allocate, Node.resolveShape, hl]

theorem Node.allocate_keywords (whatevs : Int) (b : Nat) (n : Node F) :
    (Node.allocate whatevs b n).keywords = n.keywords := by
  simp only [Node.allocate]

/-- C12, evaluated on the code: an Input node built with shape (sentinel, 3), sentinel -1,
has shape (4, 3) after `allocate(4)` and still (4, 3) after a following `allocate(7)`: the
first call overwrites the sentinel in `shape_`, so the second finds nothing to resolve,
and the value tensor is allocated with the stale shape. In general, without a
deferred-shape producer and with a first batch size that does not convert to the
sentinel value (any batch size below 2^31 that is not the sentinel value), the second
call leaves the shape of the first. -/
theorem C12_second_allocate_keeps_first_batch_size :
    (Node.allocateV (-1) 7 (Node.allocateV (-1) 4 (Node.new Op.Input
        (Keywords.ofArgs [Keyword.shape [-1, 3]]) 0 : Node ℚ))).shape_ = [4, 3]
    ∧ (Node.allocateV (-1) 7 (Node.allocateV (-1) 4 (Node.new Op.Input
        (Keywords.ofArgs [Keyword.shape [-1, 3]]) 0 : Node ℚ))).val_.shape = [4, 3]
    ∧ (∀ (whatevs : Int) (b1 b2 : Nat) (n : Node ℚ), n.op ≠ Op.Param →
        n.keywords.lazy_shape = none → dimOfBatchSize b1 ≠ whatevs →
        (Node.allocateV whatevs b2 (Node.allocateV whatevs b1 n)).shape_
          = (Node.allocateV whatevs b1 n).shape_)
    ∧ ∀ (whatevs : Int) (b1 b2 : Nat) (n : Node ℚ), n.op ≠ Op.Param →
        n.keywords.lazy_shape = none → b1 < 2147483648 → (b1 : Int) ≠ whatevs →
        (Node.allocateV whatevs b2 (Node.allocateV whatevs b1 n)).shape_
          = (Node.allocateV whatevs b1 n).shape_ := by
  have key : ∀ (whatevs : Int) (b1 b2 : Nat) (n : Node ℚ), n.op ≠ Op.Param →
      n.keywords.lazy_shape = none → dimOfBatchSize b1 ≠ whatevs →
      (Node.allocateV whatevs b2 (Node.allocateV whatevs b1 n)).shape_
        = (Node.allocateV whatevs b1 n).shape_ := ?_
  · exact ⟨rfl, rfl, key, fun whatevs b1 b2 n hop hl hlt hb =>
      key whatevs b1 b2 n hop hl (by rw [dimOfBatchSize_of_lt b1 hlt]; exact hb)⟩
  intro whatevs b1 b2 n hop hl hb
  have hV : ∀ (b : Nat) (m : Node ℚ), m.op = n.op →
      Node.allocateV whatevs b m = Node.allocate whatevs b m := by
    intro b m hm
    unfold Node.allocateV
    rw [hm]
    cases hn : n.op <;> simp_all
  have hop1 : (Node.allocate whatevs b1 n).op = n.op := by simp only [Node.allocate]
  rw [hV b1 n rfl, hV b2 _ hop1,
    Node.allocate_shape_of_no_producer whatevs b2 _
      (by rw [Node.allocate_keywords]; exact hl),
    Node.allocate_shape_of_no_producer whatevs b1 n hl, List.map_map]
  apply List.map_congr_left
  intro d _
  simp only [Function.comp]
  by_cases h : d = whatevs
  · simp [h, hb]
  · simp [h]

/-- C13: for a node of any class but ParamNode whose store has neither a deferred-shape
nor a deferred-value producer, and every batch size, a second `allocate` with the same
batch size changes nothing: the node after two calls is the node after one, so the
shape, the value tensor's allocation state and shape (and its contents) are the same. -/
theorem C13_allocate_idempotent (whatevs : Int) (b : Nat) (n : Node F)
    (hop : n.op ≠ Op.Param) (hl : n.keywords.lazy_shape = none)
    (hv : n.keywords.lazy_value = none) :
    Node.allocateV whatevs b (Node.allocateV whatevs b n) = Node.allocateV whatevs b n
    ∧ (Node.allocateV whatevs b (Node.allocateV whatevs b n)).shape_
        = (Node.allocateV whatevs b n).shape_
    ∧ (Node.allocateV whatevs b (Node.allocateV whatevs b n)).val_.allocated
        = (Node.allocateV whatevs b n).val_.allocated
    ∧ (Node.allocateV whatevs b (Node.allocateV whatevs b n)).val_.shape
        = (Node.allocateV whatevs b n).val_.shape := by
  have hV : ∀ (m : Node F), m.op = n.op →
      Node.allocateV whatevs b m = Node.allocate whatevs b m := by
    intro m hm
    unfold Node.allocateV
    rw [hm]
    cases hn : n.op <;> simp_all
  have hop1 : (Node.allocate whatevs b n).op = n.op := by simp only [Node.allocate]
  have hmap : List.map (fun d => if d = whatevs then dimOfBatchSize b else d)
      (List.map (fun d => if d = whatevs then dimOfBatchSize b else d) n.shape_)
      = List.map (fun d => if d = whatevs then dimOfBatchSize b else d) n.shape_ := by
    rw [List.map_map]
    apply List.map_congr_left
    intro d _
    simp only [Function.comp]
    by_cases h : d = whatevs
    · simp [h]
    · simp [h]
  have key : Node.allocate whatevs b (Node.allocate whatevs b n)
      = Node.allocate whatevs b n := by
    cases hval : n.keywords.value with
    | none => simp [Node.allocate, Node.resolveShape, hl, hv, hval, hmap, Tensor.allocate]
    | some v => simp [Node.allocate, Node.resolveShape, hl, hv, hval, hmap, Tensor.allocate]
  have h2 : Node.allocateV whatevs b (Node.allocateV whatevs b n)
      = Node.allocateV whatevs b n := by
    rw [hV n rfl, hV _ hop1, key]
  exact ⟨h2, by rw [h2], by rw [h2], by rw [h2]⟩

/-- C13, at a freshly built Input node of constructed shape (sentinel, 3) with sentinel -1
and batch size 4. -/
theorem C13_allocate_idempotent_witness :
    Node.allocateV (-1) 4 (Node.allocateV (-1) 4 (Node.new Op.Input
        (Keywords.ofArgs [Keyword.shape [-1, 3]]) 0 : Node ℚ))
      = Node.allocateV (-1) 4 (Node.new Op.Input
        (Keywords.ofArgs [Keyword.shape [-1, 3]]) 0 : Node ℚ) :=
  (C13_allocate_idempotent (-1) 4
    (Node.new Op.Input (Keywords.ofArgs [Keyword.shape [-1, 3]]) 0 : Node ℚ)
    (by decide) rfl rfl).1

/-! ## Construction of the leaf nodes -/

theorem Keywords.foldl_add_shape_isSome (args : List (Keyword F)) (kw : Keywords F) :
    (args.foldl Keywords.add kw).shape.isSome
      = (kw.shape.isSome || args.any Keyword.isShape) := by
  induction args generalizing kw with
  | nil => simp
  | cons k ks ih =>
    rw [List.foldl_cons, ih]
    cases k <;> simp [Keywords.add, Keyword.isShape]

theorem Keywords.foldl_add_lazy_shape_isSome (args : List (Keyword F)) (kw : Keywords F) :
    (args.foldl Keywords.add kw).lazy_shape.isSome
      = (kw.lazy_shape.isSome || args.any Keyword.isLazyShape) := by
  induction args generalizing kw with
  | nil => simp
  | cons k ks ih =>
    rw [List.foldl_cons, ih]
    cases k <;> simp [Keywords.add, Keyword.isLazyShape]

theorem Keywords.ofArgs_has_shape (args : List (Keyword F)) :
    (Keywords.ofArgs args).shape.isSome = args.any Keyword.isShape := by
  unfold Keywords.ofArgs
  rw [Keywords.foldl_add_shape_isSome]
  rfl

theorem Keywords.ofArgs_has_lazy_shape (args : List (Keyword F)) :
    (Keywords.ofArgs args).lazy_shape.isSome = args.any Keyword.isLazyShape := by
  unfold Keywords.ofArgs
  rw [Keywords.foldl_add_lazy_shape_isSome]
  rfl

/-- C14: for each leaf class (InputNode, ConstantNode, ParamNode) the constructor raises
its "... items require shape information" error exactly when no argument is a shape
keyword and no argument is a deferred-shape keyword; in every other case it returns the
node the base constructor built. -/
theorem C14_missing_shape_error (args : List (Keyword F)) (seed : Int) :
    ((InputNode.new args seed = .error (Err.thrown "Data items require shape information")
        ↔ (∀ k ∈ args, k.isShape = false ∧ k.isLazyShape = false))
      ∧ ((∃ k ∈ args, k.isShape = true ∨ k.isLazyShape = true) →
          InputNode.new args seed = .ok (Node.new .Input (Keywords.ofArgs args) seed)))
    ∧ ((ConstantNode.new args seed
          = .error (Err.thrown "Constant items require shape information")
        ↔ (∀ k ∈ args, k.isShape = false ∧ k.isLazyShape = false))
      ∧ ((∃ k ∈ args, k.isShape = true ∨ k.isLazyShape = true) →
          ConstantNode.new args seed
            = .ok (Node.new .Constant (Keywords.ofArgs args) seed)))
    ∧ ((ParamNode.new args seed = .error (Err.thrown "Param items require shape information")
        ↔ (∀ k ∈ args, k.isShape = false ∧ k.isLazyShape = false))
      ∧ ((∃ k ∈ args, k.isShape = true ∨ k.isLazyShape = true) →
          ParamNode.new args seed = .ok (Node.new .Param (Keywords.ofArgs args) seed))) := by
  have hcond : (!(Keywords.ofArgs args).shape.isSome && !(Keywords.ofArgs args).lazy_shape.isSome)
      = true ↔ (∀ k ∈ args, k.isShape = false ∧ k.isLazyShape = false) := by
    rw [Keywords.ofArgs_has_shape, Keywords.ofArgs_has_lazy_shape]
    simp only [Bool.and_eq_true, Bool.not_eq_true', List.any_eq_false, Bool.not_eq_true]
    constructor
    · intro h k hk
      exact ⟨h.1 k hk, h.2 k hk⟩
    · intro h
      exact ⟨fun k hk => (h k hk).1, fun k hk => (h k hk).2⟩
  have hex : (∃ k ∈ args, k.isShape = true ∨ k.isLazyShape = true) →
      ¬ (!(Keywords.ofArgs args).shape.isSome && !(Keywords.ofArgs args).lazy_shape.isSome)
        = true := by
    rintro ⟨k, hk, h⟩ hc
    have := (hcond.mp hc) k hk
    rcases h with h | h
    · rw [this.1] at h
      cases h
    · rw [this.2] at h
      cases h
  refine ⟨⟨?_, ?_⟩, ⟨?_, ?_⟩, ⟨?_, ?_⟩⟩
  · rw [← hcond]
    simp only [InputNode.new, Node.new]
    split_ifs with h <;> simp_all [throw, throwThe, MonadExceptOf.throw, pure, Except.pure]
  · intro h
    have := hex h
    simp only [InputNode.new, Node.new] at this ⊢
    rw [if_neg this]
    rfl
  · rw [← hcond]
    simp only [ConstantNode.new, Node.new]
    split_ifs with h <;> simp_all [throw, throwThe, MonadExceptOf.throw, pure, Except.pure]
  · intro h
    have := hex h
    simp only [ConstantNode.new, Node.new] at this ⊢
    rw [if_neg this]
    rfl
  · rw [← hcond]
    simp only [ParamNode.new, Node.new]
    split_ifs with h <;> simp_all [throw, throwThe, MonadExceptOf.throw, pure, Except.pure]
  · intro h
    have := hex h
    simp only [ParamNode.new, Node.new] at this ⊢
    rw [if_neg this]
    rfl

/-! ## Access to the tensors and filling of the gradient -/

/-- C15: `val()` raises "Tensor has not been allocated" exactly when the value tensor is
not allocated and otherwise returns it; `grad()` likewise for the gradient tensor. A
node is constructed with both tensors unallocated; `allocate` (of any class) leaves the
gradient tensor as it is, so it alone does not make `grad()` succeed; `allocate` makes
`val()` succeed (for a parameter, provided its initialiser keeps the tensor allocated);
`init_dependent` and `set_zero_adjoint` each make `grad()` succeed and leave `val()` as
it was. -/
theorem C15_unallocated_access (n : Node F) :
    (n.val = .error (Err.thrown "Tensor has not been allocated") ↔ n.val_.allocated = false)
    ∧ (n.val_.allocated = true → n.val = .ok n.val_)
    ∧ (n.grad = .error (Err.thrown "Tensor has not been allocated")
        ↔ n.adj_.allocated = false)
    ∧ (n.adj_.allocated = true → n.grad = .ok n.adj_)
    ∧ (∀ (op : Op) (kw : Keywords F) (seed : Int),
        (Node.new op kw seed).val = .error (Err.thrown "Tensor has not been allocated")
        ∧ (Node.new op kw seed).grad = .error (Err.thrown "Tensor has not been allocated"))
    ∧ (∀ (whatevs : Int) (b : Nat),
        (Node.allocateV whatevs b n).adj_ = n.adj_
        ∧ (Node.allocateV whatevs b n).grad = n.grad)
    ∧ (∀ (whatevs : Int) (b : Nat),
        (n.op = Op.Param → ∀ t : Tensor F, t.allocated = true → (n.init_ t).allocated = true) →
        (Node.allocateV whatevs b n).val = .ok (Node.allocateV whatevs b n).val_)
    ∧ (n.init_dependent.grad = .ok n.init_dependent.adj_
        ∧ n.init_dependent.val = n.val)
    ∧ (n.set_zero_adjoint.grad = .ok n.set_zero_adjoint.adj_
        ∧ n.set_zero_adjoint.val = n.val) := by
  have hval : ∀ m : Node F, m.val_.allocated = true → m.val = .ok m.val_ := by
    intro m h
    simp [Node.val, h]
  have hgrad : ∀ m : Node F, m.adj_.allocated = true → m.grad = .ok m.adj_ := by
    intro m h
    simp [Node.grad, h]
  have hadj : ∀ (whatevs : Int) (b : Nat), (Node.allocateV whatevs b n).adj_ = n.adj_ := by
    intro whatevs b
    unfold Node.allocateV
    cases hn : n.op <;>
      first
        | rfl
        | (simp only [ParamNode.allocate]; split_ifs <;> rfl)
  refine ⟨?_, hval n, ?_, hgrad n, ?_, ?_, ?_, ⟨?_, ?_⟩, ⟨?_, ?_⟩⟩
  · unfold Node.val
    cases h : n.val_.allocated <;> simp
  · unfold Node.grad
    cases h : n.adj_.allocated <;> simp
  · intro op kw seed
    exact ⟨rfl, rfl⟩
  · intro whatevs b
    refine ⟨hadj whatevs b, ?_⟩
    unfold Node.grad
    rw [hadj whatevs b]
  · intro whatevs b hinit
    apply hval
    unfold Node.allocateV
    cases hn : n.op <;>
      first
        | (simp only [Node.allocate]; split_ifs <;> rfl)
        | (simp only [ParamNode.allocate]
           split_ifs
           · exact hinit hn _ rfl
           · rfl)
  · apply hgrad
    unfold Node.init_dependent
    split_ifs with h
    · exact h
    · rfl
  · unfold Node.init_dependent Node.val
    split_ifs <;> rfl
  · apply hgrad
    unfold Node.set_zero_adjoint
    split_ifs with h
    · exact h
    · rfl
  · unfold Node.set_zero_adjoint Node.val
    split_ifs <;> rfl

/-- C16: whatever the gradient tensor of a node held (unallocated, or allocated with any
contents), after `init_dependent` it is allocated and every element is 1, after
`set_zero_adjoint` it is allocated and every element is 0; in both cases the node's
shape, value tensor and every other member are unchanged, a gradient that was
unallocated gets the node's current shape, and one that was allocated keeps its own. -/
theorem C16_gradient_fill (n : Node F) :
    (n.init_dependent.adj_.allocated = true
      ∧ (∀ i j, n.init_dependent.adj_.data i j = 1)
      ∧ n.init_dependent.shape_ = n.shape_
      ∧ n.init_dependent.val_ = n.val_
      ∧ n.init_dependent = { n with adj_ := n.init_dependent.adj_ }
      ∧ (n.adj_.allocated = false → n.init_dependent.adj_.shape = n.shape_)
      ∧ (n.adj_.allocated = true → n.init_dependent.adj_.shape = n.adj_.shape))
    ∧ (n.set_zero_adjoint.adj_.allocated = true
      ∧ (∀ i j, n.set_zero_adjoint.adj_.data i j = 0)
      ∧ n.set_zero_adjoint.shape_ = n.shape_
      ∧ n.set_zero_adjoint.val_ = n.val_
      ∧ n.set_zero_adjoint = { n with adj_ := n.set_zero_adjoint.adj_ }
      ∧ (n.adj_.allocated = false → n.set_zero_adjoint.adj_.shape = n.shape_)
      ∧ (n.adj_.allocated = true → n.set_zero_adjoint.adj_.shape = n.adj_.shape)) := by
  constructor
  · unfold Node.init_dependent
    split_ifs with h
    · simp [Tensor.set, h]
    · simp [Tensor.allocate, h]
  · unfold Node.set_zero_adjoint
    split_ifs with h
    · simp [Tensor.set, h]
    · simp [Tensor.allocate, h]

/-! ## Divide and ReLU -/

/-- C17: for a divide node that is not its own first parent, with distinct parents a and
b, adjoint adj and any prior contents gA, gB of the parents' gradients (all allocated
with one shape), `backward` succeeds and leaves, in every cell where b is not zero,
`a.grad = gA + adj / b` and `b.grad = gB - adj * a / b^2`; every other node, and
everything but the gradient in the two parents, is as before. -/
theorem C17_div_backward (K : Kernels F) (g : Graph F) (n a b : ChainPtr) (s : Shape)
    (hop : (g n).op = Op.Div a b) (hab : a ≠ b) (hna : n ≠ a)
    (hA : (g a).val_.allocated = true) (hAs : (g a).val_.shape = s)
    (hB : (g b).val_.allocated = true) (hBs : (g b).val_.shape = s)
    (hD : (g n).adj_.allocated = true) (hDs : (g n).adj_.shape = s)
    (hgA : (g a).adj_.allocated = true) (hgAs : (g a).adj_.shape = s)
    (hgB : (g b).adj_.allocated = true) (hgBs : (g b).adj_.shape = s) :
    ∃ g1, Node.backward K g n = .ok g1
      ∧ (∀ i j, (g b).val_.data i j ≠ 0 →
          (g1 a).adj_.data i j
            = (g a).adj_.data i j + (g n).adj_.data i j / (g b).val_.data i j)
      ∧ (∀ i j, (g b).val_.data i j ≠ 0 →
          (g1 b).adj_.data i j
            = (g b).adj_.data i j
              - (g n).adj_.data i j * (g a).val_.data i j / (g b).val_.data i j ^ 2)
      ∧ (∀ p, p ≠ a → p ≠ b → g1 p = g p)
      ∧ (g1 a).val_ = (g a).val_ ∧ (g1 b).val_ = (g b).val_ := by
  simp [Node.backward, hop, DivNodeOp.backward, Node.grad, Node.val, Element3, Element4,
    Graph.setGrad, Graph.put, bind, Except.bind, pure, Except.pure,
    Function.update_noteq, hab, hna, hab.symm, hna.symm,
    hA, hAs, hB, hBs, hD, hDs, hgA, hgAs, hgB, hgBs]
  refine ⟨?_, ?_⟩
  · intro i j _
    rw [pow_two]
  · intro p hpa hpb
    simp [Function.update_noteq, hpa, hpb]

/-- C17, at the divide node of the example store: `backward` succeeds. -/
theorem C17_div_backward_witness :
    ∃ g1, Node.backward exampleKernels exampleDivGraph 2 = .ok g1 :=
  (C17_div_backward exampleKernels exampleDivGraph 2 0 1 [2, 2] rfl
    (by decide) (by decide) rfl rfl rfl rfl rfl rfl rfl rfl rfl rfl).imp
    fun _ h => h.1

/-- C18: for a ReLU node over a distinct parent, all tensors allocated with one shape:
`forward` succeeds and sets `val = max(0, a)` in every cell; the test `val > 0` of
`backward` on that value holds exactly where `a > 0`; and `backward` then succeeds and
adds `adj` to the parent's gradient where `a > 0` and nothing where `a <= 0`, the cell
`a = 0` included. -/
theorem C18_relu_backward (K : Kernels F) (g : Graph F) (n a : ChainPtr) (s : Shape)
    (hop : (g n).op = Op.ReLU a) (hna : n ≠ a)
    (hA : (g a).val_.allocated = true) (hAs : (g a).val_.shape = s)
    (hV : (g n).val_.allocated = true) (hVs : (g n).val_.shape = s)
    (hD : (g n).adj_.allocated = true) (hDs : (g n).adj_.shape = s)
    (hG : (g a).adj_.allocated = true) (hGs : (g a).adj_.shape = s) :
    ∃ g1 g2, Node.forward K g n = .ok g1 ∧ Node.backward K g1 n = .ok g2
      ∧ (∀ i j, (g1 n).val_.data i j = max 0 ((g a).val_.data i j))
      ∧ (∀ i j, (g1 n).val_.data i j > 0 ↔ (g a).val_.data i j > 0)
      ∧ (∀ i j, (g a).val_.data i j > 0 →
          (g2 a).adj_.data i j = (g a).adj_.data i j + (g n).adj_.data i j)
      ∧ (∀ i j, (g a).val_.data i j ≤ 0 →
          (g2 a).adj_.data i j = (g a).adj_.data i j) := by
  have hf : Node.forward K g n
      = .ok (g.put n { g n with
          val_ := ⟨true, s, fun i j => max 0 ((g a).val_.data i j)⟩ }) := by
    simp [Node.forward, hop, ReLUNodeOp.forward, Node.val, Element2, Graph.setVal, bind,
      Except.bind, pure, Except.pure, hA, hAs, hV, hVs]
  have hb : Node.backward K
        (g.put n { g n with val_ := ⟨true, s, fun i j => max 0 ((g a).val_.data i j)⟩ }) n
      = .ok ((g.put n { g n with
            val_ := ⟨true, s, fun i j => max 0 ((g a).val_.data i j)⟩ }).put a
          { g a with
            adj_ := ⟨true, s, fun i j =>
              (g a).adj_.data i j
                + (g n).adj_.data i j * (if max 0 ((g a).val_.data i j) > 0 then 1 else 0)⟩ }) := by
    simp [Node.backward, hop, ReLUNodeOp.backward, Node.grad, Element3, Graph.setGrad,
      Graph.put, bind, Except.bind, pure, Except.pure, Function.update_noteq hna.symm,
      hD, hDs, hG, hGs]
  refine ⟨_, _, hf, hb, ?_, ?_, ?_, ?_⟩
  · intro i j
    simp [Graph.put]
  · intro i j
    simp [Graph.put]
  · intro i j h
    simp [Graph.put, Function.update_noteq hna.symm, h]
  · intro i j h
    simp [Graph.put, Function.update_noteq hna.symm, not_lt.mpr h]

/-- C18, at the ReLU node of the example store: `forward` succeeds. -/
theorem C18_relu_backward_witness :
    ∃ g1, Node.forward exampleKernels exampleReLUGraph 1 = .ok g1 := by
  obtain ⟨g1, _, h, _⟩ :=
    C18_relu_backward exampleKernels exampleReLUGraph 1 0 [2, 2] rfl (by decide)
      rfl rfl rfl rfl rfl rfl rfl rfl
  exact ⟨g1, h⟩

/-! ## The sigmoid -/

theorem hasDerivAt_sigmoid (a : ℝ) :
    HasDerivAt (fun x : ℝ => 1 / (1 + Real.exp (-x)))
      (1 / (1 + Real.exp (-a)) * (1 - 1 / (1 + Real.exp (-a)))) a := by
  have hpos : (1 + Real.exp (-a)) ≠ 0 := by
    have := Real.exp_pos (-a)
    linarith
  have h1 : HasDerivAt (fun x : ℝ => -x) (-1) a := (hasDerivAt_id a).neg
  have h2 : HasDerivAt (fun x : ℝ => Real.exp (-x)) (Real.exp (-a) * (-1)) a := h1.exp
  have h3 : HasDerivAt (fun x : ℝ => 1 + Real.exp (-x)) (Real.exp (-a) * (-1)) a :=
    h2.const_add 1
  have h4 := (hasDerivAt_const a (1 : ℝ)).div h3 hpos
  have hval : (0 * (1 + Real.exp (-a)) - 1 * (Real.exp (-a) * (-1))) / (1 + Real.exp (-a)) ^ 2
      = 1 / (1 + Real.exp (-a)) * (1 - 1 / (1 + Real.exp (-a))) := by
    field_simp
    ring
  rw [← hval]
  exact h4

/-- C19: over the real numbers, with the functor `Sigma` the sigmoid
`1 / (1 + e^(-a))`: the sigmoid has at every a the derivative `val * (1 - val)` with
`val = Sigma(a)`; for a Logit node over a distinct parent (all tensors allocated with one
shape) `forward` sets `val = Sigma(a)` in every cell, and `backward` then adds to the
parent's gradient, in every cell, `adj * val * (1 - val)`, which is `adj` times the
derivative of the sigmoid at a. -/
theorem C19_logit_backward_is_sigmoid_derivative (K : Kernels ℝ)
    (hS : ∀ a, K.Sigma a = 1 / (1 + Real.exp (-a)))
    (g : Graph ℝ) (n a : ChainPtr) (s : Shape)
    (hop : (g n).op = Op.Logit a) (hna : n ≠ a)
    (hA : (g a).val_.allocated = true) (hAs : (g a).val_.shape = s)
    (hV : (g n).val_.allocated = true) (hVs : (g n).val_.shape = s)
    (hD : (g n).adj_.allocated = true) (hDs : (g n).adj_.shape = s)
    (hG : (g a).adj_.allocated = true) (hGs : (g a).adj_.shape = s) :
    (∀ x : ℝ, HasDerivAt K.Sigma (K.Sigma x * (1 - K.Sigma x)) x)
    ∧ ∃ g1 g2, Node.forward K g n = .ok g1 ∧ Node.backward K g1 n = .ok g2
      ∧ (∀ i j, (g1 n).val_.data i j = K.Sigma ((g a).val_.data i j))
      ∧ (∀ i j, (g2 a).adj_.data i j
          = (g a).adj_.data i j
            + (g n).adj_.data i j * (g1 n).val_.data i j * (1 - (g1 n).val_.data i j))
      ∧ (∀ i j, (g n).adj_.data i j * (g1 n).val_.data i j * (1 - (g1 n).val_.data i j)
          = (g n).adj_.data i j * deriv K.Sigma ((g a).val_.data i j)) := by
  have hfun : K.Sigma = fun x : ℝ => 1 / (1 + Real.exp (-x)) := funext hS
  have hder : ∀ x : ℝ, HasDerivAt K.Sigma (K.Sigma x * (1 - K.Sigma x)) x := by
    intro x
    rw [hfun]
    exact hasDerivAt_sigmoid x
  have hf : Node.forward K g n
      = .ok (g.put n { g n with
          val_ := ⟨true, s, fun i j => K.Sigma ((g a).val_.data i j)⟩ }) := by
    simp [Node.forward, hop, LogitNodeOp.forward, Node.val, Element2, Graph.setVal, bind,
      Except.bind, pure, Except.pure, hA, hAs, hV, hVs]
  have hb : Node.backward K
        (g.put n { g n with val_ := ⟨true, s, fun i j => K.Sigma ((g a).val_.data i j)⟩ }) n
      = .ok ((g.put n { g n with
            val_ := ⟨true, s, fun i j => K.Sigma ((g a).val_.data i j)⟩ }).put a
          { g a with
            adj_ := ⟨true, s, fun i j =>
              (g a).adj_.data i j
                + (g n).adj_.data i j * K.Sigma ((g a).val_.data i j)
                  * (1 - K.Sigma ((g a).val_.data i j))⟩ }) := by
    simp [Node.backward, hop, LogitNodeOp.backward, Node.grad, Element3, Graph.setGrad,
      Graph.put, bind, Except.bind, pure, Except.pure, Function.update_noteq hna.symm,
      hD, hDs, hG, hGs]
  refine ⟨hder, _, _, hf, hb, ?_, ?_, ?_⟩
  · intro i j
    simp [Graph.put]
  · intro i j
    simp [Graph.put, Function.update_noteq hna.symm]
  · intro i j
    rw [(hder ((g a).val_.data i j)).deriv]
    simp [Graph.put, mul_assoc]

/-- C19, at the Logit node of the example store over the real numbers, with the sigmoid
as `Sigma`: `forward` and then `backward` succeed. -/
theorem C19_logit_backward_is_sigmoid_derivative_witness :
    ∃ g1 g2 : Graph ℝ,
      Node.forward (kernelsWithSigma fun a : ℝ => 1 / (1 + Real.exp (-a)))
        exampleLogitGraph 1 = .ok g1
      ∧ Node.backward (kernelsWithSigma fun a : ℝ => 1 / (1 + Real.exp (-a))) g1 1
        = .ok g2 := by
  obtain ⟨g1, g2, h1, h2, _⟩ :=
    (C19_logit_backward_is_sigmoid_derivative
      (kernelsWithSigma fun a : ℝ => 1 / (1 + Real.exp (-a))) (fun _ => rfl)
      exampleLogitGraph 1 0 [2, 2] rfl (by decide) rfl rfl rfl rfl rfl rfl rfl rfl).2
  exact ⟨g1, g2, h1, h2⟩

/-! ## Shape of the unary operators -/

theorem Keywords.ofArgs_shape_cons_cons (s1 s2 : Shape) (args : List (Keyword F))
    (hargs : ∀ k ∈ args, k.isShape = false) :
    (Keywords.ofArgs (Keyword.shape s1 :: Keyword.shape s2 :: args)).shape = some s2 := by
  unfold Keywords.ofArgs
  rw [List.foldl_cons, List.foldl_cons, Keywords.foldl_add_shape args hargs]
  rfl

/-- C20: for a parent of shape (r, c), and no shape keyword among the caller's arguments,
the constructor of ArgmaxNodeOp succeeds and the node's shape is (r, 1): the shape
keyword with `newShape(a)`, which ArgmaxNodeOp passes, is stored after the one with the
parent's shape, which UnaryNodeOp passes first, and replaces it. A unary operator that
passes no shape of its own, such as Logit, has the parent's shape (r, c). -/
theorem C20_argmax_shape (g : Graph F) (a : ChainPtr) (r c : Int)
    (args : List (Keyword F)) (seed : Int)
    (ha : (g a).shape_ = [r, c]) (hargs : ∀ k ∈ args, k.isShape = false) :
    ArgmaxNodeOp.newShape (g a).shape = .ok [r, 1]
    ∧ (∃ n, ArgmaxNodeOp.new g a args seed = .ok n ∧ n.shape_ = [r, 1]
        ∧ n.op = Op.Argmax a
        ∧ n.keywords = Keywords.ofArgs
            (Keyword.shape [r, c] :: Keyword.shape [r, 1] :: args))
    ∧ (LogitNodeOp.new g a args seed).shape_ = [r, c] := by
  have hs : ArgmaxNodeOp.newShape (g a).shape = .ok [r, 1] := by
    simp [ArgmaxNodeOp.newShape, Node.shape, ha, Shape.assign]
  refine ⟨hs, ⟨Node.new (.Argmax a)
    (Keywords.ofArgs (Keyword.shape [r, c] :: Keyword.shape [r, 1] :: args)) seed,
    ?_, ?_, rfl, rfl⟩, ?_⟩
  · rw [ArgmaxNodeOp.new, hs]
    simp only [bind, Except.bind, pure, Except.pure, UnaryNodeOp.new, Node.shape, ha]
  · simp [Node.new, Keywords.ofArgs_shape_cons_cons _ _ args hargs]
  · simp [LogitNodeOp.new, UnaryNodeOp.new, Node.new, Node.shape, ha,
      Keywords.ofArgs_shape_cons _ args hargs]

/-- C20, at the example store, whose node at address 0 has shape (2 x 3): the argmax
node over it has shape (2 x 1). -/
theorem C20_argmax_shape_witness :
    ∃ n, ArgmaxNodeOp.new exampleDotGraph 0 [] 0 = .ok n ∧ n.shape_ = [2, 1] := by
  obtain ⟨n, h1, h2, _⟩ :=
    (C20_argmax_shape exampleDotGraph 0 2 3 [] 0 rfl (by simp)).2.1
  exact ⟨n, h1, h2⟩

/-! ## A node as both parents of a product -/

/-- C21: for a MultNodeOp whose two parents are the same node x (distinct from the
operator node), all tensors allocated with one shape, one `backward` call succeeds and
leaves x's gradient, in every cell, increased by exactly `2 * adj * x.val`: the first
accumulation leaves `gX + adj * x.val` in x's gradient tensor, the second reads that
tensor and adds `adj * x.val` again. Nothing but x's gradient changes. -/
theorem C21_mult_self_alias (K : Kernels F) (g : Graph F) (n x : ChainPtr) (s : Shape)
    (hop : (g n).op = Op.Mult x x) (hnx : n ≠ x)
    (hX : (g x).val_.allocated = true) (hXs : (g x).val_.shape = s)
    (hD : (g n).adj_.allocated = true) (hDs : (g n).adj_.shape = s)
    (hG : (g x).adj_.allocated = true) (hGs : (g x).adj_.shape = s) :
    ∃ g1, Node.backward K g n = .ok g1
      ∧ (∀ i j, (g1 x).adj_.data i j
          = (g x).adj_.data i j + 2 * (g n).adj_.data i j * (g x).val_.data i j)
      ∧ (∀ i j, (g1 x).adj_.data i j
          = ((g x).adj_.data i j + (g n).adj_.data i j * (g x).val_.data i j)
            + (g n).adj_.data i j * (g x).val_.data i j)
      ∧ (∀ p, p ≠ x → g1 p = g p)
      ∧ g1 x = { g x with adj_ := (g1 x).adj_ }
      ∧ (g1 x).adj_.allocated = true ∧ (g1 x).adj_.shape = s := by
  simp [Node.backward, hop, MultNodeOp.backward, Node.grad, Node.val, Element3,
    Graph.setGrad, Graph.put, bind, Except.bind, pure, Except.pure,
    Function.update_noteq hnx, hX, hXs, hD, hDs, hG, hGs]
  refine ⟨?_, ?_⟩
  · intro i j
    ring
  · intro p hp
    simp [Function.update_noteq hp]

/-- C21, at the square node of the example store: `backward` succeeds. -/
theorem C21_mult_self_alias_witness :
    ∃ g1, Node.backward exampleKernels exampleSquareGraph 1 = .ok g1 :=
  (C21_mult_self_alias exampleKernels exampleSquareGraph 1 0 [2, 2] rfl (by decide)
    rfl rfl rfl rfl rfl rfl).imp fun _ h => h.1

end marian
